import Mathlib

/-! rpidmx512: Art-Net poll table and sACN sequence registry

A shallow embedding of `lib-artnet/src/artnetpolltable.cpp`, of the sequence registry and the
packet handlers of `lib-e131/src/e131controller.cpp`, of the timeout accessors and the merge of
`lib-artnet/include/artnetnode.h`, and of `WS28xxMulti::Initialize`
(`lib-ws28xx/src/ws28xxmulti.cpp`).

Conventions of the embedding.

* A C array is a `List` whose length is the size of the array.  Every read and every write of
  an element goes through `readAt` / `writeAt`, which report an access outside the array as a
  `Fault` naming the array and the index.  The C program has no defined behaviour after such an
  access, so a run of the model stops there.
* Machine integers are natural numbers (or `Int` for the `int32_t` loop variables that can reach
  `-1`); wrap-around is written out where the source relies on it.
* `Hardware::Get()->Millis()` is an argument of the operation that reads the clock.
* The build is the release build (`NDEBUG` defined): `assert` is a no-op and the blocks under
  `#ifndef NDEBUG` (MAC address and node names) are not compiled.  `ws28xxmulti.cpp` undefines
  `NDEBUG`, so the `assert` of `WS28xxMulti::Initialize` is kept.
* Constants, macros and functions that come from files outside the embedded sources are the
  fields of `Constants`, `E131Constants` and `WS28xxConstants`.
-/

namespace RpiDmx512

/-- Access outside one of the arrays of the program (undefined behaviour in C), or a loop of the
model that was given too little fuel. -/
inductive Fault where
  /-- `m_pPollTable[i]` with `i` outside the node array. -/
  | pollTable (i : Nat)
  /-- `m_pPollTable[..].Universe[i]` outside the per-node universe array. -/
  | nodeUniverse (i : Nat)
  /-- `m_pTableUniverses[i]` outside the universe registry. -/
  | tableUniverses (i : Nat)
  /-- a `pIpAddresses` pointer that is none of the arrays of `m_pIpAddresses`. -/
  | ipPointer (i : Nat)
  /-- `pIpAddresses[i]` outside the IP array of a universe. -/
  | ipAddresses (i : Nat)
  /-- `s_SequenceNumbers[i]` outside the 512-entry sequence registry. -/
  | sequenceNumbers (i : Nat)
  /-- `DMPLayer.PropertyValues[i]` outside the property values of the data packet. -/
  | propertyValues (i : Nat)
  /-- `pDmxData[i]` outside the buffer handed to `HandleDmxOut`. -/
  | dmxData (i : Nat)
  /-- `UniverseDiscoveryLayer.ListOfUniverses[i]` outside the list of the discovery packet. -/
  | listOfUniverses (i : Nat)
  /-- the fuel of a loop of the model ran out (the binary search is given enough, see
  `search_fuel`; the loop of `HandleBlackout` ends on every reached registry, see
  `C16_blackout_packets`). -/
  | fuel
  deriving DecidableEq

/-- Read `xs[i]`; an index outside the array is the fault `f i`. -/
def readAt {α : Type} (f : Nat → Fault) (xs : List α) (i : Nat) : Except Fault α :=
  match xs[i]? with
  | some v => .ok v
  | none => .error (f i)

/-- Write `xs[i] = v`; an index outside the array is the fault `f i`. -/
def writeAt {α : Type} (f : Nat → Fault) (xs : List α) (i : Nat) (v : α) :
    Except Fault (List α) :=
  if i < xs.length then .ok (xs.set i v) else .error (f i)

/-- The builtin `__builtin_bswap32` on a 32-bit value. -/
def bswap32 (x : Nat) : Nat :=
  (x % 256) * 16777216 + (x / 256 % 256) * 65536 + (x / 65536 % 256) * 256
    + (x / 16777216 % 256)

/-- The builtin `__builtin_bswap16` on a 16-bit value. -/
def bswap16 (x : Nat) : Nat :=
  (x % 256) * 256 + (x / 256 % 256)

/-- The loops `for (int32_t i = n - 1; i >= nLow; i--) p[i + 1] = p[i];` that make room for an
insertion (`memcpy` of node entries in `ArtNetPollTable::Add`, `p64[i + 1] = p64[i]` in
`E131Controller::GetSequenceNumber`).  The second argument is `i + 1`, so `0` stands for
`i = -1`, which is below every `nLow` the search produces. -/
def moveRight {α : Type} (f : Nat → Fault) (nLow : Int) : Nat → List α → Except Fault (List α)
  | 0, p => .ok p
  | i + 1, p =>
    if nLow ≤ (i : Int) then
      match readAt f p i with
      | .error e => .error e
      | .ok src =>
        match writeAt f p (i + 1) src with
        | .error e => .error e
        | .ok p => moveRight f nLow i p
    else .ok p

/-- The loops `for (i = first; i < last; i++) p[i] = p[i + 1];` that close a gap (the two loops
of `RemoveIpAddress`, where the three fields of a registry entry are copied one by one, and the
`memcpy` loop of `Clean`).  The second argument counts the iterations left, the third is `i`;
the result carries the final `i`. -/
def moveLeft {α : Type} (f : Nat → Fault) : Nat → Nat → List α → Except Fault (List α × Nat)
  | 0, i, p => .ok (p, i)
  | k + 1, i, p =>
    match readAt f p (i + 1) with
    | .error e => .error e
    | .ok src =>
      match writeAt f p i src with
      | .error e => .error e
      | .ok p => moveLeft f k (i + 1) p

/-- Outcome of the binary search loop shared by `ArtNetPollTable::Add` and
`E131Controller::GetSequenceNumber`: either the `break`/`return` in the loop at index `nMid`,
or the loop ran to `nLow > nHigh` and the final values of `nLow`, `nMid`, `nHigh` are kept
(`nMid` is only meaningful after at least one iteration). -/
inductive Search where
  | found (nMid : Nat)
  | notFound (nLow : Int) (nMid : Int) (nHigh : Int)
  deriving DecidableEq

/-- The loop `while (nLow <= nHigh) { nMid = nLow + ((nHigh - nLow) / 2); ... }` over the key
read by `key` (which faults outside the array), looking for `x`. -/
def searchLoop (key : Nat → Except Fault Nat) (x : Nat) :
    Nat → Int → Int → Int → Except Fault Search
  | 0, _, _, _ => .error Fault.fuel
  | fuel + 1, nLow, nMid, nHigh =>
    if nLow ≤ nHigh then
      let nMid := nLow + ((nHigh - nLow) / 2)
      match key nMid.toNat with
      | .error e => .error e
      | .ok nMidValue =>
        if nMidValue < x then searchLoop key x fuel (nMid + 1) nMid nHigh
        else if nMidValue > x then searchLoop key x fuel nLow nMid (nMid - 1)
        else .ok (Search.found nMid.toNat)
    else .ok (Search.notFound nLow nMid nHigh)

/-- The binary search as both callers start it: `nLow = 0`, `nHigh = n` (the number of entries,
so the slot one past the last entry is part of the searched range). -/
def search (key : Nat → Except Fault Nat) (x : Nat) (n : Nat) : Except Fault Search :=
  searchLoop key x (n + 2) 0 0 n

/-! ## Art-Net poll table -/

/-- Constants of `artnet.h` / `artnetpolltable.h` used by the poll table. -/
structure Constants where
  ARTNET_POLL_TABLE_SIZE_ENRIES : Nat
  ARTNET_POLL_TABLE_SIZE_UNIVERSES : Nat
  ARTNET_POLL_TABLE_SIZE_NODE_UNIVERSES : Nat
  ARTNET_POLL_INTERVAL_MILLIS : Nat
  ARTNET_MAX_PORTS : Nat
  ARTNET_ENABLE_OUTPUT : Nat
  deriving DecidableEq

structure TArtNetNodeEntryUniverse where
  nUniverse : Nat
  nLastUpdateMillis : Nat
  deriving DecidableEq

structure TArtNetNodeEntry where
  IPAddress : Nat
  nUniversesCount : Nat
  Universe : List TArtNetNodeEntryUniverse
  deriving DecidableEq

/-- One entry of the universe registry; `pIpAddresses` is the index in `m_pIpAddresses` of the
array the pointer of the source points to. -/
structure TArtNetPollTableUniverses where
  nUniverse : Nat
  nCount : Nat
  pIpAddresses : Nat
  deriving DecidableEq

structure TArtNetPollTableClean where
  nTableIndex : Nat
  nUniverseIndex : Nat
  bOffLine : Bool
  deriving DecidableEq

/-- The fields of `struct TArtPollReply` that `Add` reads in the release build.  `IPAddress` is
the value of `ip.u32` after the `memcpy` of the four address bytes. -/
structure TArtPollReply where
  IPAddress : Nat
  NetSwitch : Nat
  SubSwitch : Nat
  PortTypes : List Nat
  SwOut : List Nat
  deriving DecidableEq

structure ArtNetPollTable where
  m_pPollTable : List TArtNetNodeEntry
  m_nPollTableEntries : Nat
  m_pTableUniverses : List TArtNetPollTableUniverses
  m_pIpAddresses : List (List Nat)
  m_nTableUniversesEntries : Nat
  m_tTableClean : TArtNetPollTableClean
  deriving DecidableEq

namespace ArtNetPollTable

/-- A node entry after `memset(.., 0, sizeof(struct TArtNetNodeEntry))`. -/
def zeroEntry (c : Constants) : TArtNetNodeEntry :=
  { IPAddress := 0, nUniversesCount := 0,
    Universe := List.replicate c.ARTNET_POLL_TABLE_SIZE_NODE_UNIVERSES ⟨0, 0⟩ }

/-- The constructor `ArtNetPollTable::ArtNetPollTable`: both tables zeroed, registry entry `k`
pointing to the IP array `m_pIpAddresses[k]` (whose content the source leaves uninitialised and
never reads before writing; it is zero here). -/
def init (c : Constants) : ArtNetPollTable :=
  { m_pPollTable := List.replicate c.ARTNET_POLL_TABLE_SIZE_ENRIES (zeroEntry c)
    m_nPollTableEntries := 0
    m_pTableUniverses :=
      (List.range c.ARTNET_POLL_TABLE_SIZE_UNIVERSES).map fun k => ⟨0, 0, k⟩
    m_pIpAddresses :=
      List.replicate c.ARTNET_POLL_TABLE_SIZE_UNIVERSES
        (List.replicate c.ARTNET_POLL_TABLE_SIZE_ENRIES 0)
    m_nTableUniversesEntries := 0
    m_tTableClean := ⟨0, 0, true⟩ }

/-- `ArtNetPollTable::MakePortAddress`, with its `uint8_t` arguments. -/
def MakePortAddress (nNetSwitch nSubSwitch nUniverse : Nat) : Nat :=
  (((nNetSwitch &&& 0x7F) <<< 8) ||| ((nSubSwitch &&& 0x0F) <<< 4) ||| (nUniverse &&& 0x0F))
    % 65536

/-- The loop `for (nEntry = 0; nEntry < m_nTableUniversesEntries; nEntry++)` with its `break`
on `nUniverse`; the first argument counts the iterations left.  The result is the final
`nEntry`. -/
def scanUniverse (tu : List TArtNetPollTableUniverses) (nUniverse : Nat) :
    Nat → Nat → Except Fault Nat
  | 0, nEntry => .ok nEntry
  | k + 1, nEntry =>
    match readAt Fault.tableUniverses tu nEntry with
    | .error e => .error e
    | .ok p => if p.nUniverse = nUniverse then .ok nEntry else scanUniverse tu nUniverse k (nEntry + 1)

/-- The loop over `pIpAddresses[0 .. nCount)` with its `break` on `nIpAddress`; the result is
the final index. -/
def scanIp (p32 : List Nat) (nIpAddress : Nat) : Nat → Nat → Except Fault Nat
  | 0, nIndex => .ok nIndex
  | k + 1, nIndex =>
    match readAt Fault.ipAddresses p32 nIndex with
    | .error e => .error e
    | .ok v => if v = nIpAddress then .ok nIndex else scanIp p32 nIpAddress k (nIndex + 1)

/-- `ArtNetPollTable::GetIpAddress`: the registry entry of `nUniverse` (the source returns a
pointer to it), or `none` for the null pointer. -/
def GetIpAddress (t : ArtNetPollTable) (nUniverse : Nat) :
    Except Fault (Option TArtNetPollTableUniverses) :=
  if t.m_nTableUniversesEntries = 0 then .ok none
  else
    match scanUniverse t.m_pTableUniverses nUniverse t.m_nTableUniversesEntries 0 with
    | .error e => .error e
    | .ok nEntry =>
      if nEntry < t.m_nTableUniversesEntries then
        match readAt Fault.tableUniverses t.m_pTableUniverses nEntry with
        | .error e => .error e
        | .ok p => .ok (some p)
      else .ok none

/-- The IP addresses a caller of `GetIpAddress` sees through the returned pointer:
`pIpAddresses[0 .. nCount)`; `[]` stands for the null result. -/
def ipAddressesOf (t : ArtNetPollTable) (nUniverse : Nat) : Except Fault (List Nat) :=
  match GetIpAddress t nUniverse with
  | .error e => .error e
  | .ok none => .ok []
  | .ok (some p) =>
    match readAt Fault.ipPointer t.m_pIpAddresses p.pIpAddresses with
    | .error e => .error e
    | .ok p32 => .ok (p32.take p.nCount)

/-- `ArtNetPollTable::RemoveIpAddress`.  `nCount--` is only reached with `nCount > 0` on the
registered entries (the `assert` of the source); it is the predecessor here. -/
def RemoveIpAddress (t : ArtNetPollTable) (nUniverse nIpAddress : Nat) :
    Except Fault ArtNetPollTable :=
  if t.m_nTableUniversesEntries = 0 then .ok t
  else do
    let nEntry ← scanUniverse t.m_pTableUniverses nUniverse t.m_nTableUniversesEntries 0
    if nEntry = t.m_nTableUniversesEntries then
      -- Universe not found
      pure t
    else
      let pTableUniverses ← readAt Fault.tableUniverses t.m_pTableUniverses nEntry
      let p32 ← readAt Fault.ipPointer t.m_pIpAddresses pTableUniverses.pIpAddresses
      let nIpAddressIndex ← scanIp p32 nIpAddress pTableUniverses.nCount 0
      let (p32, i) ← moveLeft Fault.ipAddresses (pTableUniverses.nCount - 1 - nIpAddressIndex) nIpAddressIndex p32
      let p32 ← writeAt Fault.ipAddresses p32 i 0
      let ips ← writeAt Fault.ipPointer t.m_pIpAddresses pTableUniverses.pIpAddresses p32
      let pTableUniverses := { pTableUniverses with nCount := pTableUniverses.nCount - 1 }
      let tu ← writeAt Fault.tableUniverses t.m_pTableUniverses nEntry pTableUniverses
      if pTableUniverses.nCount = 0 then
        let (p, i) ← moveLeft Fault.tableUniverses (t.m_nTableUniversesEntries - 1 - nEntry) nEntry tu
        let last ← readAt Fault.tableUniverses p i
        let p ← writeAt Fault.tableUniverses p i { last with nUniverse := 0, nCount := 0 }
        pure { t with m_pIpAddresses := ips, m_pTableUniverses := p,
                      m_nTableUniversesEntries := t.m_nTableUniversesEntries - 1 }
      else
        pure { t with m_pIpAddresses := ips, m_pTableUniverses := tu }

/-- `ArtNetPollTable::ProcessUniverse`. -/
def ProcessUniverse (t : ArtNetPollTable) (nIpAddress nUniverse : Nat) :
    Except Fault ArtNetPollTable := do
  let nEntry ← scanUniverse t.m_pTableUniverses nUniverse t.m_nTableUniversesEntries 0
  let bFoundUniverse := decide (nEntry < t.m_nTableUniversesEntries)
  if bFoundUniverse then
    let pTableUniverses ← readAt Fault.tableUniverses t.m_pTableUniverses nEntry
    let p32 ← readAt Fault.ipPointer t.m_pIpAddresses pTableUniverses.pIpAddresses
    let nCount ← scanIp p32 nIpAddress pTableUniverses.nCount 0
    let bFoundIp := decide (nCount < pTableUniverses.nCount)
    if bFoundIp then
      pure t
    else
      -- It is a new IP for the Universe
      let p32 ← writeAt Fault.ipAddresses p32 pTableUniverses.nCount nIpAddress
      let ips ← writeAt Fault.ipPointer t.m_pIpAddresses pTableUniverses.pIpAddresses p32
      let tu ← writeAt Fault.tableUniverses t.m_pTableUniverses nEntry
        { pTableUniverses with nCount := pTableUniverses.nCount + 1 }
      pure { t with m_pIpAddresses := ips, m_pTableUniverses := tu }
  else
    -- New universe
    let pTableUniverses ← readAt Fault.tableUniverses t.m_pTableUniverses nEntry
    let pTableUniverses := { pTableUniverses with nUniverse := nUniverse }
    let p32 ← readAt Fault.ipPointer t.m_pIpAddresses pTableUniverses.pIpAddresses
    let p32 ← writeAt Fault.ipAddresses p32 pTableUniverses.nCount nIpAddress
    let ips ← writeAt Fault.ipPointer t.m_pIpAddresses pTableUniverses.pIpAddresses p32
    let tu ← writeAt Fault.tableUniverses t.m_pTableUniverses nEntry
      { pTableUniverses with nCount := pTableUniverses.nCount + 1 }
    pure { t with m_pIpAddresses := ips, m_pTableUniverses := tu,
                  m_nTableUniversesEntries := t.m_nTableUniversesEntries + 1 }

/-- The loop of `Add` over `m_pPollTable[i].Universe[0 .. nUniversesCount)` with its `break` on
`nUniverse`; the result is the final `nIndexUniverse`. -/
def scanNodeUniverse (us : List TArtNetNodeEntryUniverse) (nUniverse : Nat) :
    Nat → Nat → Except Fault Nat
  | 0, nIndexUniverse => .ok nIndexUniverse
  | k + 1, nIndexUniverse =>
    match readAt Fault.nodeUniverse us nIndexUniverse with
    | .error e => .error e
    | .ok u =>
      if u.nUniverse = nUniverse then .ok nIndexUniverse
      else scanNodeUniverse us nUniverse k (nIndexUniverse + 1)

/-- The statement `m_pPollTable[i].Universe[nIndexUniverse].nLastUpdateMillis = nMillis`. -/
def setLastUpdateMillis (t : ArtNetPollTable) (i nIndexUniverse nMillis : Nat) :
    Except Fault ArtNetPollTable := do
  let e ← readAt Fault.pollTable t.m_pPollTable i
  let u ← readAt Fault.nodeUniverse e.Universe nIndexUniverse
  let us ← writeAt Fault.nodeUniverse e.Universe nIndexUniverse { u with nLastUpdateMillis := nMillis }
  let p ← writeAt Fault.pollTable t.m_pPollTable i { e with Universe := us }
  pure { t with m_pPollTable := p }

/-- The body of the loop of `Add` over the ports of the reply, for port `nIndex` and the node
entry `i`.  `PortTypes` and `SwOut` are the `ARTNET_MAX_PORTS`-element arrays of the reply. -/
def addPort (c : Constants) (r : TArtPollReply) (nMillis i : Nat) (t : ArtNetPollTable)
    (nIndex : Nat) : Except Fault ArtNetPollTable := do
  let nPortAddress := r.SwOut.getD nIndex 0
  if r.PortTypes.getD nIndex 0 = c.ARTNET_ENABLE_OUTPUT then
    let nUniverse := MakePortAddress r.NetSwitch r.SubSwitch nPortAddress
    let e ← readAt Fault.pollTable t.m_pPollTable i
    let nIndexUniverse ← scanNodeUniverse e.Universe nUniverse e.nUniversesCount 0
    if nIndexUniverse = e.nUniversesCount then
      -- Not found
      if e.nUniversesCount < c.ARTNET_POLL_TABLE_SIZE_NODE_UNIVERSES then
        let u ← readAt Fault.nodeUniverse e.Universe nIndexUniverse
        let us ← writeAt Fault.nodeUniverse e.Universe nIndexUniverse { u with nUniverse := nUniverse }
        let p ← writeAt Fault.pollTable t.m_pPollTable i
          { e with nUniversesCount := e.nUniversesCount + 1, Universe := us }
        let t ← ProcessUniverse { t with m_pPollTable := p } r.IPAddress nUniverse
        setLastUpdateMillis t i nIndexUniverse nMillis
      else
        -- No room
        pure t
    else
      setLastUpdateMillis t i nIndexUniverse nMillis
  else
    pure t

/-- The loop `for (nIndex = 0; nIndex < ARTNET_MAX_PORTS; nIndex++)` of `Add`; the first
argument counts the iterations left. -/
def addPorts (c : Constants) (r : TArtPollReply) (nMillis i : Nat) :
    Nat → Nat → ArtNetPollTable → Except Fault ArtNetPollTable
  | 0, _, t => .ok t
  | k + 1, nIndex, t =>
    match addPort c r nMillis i t nIndex with
    | .error e => .error e
    | .ok t => addPorts c r nMillis i k (nIndex + 1) t

/-- The key the binary search of `Add` reads at `nMid`:
`__builtin_bswap32(m_pPollTable[nMid].IPAddress)`. -/
def nodeKey (t : ArtNetPollTable) (nMid : Nat) : Except Fault Nat :=
  match readAt Fault.pollTable t.m_pPollTable nMid with
  | .error e => .error e
  | .ok e => .ok (bswap32 e.IPAddress)

/-- The part of `Add` under `if (!bFound)` after the capacity test: make room at the sorted
position (or take the slot after the last entry), store the IP and count the entry.  The result
carries the index `i` of the entry. -/
def insertNode (c : Constants) (t : ArtNetPollTable) (r : TArtPollReply) (nLow nHigh : Int) :
    Except Fault (ArtNetPollTable × Nat) := do
  let (p, i) ←
    if (t.m_nPollTableEntries : Int) ≠ nHigh % 4294967296 then do
      -- Move
      let p ← moveRight Fault.pollTable nLow t.m_nPollTableEntries t.m_pPollTable
      let p ← writeAt Fault.pollTable p nLow.toNat (zeroEntry c)
      pure (p, nLow.toNat)
    else
      pure (t.m_pPollTable, t.m_nPollTableEntries)
  let e ← readAt Fault.pollTable p i
  let p ← writeAt Fault.pollTable p i { e with IPAddress := r.IPAddress }
  pure ({ t with m_pPollTable := p, m_nPollTableEntries := t.m_nPollTableEntries + 1 }, i)

/-- `ArtNetPollTable::Add`, called when `Hardware::Get()->Millis()` is `nMillis`. -/
def Add (c : Constants) (t : ArtNetPollTable) (r : TArtPollReply) (nMillis : Nat) :
    Except Fault ArtNetPollTable :=
  match search (nodeKey t) (bswap32 r.IPAddress) t.m_nPollTableEntries with
  | .error e => .error e
  | .ok (Search.found i) => addPorts c r nMillis i c.ARTNET_MAX_PORTS 0 t
  | .ok (Search.notFound nLow _ nHigh) =>
    if t.m_nPollTableEntries = c.ARTNET_POLL_TABLE_SIZE_ENRIES then
      -- Full
      .ok t
    else
      match insertNode c t r nLow nHigh with
      | .error e => .error e
      | .ok (t, i) => addPorts c r nMillis i c.ARTNET_MAX_PORTS 0 t

/-- The test `(Millis() - nLastUpdateMillis) > (1.5 * ARTNET_POLL_INTERVAL_MILLIS)` of `Clean`:
the difference is taken in `uint32_t`, the comparison in `double`, where both sides are exact,
so it is `2 * difference > 3 * ARTNET_POLL_INTERVAL_MILLIS`. -/
def isStale (c : Constants) (nMillis nLastUpdateMillis : Nat) : Bool :=
  decide (2 * ((nMillis + 4294967296 - nLastUpdateMillis) % 4294967296)
    > 3 * c.ARTNET_POLL_INTERVAL_MILLIS)

/-- The block of `Clean` under `if (m_tTableClean.bOffLine)`: remove the node entry at
`nTableIndex`, compacting the array and clearing the vacated slot. -/
def removeNode (c : Constants) (t : ArtNetPollTable) (nTableIndex : Nat) :
    Except Fault ArtNetPollTable := do
  let (p, _) ← moveLeft Fault.pollTable (t.m_nPollTableEntries - 1 - nTableIndex) nTableIndex
    t.m_pPollTable
  let n := t.m_nPollTableEntries - 1
  let p ← writeAt Fault.pollTable p n (zeroEntry c)
  pure { t with m_pPollTable := p, m_nPollTableEntries := n }

/-- The first half of `Clean` (source lines 340-353): look at the slot under the cursor.  The
result carries the value of `m_tTableClean.bOffLine` after it. -/
def cleanSlot (c : Constants) (t : ArtNetPollTable) (nMillis : Nat) :
    Except Fault (ArtNetPollTable × Bool) := do
  let bOffLine := if t.m_tTableClean.nUniverseIndex = 0 then true else t.m_tTableClean.bOffLine
  let e ← readAt Fault.pollTable t.m_pPollTable t.m_tTableClean.nTableIndex
  let bind ← readAt Fault.nodeUniverse e.Universe t.m_tTableClean.nUniverseIndex
  if bind.nLastUpdateMillis ≠ 0 then
    if isStale c nMillis bind.nLastUpdateMillis then
      let us ← writeAt Fault.nodeUniverse e.Universe t.m_tTableClean.nUniverseIndex
        { bind with nLastUpdateMillis := 0 }
      let p ← writeAt Fault.pollTable t.m_pPollTable t.m_tTableClean.nTableIndex
        { e with Universe := us }
      let t ← RemoveIpAddress { t with m_pPollTable := p } bind.nUniverse e.IPAddress
      pure (t, bOffLine)
    else
      pure (t, false)
  else
    pure (t, bOffLine)

/-- `ArtNetPollTable::Clean`, called when `Hardware::Get()->Millis()` is `nMillis`. -/
def Clean (c : Constants) (t : ArtNetPollTable) (nMillis : Nat) : Except Fault ArtNetPollTable :=
  if t.m_nPollTableEntries = 0 then .ok t
  else do
    let (t1, bOffLine) ← cleanSlot c t nMillis
    let nUniverseIndex := t.m_tTableClean.nUniverseIndex + 1
    if nUniverseIndex = c.ARTNET_POLL_TABLE_SIZE_NODE_UNIVERSES then
      let t2 ← if bOffLine then removeNode c t1 t.m_tTableClean.nTableIndex else pure t1
      let nTableIndex := t.m_tTableClean.nTableIndex + 1
      let nTableIndex := if nTableIndex ≥ t2.m_nPollTableEntries then 0 else nTableIndex
      pure { t2 with m_tTableClean := ⟨nTableIndex, 0, true⟩ }
    else
      pure { t1 with m_tTableClean := ⟨t.m_tTableClean.nTableIndex, nUniverseIndex, bOffLine⟩ }

end ArtNetPollTable

/-! ## sACN sequence registry (`E131Controller`) -/

structure TSequenceNumbers where
  nUniverse : Nat
  nSequenceNumber : Nat
  nIpAddress : Nat
  deriving DecidableEq

/-- The static array `s_SequenceNumbers[512]` together with `m_State.nActiveUniverses`. -/
structure SequenceRegistry where
  s_SequenceNumbers : List TSequenceNumbers
  nActiveUniverses : Nat
  deriving DecidableEq

namespace E131Controller

/-- The registry after the constructor: 512 zeroed entries, no active universe. -/
def initRegistry : SequenceRegistry :=
  { s_SequenceNumbers := List.replicate 512 ⟨0, 0, 0⟩, nActiveUniverses := 0 }

/-- `E131Controller::UniverseToMulticastIp`.  `inet_aton("239.255.0.0")` leaves the address in
network byte order, which on the little-endian targets is the value `0x0000FFEF`; the result is
a `uint32_t` in the same representation. -/
def UniverseToMulticastIp (nUniverse : Nat) : Nat :=
  (0x0000FFEF ||| ((nUniverse &&& 0xFF) <<< 24) ||| ((nUniverse &&& 0xFF00) <<< 8)) % 4294967296

/-- The key the binary search of `GetSequenceNumber` reads at `nMid`. -/
def universeKey (s : SequenceRegistry) (nMid : Nat) : Except Fault Nat :=
  match readAt Fault.sequenceNumbers s.s_SequenceNumbers nMid with
  | .error e => .error e
  | .ok e => .ok e.nUniverse

/-- `E131Controller::GetSequenceNumber`.  The result is the new registry, the returned sequence
number and the value left in the reference parameter `nMulticastIpAddress`. -/
def GetSequenceNumber (s : SequenceRegistry) (nUniverse : Nat) :
    Except Fault (SequenceRegistry × Nat × Nat) :=
  match search (universeKey s) nUniverse s.nActiveUniverses with
  | .error e => .error e
  | .ok (Search.found nMid) => do
    let e ← readAt Fault.sequenceNumbers s.s_SequenceNumbers nMid
    let nSequenceNumber := (e.nSequenceNumber + 1) % 256
    let p ← writeAt Fault.sequenceNumbers s.s_SequenceNumbers nMid
      { e with nSequenceNumber := nSequenceNumber }
    pure ({ s with s_SequenceNumbers := p }, nSequenceNumber, e.nIpAddress)
  | .ok (Search.notFound nLow nMid nHigh) => do
    if (s.nActiveUniverses : Int) ≠ nHigh then
      -- Move
      let p ← moveRight Fault.sequenceNumbers nLow s.nActiveUniverses s.s_SequenceNumbers
      let e ← readAt Fault.sequenceNumbers p nLow.toNat
      let p ← writeAt Fault.sequenceNumbers p nLow.toNat
        { e with nIpAddress := UniverseToMulticastIp nUniverse, nUniverse := nUniverse,
                 nSequenceNumber := 0 }
      pure ({ s_SequenceNumbers := p, nActiveUniverses := s.nActiveUniverses + 1 }, 0,
        UniverseToMulticastIp nUniverse)
    else
      -- Add
      let e ← readAt Fault.sequenceNumbers s.s_SequenceNumbers nMid.toNat
      let p ← writeAt Fault.sequenceNumbers s.s_SequenceNumbers nMid.toNat
        { e with nIpAddress := UniverseToMulticastIp nUniverse, nUniverse := nUniverse }
      pure ({ s_SequenceNumbers := p, nActiveUniverses := s.nActiveUniverses + 1 }, 0,
        UniverseToMulticastIp nUniverse)

end E131Controller

/-! ## Predicates used in the statements -/

/-- What the search loop guarantees over keys `vals 0 < vals 1 < ... < vals (n - 1)` followed by
a slot `n` whose key is `0`, whenever it ends without a fault. -/
def SearchPost (vals : Nat → Nat) (x n : Nat) : Search → Prop
  | Search.found i => vals i = x ∧ (i < n ∨ (n = 0 ∧ i = 0 ∧ x = 0))
  | Search.notFound nLow nMid nHigh =>
      0 ≤ nLow ∧ nLow = nHigh + 1 ∧ nHigh ≤ n ∧
      (∀ j : Nat, (j : Int) < nLow → j < n → vals j < x) ∧
      (∀ j : Nat, nLow ≤ (j : Int) → j < n → x < vals j) ∧
      (nHigh = n → nMid = n)

namespace E131Controller

/-- The universe number stored in slot `j` of `s_SequenceNumbers` (`0` outside the array). -/
def universeAt (s : SequenceRegistry) (j : Nat) : Nat :=
  match s.s_SequenceNumbers[j]? with
  | some e => e.nUniverse
  | none => 0

/-- The invariant of the sequence registry: the active entries are strictly ascending by
universe number and the slots after them hold universe `0`. -/
def RegistryInv (s : SequenceRegistry) : Prop :=
  (∀ i j, i < j → j < s.nActiveUniverses → universeAt s i < universeAt s j) ∧
  (∀ j, s.nActiveUniverses ≤ j → universeAt s j = 0)

/-- What a call of `GetSequenceNumber` that registers a new universe does to the array: the
new entry is at some position `k`, the entries before it stay, the later active entries move
one slot up. -/
def InsertedAt (s s' : SequenceRegistry) (nUniverse k : Nat) : Prop :=
  k ≤ s.nActiveUniverses ∧
  s'.nActiveUniverses = s.nActiveUniverses + 1 ∧
  s'.s_SequenceNumbers.length = s.s_SequenceNumbers.length ∧
  (∀ j, j < k → s'.s_SequenceNumbers[j]? = s.s_SequenceNumbers[j]?) ∧
  (∃ e, s'.s_SequenceNumbers[k]? = some e ∧ e.nUniverse = nUniverse ∧
    e.nIpAddress = UniverseToMulticastIp nUniverse) ∧
  (∀ j, k < j → j ≤ s.nActiveUniverses →
    s'.s_SequenceNumbers[j]? = s.s_SequenceNumbers[j - 1]?) ∧
  (∀ j, s.nActiveUniverses < j → s'.s_SequenceNumbers[j]? = s.s_SequenceNumbers[j]?) ∧
  (∀ j, j < k → universeAt s j < nUniverse) ∧
  (∀ j, k ≤ j → j < s.nActiveUniverses → nUniverse < universeAt s j)

/-- `GetSequenceNumber` called for each universe of the list in turn (the results of the calls
are dropped). -/
def getSequenceNumbers : SequenceRegistry → List Nat → Except Fault SequenceRegistry
  | s, [] => .ok s
  | s, nUniverse :: rest =>
    match GetSequenceNumber s nUniverse with
    | .error e => .error e
    | .ok (s', _, _) => getSequenceNumbers s' rest

/-- The universe numbers of the active entries, in registry order. -/
def activeUniverses (s : SequenceRegistry) : List Nat :=
  (s.s_SequenceNumbers.take s.nActiveUniverses).map fun e => e.nUniverse

end E131Controller

end RpiDmx512

deriving instance DecidableEq for Except

namespace RpiDmx512

namespace E131Controller

/-- `GetSequenceNumber` called for each universe of the list in turn; the result is the list of
the returned sequence numbers. -/
def sequenceResults : SequenceRegistry → List Nat → Except Fault (List Nat)
  | _, [] => .ok []
  | s, nUniverse :: rest =>
    match GetSequenceNumber s nUniverse with
    | .error e => .error e
    | .ok (s', nSequenceNumber, _) =>
      match sequenceResults s' rest with
      | .error e => .error e
      | .ok l => .ok (nSequenceNumber :: l)

/-- The registry after `GetSequenceNumber` was called for the universes 1, 2, ..., 512 in this
order on a fresh controller: all 512 entries are active. -/
def fullRegistry : SequenceRegistry :=
  { s_SequenceNumbers := (List.range 512).map fun k => ⟨k + 1, 0, UniverseToMulticastIp (k + 1)⟩
    nActiveUniverses := 512 }

/-- The registry after `GetSequenceNumber` for the universes 5, 3, 5, 7 on a fresh
controller. -/
def sampleRegistry : SequenceRegistry :=
  { s_SequenceNumbers :=
      [⟨3, 0, UniverseToMulticastIp 3⟩, ⟨5, 1, UniverseToMulticastIp 5⟩,
        ⟨7, 0, UniverseToMulticastIp 7⟩] ++ List.replicate 509 ⟨0, 0, 0⟩
    nActiveUniverses := 3 }

end E131Controller

end RpiDmx512

namespace RpiDmx512

namespace ArtNetPollTable

/-- The search key of slot `j` of the node array: the byte-swapped IP address (`0` outside the
array). -/
def ipKeyAt (t : ArtNetPollTable) (j : Nat) : Nat :=
  match t.m_pPollTable[j]? with
  | some e => bswap32 e.IPAddress
  | none => 0

/-- The invariant of the node array: the entries are strictly ascending by byte-swapped IP
address and the slots after them hold the IP address `0`. -/
def TableInv (t : ArtNetPollTable) : Prop :=
  (∀ i j, i < j → j < t.m_nPollTableEntries → ipKeyAt t i < ipKeyAt t j) ∧
  (∀ j, t.m_nPollTableEntries ≤ j → ipKeyAt t j = 0) ∧
  t.m_nPollTableEntries ≤ t.m_pPollTable.length ∧
  t.m_pPollTable.length < 4294967295

/-- What the insertion of `Add` does to the node array: the new entry, which holds the IP
address `ip`, is at position `k`; the entries before it stay, the later entries move one slot
up; nothing else of the table changes.  The new entry is a zeroed entry on the `Move` path and
the former content of the slot after the last entry otherwise. -/
def NodeInsertedAt (c : Constants) (t t' : ArtNetPollTable) (ip k : Nat) : Prop :=
  k ≤ t.m_nPollTableEntries ∧
  t'.m_nPollTableEntries = t.m_nPollTableEntries + 1 ∧
  t'.m_pPollTable.length = t.m_pPollTable.length ∧
  t.m_nPollTableEntries < t.m_pPollTable.length ∧
  (∀ j, j < k → t'.m_pPollTable[j]? = t.m_pPollTable[j]?) ∧
  (t'.m_pPollTable[k]? = some { zeroEntry c with IPAddress := ip } ∨
    ∃ e, k = t.m_nPollTableEntries ∧ t.m_pPollTable[k]? = some e ∧
      t'.m_pPollTable[k]? = some { e with IPAddress := ip }) ∧
  (∀ j, k < j → j ≤ t.m_nPollTableEntries → t'.m_pPollTable[j]? = t.m_pPollTable[j - 1]?) ∧
  (∀ j, t.m_nPollTableEntries < j → t'.m_pPollTable[j]? = t.m_pPollTable[j]?) ∧
  (∀ j, j < k → ipKeyAt t j < bswap32 ip) ∧
  (∀ j, k ≤ j → j < t.m_nPollTableEntries → bswap32 ip < ipKeyAt t j) ∧
  t'.m_pTableUniverses = t.m_pTableUniverses ∧ t'.m_pIpAddresses = t.m_pIpAddresses ∧
  t'.m_nTableUniversesEntries = t.m_nTableUniversesEntries ∧
  t'.m_tTableClean = t.m_tTableClean

/-- Two tables whose node arrays agree outside slot `i`, and in slot `i` on the IP address. -/
def SameNodesBut (i : Nat) (t t' : ArtNetPollTable) : Prop :=
  t'.m_nPollTableEntries = t.m_nPollTableEntries ∧
  t'.m_tTableClean = t.m_tTableClean ∧
  t'.m_pPollTable.length = t.m_pPollTable.length ∧
  (∀ j, j ≠ i → t'.m_pPollTable[j]? = t.m_pPollTable[j]?) ∧
  (t'.m_pPollTable[i]?).map (fun e => e.IPAddress)
    = (t.m_pPollTable[i]?).map (fun e => e.IPAddress)

/-- `Add` called for each reply of the list in turn, each with the clock value it arrives at. -/
def addAll (c : Constants) : ArtNetPollTable → List (TArtPollReply × Nat) →
    Except Fault ArtNetPollTable
  | t, [] => .ok t
  | t, (r, nMillis) :: rest =>
    match Add c t r nMillis with
    | .error e => .error e
    | .ok t' => addAll c t' rest

/-- The byte-swapped IP addresses of the node entries, in table order. -/
def nodeKeys (t : ArtNetPollTable) : List Nat :=
  (t.m_pPollTable.take t.m_nPollTableEntries).map fun e => bswap32 e.IPAddress

/-- The IP addresses of the node entries, in table order. -/
def nodeIps (t : ArtNetPollTable) : List Nat :=
  (t.m_pPollTable.take t.m_nPollTableEntries).map fun e => e.IPAddress

end ArtNetPollTable

end RpiDmx512

namespace RpiDmx512

namespace ArtNetPollTable

/-- One call on the poll table: `Add` of a reply or `Clean`, each with the value of the
millisecond clock at the call. -/
inductive Op where
  | add (r : TArtPollReply) (nMillis : Nat)
  | clean (nMillis : Nat)
  deriving DecidableEq

/-- The calls of the list, one after the other. -/
def run (c : Constants) : ArtNetPollTable → List Op → Except Fault ArtNetPollTable
  | t, [] => .ok t
  | t, Op.add r nMillis :: rest =>
    match Add c t r nMillis with
    | .error e => .error e
    | .ok t' => run c t' rest
  | t, Op.clean nMillis :: rest =>
    match Clean c t nMillis with
    | .error e => .error e
    | .ok t' => run c t' rest

/-- One call on the universe registry. -/
inductive RegistryOp where
  | processUniverse (nIpAddress nUniverse : Nat)
  | removeIpAddress (nUniverse nIpAddress : Nat)
  deriving DecidableEq

/-- The registry calls of the list, one after the other. -/
def runRegistry : ArtNetPollTable → List RegistryOp → Except Fault ArtNetPollTable
  | t, [] => .ok t
  | t, RegistryOp.processUniverse nIpAddress nUniverse :: rest =>
    match ProcessUniverse t nIpAddress nUniverse with
    | .error e => .error e
    | .ok t' => runRegistry t' rest
  | t, RegistryOp.removeIpAddress nUniverse nIpAddress :: rest =>
    match RemoveIpAddress t nUniverse nIpAddress with
    | .error e => .error e
    | .ok t' => runRegistry t' rest

/-- The universe numbers of the registered universes, in registry order. -/
def registeredUniverses (t : ArtNetPollTable) : List Nat :=
  (t.m_pTableUniverses.take t.m_nTableUniversesEntries).map fun p => p.nUniverse

/-- The value of `ip.u32` for the address `a.b.c.d` (the bytes in network order, read as a
little-endian word). -/
def ipv4 (a b c d : Nat) : Nat := a + 256 * b + 65536 * c + 16777216 * d

/-- Small constants for the worked examples: a node array of 2 entries, a registry of 4
universes, 2 universes per node, a poll interval of 8 s, 4 ports. -/
def smallConstants : Constants :=
  { ARTNET_POLL_TABLE_SIZE_ENRIES := 2
    ARTNET_POLL_TABLE_SIZE_UNIVERSES := 4
    ARTNET_POLL_TABLE_SIZE_NODE_UNIVERSES := 2
    ARTNET_POLL_INTERVAL_MILLIS := 8000
    ARTNET_MAX_PORTS := 4
    ARTNET_ENABLE_OUTPUT := 0x80 }

/-- The same with a node array of 3 entries. -/
def smallConstants3 : Constants :=
  { smallConstants with ARTNET_POLL_TABLE_SIZE_ENRIES := 3 }

/-- A poll reply from `ip` (Net 0, Sub-Net 0) whose first ports are enabled outputs with the
`SwOut` values `swOut`; the other ports are disabled. -/
def replyOf (ip : Nat) (swOut : List Nat) : TArtPollReply :=
  { IPAddress := ip, NetSwitch := 0, SubSwitch := 0
    PortTypes := swOut.map (fun _ => 0x80) ++ List.replicate (4 - swOut.length) 0
    SwOut := swOut ++ List.replicate (4 - swOut.length) 0 }

/-- What the examples look at in a table: the entry count and the node array. -/
def nodesView (t : ArtNetPollTable) : Nat × List TArtNetNodeEntry :=
  (t.m_nPollTableEntries, t.m_pPollTable)

end ArtNetPollTable

end RpiDmx512

namespace RpiDmx512

namespace ArtNetPollTable

/-- Three replies: 10.0.0.2 (universe 1), 10.0.0.1 (universes 1, 2) and again 10.0.0.2
(universe 2). -/
def sampleReplies : List (TArtPollReply × Nat) :=
  [(replyOf (ipv4 10 0 0 2) [1], 100), (replyOf (ipv4 10 0 0 1) [1, 2], 100),
    (replyOf (ipv4 10 0 0 2) [2], 200)]

/-- The table after `sampleReplies` reached a fresh table with small constants (the fresh table
if that run faults, which it does not, see `C1_add_keeps_nodes_sorted_witness`). -/
def sampleTable : ArtNetPollTable :=
  match addAll smallConstants (init smallConstants) sampleReplies with
  | .ok t => t
  | .error _ => init smallConstants

/-- The calls that lead to a universe set with a duplicate, on a node array of 3 entries:
10.0.0.1 announces universe 1, 10.0.0.2 and 10.0.0.3 announce universe 2; 19 s later the last
two announce again, two `Clean` calls age out universe 1 and node 10.0.0.1, and 10.0.0.3
announces the universes 2 and 3. -/
def duplicateOps : List Op :=
  [Op.add (replyOf (ipv4 10 0 0 1) [1]) 1000, Op.add (replyOf (ipv4 10 0 0 2) [2]) 1000,
    Op.add (replyOf (ipv4 10 0 0 3) [2]) 1000, Op.add (replyOf (ipv4 10 0 0 2) [2]) 20000,
    Op.add (replyOf (ipv4 10 0 0 3) [2]) 20000, Op.clean 20000, Op.clean 20000,
    Op.add (replyOf (ipv4 10 0 0 3) [2, 3]) 20000]

/-- The registry calls after which the entries of the universes 2 and 3 share one IP array. -/
def aliasingOps : List RegistryOp :=
  [RegistryOp.processUniverse (ipv4 10 0 0 1) 1, RegistryOp.processUniverse (ipv4 10 0 0 2) 2,
    RegistryOp.removeIpAddress 1 (ipv4 10 0 0 1), RegistryOp.processUniverse (ipv4 10 0 0 3) 3]

/-- The IP set of `nUniverse` after the calls `ops` on the table `t`. -/
def ipAddressesAfter (t : ArtNetPollTable) (ops : List RegistryOp) (nUniverse : Nat) :
    Except Fault (List Nat) :=
  match runRegistry t ops with
  | .error e => .error e
  | .ok t' => ipAddressesOf t' nUniverse

end ArtNetPollTable

end RpiDmx512

namespace RpiDmx512

namespace ArtNetPollTable

/-- The Port-Address formula as the specification words it, `(Net<<8)|(Sub<<4)|Universe`, on
the three bytes as given (no masking). -/
def portAddressFormula (nNetSwitch nSubSwitch nUniverse : Nat) : Nat :=
  (nNetSwitch <<< 8) ||| (nSubSwitch <<< 4) ||| nUniverse

end ArtNetPollTable

end RpiDmx512

namespace RpiDmx512

namespace ArtNetPollTable

/-- The table after `ProcessUniverse(10.0.0.1, 5)` on a fresh table. -/
def registered5 : ArtNetPollTable :=
  match ProcessUniverse (init smallConstants) (ipv4 10 0 0 1) 5 with
  | .ok t => t
  | .error _ => init smallConstants

/-- The table after `RemoveIpAddress(5, 10.0.0.1)` on `registered5`. -/
def removed5 : ArtNetPollTable :=
  match RemoveIpAddress registered5 5 (ipv4 10 0 0 1) with
  | .ok t => t
  | .error _ => init smallConstants

/-- The universe `Add` computes for port `nIndex` of a reply:
`MakePortAddress(NetSwitch, SubSwitch, SwOut[nIndex])`. -/
def portUniverse (r : TArtPollReply) (nIndex : Nat) : Nat :=
  MakePortAddress r.NetSwitch r.SubSwitch (r.SwOut.getD nIndex 0)

/-- The universe number in slot `k` of the universe array of a node entry. -/
def universeNumberAt (e : TArtNetNodeEntry) (k : Nat) : Option Nat :=
  (e.Universe[k]?).map fun u => u.nUniverse

/-- The timestamp in slot `k` of the universe array of a node entry. -/
def lastUpdateAt (e : TArtNetNodeEntry) (k : Nat) : Option Nat :=
  (e.Universe[k]?).map fun u => u.nLastUpdateMillis

/-- Slot `k` is the slot in which the node entry `e` records the universe `nUniverse`: the
first of its `nUniversesCount` slots with that universe number (the one the scan of `Add`
stops at). -/
def RecordedAt (e : TArtNetNodeEntry) (nUniverse k : Nat) : Prop :=
  k < e.nUniversesCount ∧ universeNumberAt e k = some nUniverse ∧
  ∀ k', k' < k → universeNumberAt e k' ≠ some nUniverse

/-- How the entry of a node changes while `Add` works through the ports of a reply received at
`nMillis`: universes are only appended, never beyond `cap` slots, and a slot stamped with
`nMillis` keeps that stamp. -/
def NodeEvolves (cap nMillis : Nat) (e e' : TArtNetNodeEntry) : Prop :=
  e.nUniversesCount ≤ e'.nUniversesCount ∧
  (∀ k, k < e.nUniversesCount → universeNumberAt e' k = universeNumberAt e k) ∧
  (∀ k, lastUpdateAt e k = some nMillis → lastUpdateAt e' k = some nMillis) ∧
  (cap ≤ e.nUniversesCount → e'.nUniversesCount = e.nUniversesCount)

/-- The table after the reply of 10.0.0.1 with the enabled output ports 1 and 2 reached a fresh
table at clock 100. -/
def oneNodeTable : ArtNetPollTable :=
  match Add smallConstants (init smallConstants) (replyOf (ipv4 10 0 0 1) [1, 2]) 100 with
  | .ok t => t
  | .error _ => init smallConstants

end ArtNetPollTable

end RpiDmx512

/-! ## The sACN controller around the sequence registry -/

namespace RpiDmx512

/-- Constants and macros of `e131.h` / `e131packets.h` used by the controller; the macros that
take the number of property values or of universes are functions. -/
structure E131Constants where
  E131_DEFAULT_PORT : Nat
  E131_UNIVERSE_DISCOVERY_INTERVAL_SECONDS : Nat
  DATA_PACKET_SIZE : Nat → Nat
  DATA_ROOT_LAYER_LENGTH : Nat → Nat
  DATA_FRAME_LAYER_LENGTH : Nat → Nat
  DATA_LAYER_LENGTH : Nat → Nat
  DISCOVERY_PACKET_SIZE : Nat → Nat
  DISCOVERY_ROOT_LAYER_LENGTH : Nat → Nat
  DISCOVERY_FRAME_LAYER_LENGTH : Nat → Nat
  DISCOVERY_LAYER_LENGTH : Nat → Nat
  SYNCHRONIZATION_PACKET_SIZE : Nat

/-- The fields of `struct TE131DataPacket` that `HandleDmxOut` and `HandleBlackout` write (the
other fields are written by `FillDataPacket` only and travel unchanged). -/
structure TE131DataPacket where
  RootLayerFlagsLength : Nat
  FrameLayerFLagsLength : Nat
  FrameLayerSequenceNumber : Nat
  FrameLayerUniverse : Nat
  DMPLayerFlagsLength : Nat
  DMPLayerPropertyValueCount : Nat
  DMPLayerPropertyValues : List Nat
  deriving DecidableEq

/-- The fields of `struct TE131DiscoveryPacket` that `SendDiscoveryPacket` writes. -/
structure TE131DiscoveryPacket where
  RootLayerFlagsLength : Nat
  FrameLayerFLagsLength : Nat
  UniverseDiscoveryLayerFlagsLength : Nat
  ListOfUniverses : List Nat
  deriving DecidableEq

/-- The fields of `struct TE131SynchronizationPacket` written after construction. -/
structure TE131SynchronizationPacket where
  FrameLayerSequenceNumber : Nat
  FrameLayerUniverseNumber : Nat
  deriving DecidableEq

/-- `m_State.SynchronizationPacket`. -/
structure TSynchronizationPacket where
  nUniverseNumber : Nat
  nIpAddress : Nat
  nSequenceNumber : Nat
  deriving DecidableEq

/-- The buffer handed to `Network::SendTo`, as it is at the call. -/
inductive TE131Packet where
  | data (p : TE131DataPacket)
  | discovery (p : TE131DiscoveryPacket)
  | synchronization (p : TE131SynchronizationPacket)
  deriving DecidableEq

/-- One call `Network::Get()->SendTo(m_nHandle, buffer, size, ip, port)`. -/
structure Datagram where
  packet : TE131Packet
  nSize : Nat
  nToIp : Nat
  nRemotePort : Nat
  deriving DecidableEq

/-- The state of `E131Controller` the handlers work on: the sequence registry (the static
array and `m_State.nActiveUniverses`), the other fields of `m_State`, the three packet buffers,
and the datagrams handed to `Network::SendTo` so far, oldest first. -/
structure E131Controller where
  registry : SequenceRegistry
  bIsRunning : Bool
  DiscoveryTime : Nat
  SynchronizationPacket : TSynchronizationPacket
  m_nCurrentPacketMillis : Nat
  m_DiscoveryIpAddress : Nat
  m_pE131DataPacket : TE131DataPacket
  m_pE131DiscoveryPacket : TE131DiscoveryPacket
  m_pE131SynchronizationPacket : TE131SynchronizationPacket
  sent : List Datagram
  deriving DecidableEq

/-- `memcpy(&dst[offset], src, n)`. -/
def memcpy (fDst fSrc : Nat → Fault) (dst : List Nat) (offset : Nat) (src : List Nat) (n : Nat) :
    Except Fault (List Nat) :=
  if n ≤ src.length then
    if offset + n ≤ dst.length then .ok (dst.take offset ++ src.take n ++ dst.drop (offset + n))
    else .error (fDst dst.length)
  else .error (fSrc src.length)

/-- `memset(&dst[offset], 0, n)`. -/
def memsetZero (fDst : Nat → Fault) (dst : List Nat) (offset n : Nat) : Except Fault (List Nat) :=
  if offset + n ≤ dst.length then
    .ok (dst.take offset ++ List.replicate n 0 ++ dst.drop (offset + n))
  else .error (fDst dst.length)

/-- `__builtin_bswap16((0x07 << 12) | ((uint16_t) length))`, the Flags and Length word of the
layers of a data packet. -/
def flagsLengthCast (length : Nat) : Nat :=
  bswap16 ((0x7000 ||| (length % 65536)) % 65536)

/-- `__builtin_bswap16((0x07 << 12) | length)`, the Flags and Length word of the layers of a
discovery packet. -/
def flagsLength (length : Nat) : Nat :=
  bswap16 ((0x7000 ||| length) % 65536)

namespace E131Controller

/-- The state after the constructor, apart from the source name and CID: zeroed `m_State`, no
datagram sent.  The data packet holds 513 property values and the discovery packet a list of
512 universes (`e131packets.h`); `m_DiscoveryIpAddress` is 239.255.250.214 for the discovery
universe 64214. -/
def initController : E131Controller :=
  { registry := initRegistry
    bIsRunning := false
    DiscoveryTime := 0
    SynchronizationPacket := ⟨0, 0, 0⟩
    m_nCurrentPacketMillis := 0
    m_DiscoveryIpAddress := UniverseToMulticastIp 64214
    m_pE131DataPacket := ⟨0, 0, 0, 0, 0, 0, List.replicate 513 0⟩
    m_pE131DiscoveryPacket := ⟨0, 0, 0, List.replicate 512 0⟩
    m_pE131SynchronizationPacket := ⟨0, 0⟩
    sent := [] }

/-- `E131Controller::Start`: the three `Fill...Packet` functions, as far as they touch the
modelled fields, then `bIsRunning = true`. -/
def Start (s : E131Controller) : Except Fault E131Controller := do
  let values ← writeAt Fault.propertyValues s.m_pE131DataPacket.DMPLayerPropertyValues 0 0
  pure { s with
    m_pE131DataPacket := { s.m_pE131DataPacket with DMPLayerPropertyValues := values }
    m_pE131DiscoveryPacket :=
      ⟨0, 0, 0, List.replicate s.m_pE131DiscoveryPacket.ListOfUniverses.length 0⟩
    m_pE131SynchronizationPacket := ⟨0, bswap16 s.SynchronizationPacket.nUniverseNumber⟩
    bIsRunning := true }

/-- `E131Controller::Stop`. -/
def Stop (s : E131Controller) : E131Controller :=
  { s with bIsRunning := false }

/-- `Network::Get()->SendTo(m_nHandle, ...)`: the datagram is appended to the log. -/
def SendTo (s : E131Controller) (packet : TE131Packet) (nSize nToIp nRemotePort : Nat) :
    E131Controller :=
  { s with sent := s.sent ++ [⟨packet, nSize, nToIp, nRemotePort⟩] }

/-- `E131Controller::HandleDmxOut`.  `pDmxData` is the caller's buffer, `nLength` the
`uint16_t` length argument. -/
def HandleDmxOut (k : E131Constants) (s : E131Controller) (nUniverse : Nat)
    (pDmxData : List Nat) (nLength : Nat) : Except Fault E131Controller := do
  let p := s.m_pE131DataPacket
  -- Root Layer
  let p := { p with RootLayerFlagsLength := flagsLengthCast (k.DATA_ROOT_LAYER_LENGTH (1 + nLength)) }
  -- E1.31 Framing Layer
  let p := { p with FrameLayerFLagsLength := flagsLengthCast (k.DATA_FRAME_LAYER_LENGTH (1 + nLength)) }
  let (registry, nSequenceNumber, nIp) ← GetSequenceNumber s.registry nUniverse
  let p := { p with FrameLayerSequenceNumber := nSequenceNumber,
                    FrameLayerUniverse := bswap16 nUniverse }
  -- Data Layer
  let p := { p with DMPLayerFlagsLength := flagsLengthCast (k.DATA_LAYER_LENGTH (1 + nLength)) }
  let values ← memcpy Fault.propertyValues Fault.dmxData p.DMPLayerPropertyValues 1 pDmxData nLength
  let p := { p with DMPLayerPropertyValues := values,
                    DMPLayerPropertyValueCount := bswap16 ((1 + nLength) % 65536) }
  pure (SendTo { s with registry := registry, m_pE131DataPacket := p }
    (TE131Packet.data p) (k.DATA_PACKET_SIZE (1 + nLength)) nIp k.E131_DEFAULT_PORT)

/-- `E131Controller::HandleSync`.  The counter is a `uint8_t`. -/
def HandleSync (k : E131Constants) (s : E131Controller) : E131Controller :=
  if s.SynchronizationPacket.nUniverseNumber ≠ 0 then
    let p := { s.m_pE131SynchronizationPacket with
      FrameLayerSequenceNumber := s.SynchronizationPacket.nSequenceNumber }
    SendTo { s with
        m_pE131SynchronizationPacket := p
        SynchronizationPacket := { s.SynchronizationPacket with
          nSequenceNumber := (s.SynchronizationPacket.nSequenceNumber + 1) % 256 } }
      (TE131Packet.synchronization p) k.SYNCHRONIZATION_PACKET_SIZE
      s.SynchronizationPacket.nIpAddress k.E131_DEFAULT_PORT
  else s

/-- The loop `for (nIndex = 0; nIndex < m_State.nActiveUniverses; nIndex++)` of
`HandleBlackout`; the first argument is the fuel. -/
def blackoutLoop (k : E131Constants) : Nat → Nat → E131Controller → Except Fault E131Controller
  | 0, _, _ => .error Fault.fuel
  | fuel + 1, nIndex, s =>
    if nIndex < s.registry.nActiveUniverses then
      match readAt Fault.sequenceNumbers s.registry.s_SequenceNumbers nIndex with
      | .error e => .error e
      | .ok entry =>
        match GetSequenceNumber s.registry entry.nUniverse with
        | .error e => .error e
        | .ok (registry, nSequenceNumber, nIp) =>
          let p := { s.m_pE131DataPacket with
            FrameLayerSequenceNumber := nSequenceNumber
            FrameLayerUniverse := bswap16 entry.nUniverse }
          blackoutLoop k fuel (nIndex + 1)
            (SendTo { s with registry := registry, m_pE131DataPacket := p }
              (TE131Packet.data p) (k.DATA_PACKET_SIZE 513) nIp k.E131_DEFAULT_PORT)
    else .ok s

/-- `E131Controller::HandleBlackout`.  The loop gets `length + 2` rounds of fuel: each round
moves `nIndex` up by one and a round with `nIndex` at the array length faults. -/
def HandleBlackout (k : E131Constants) (s : E131Controller) : Except Fault E131Controller := do
  let p := s.m_pE131DataPacket
  let p := { p with RootLayerFlagsLength := flagsLengthCast (k.DATA_ROOT_LAYER_LENGTH 513) }
  let p := { p with FrameLayerFLagsLength := flagsLengthCast (k.DATA_FRAME_LAYER_LENGTH 513) }
  let p := { p with DMPLayerFlagsLength := flagsLengthCast (k.DATA_LAYER_LENGTH 513) }
  let p := { p with DMPLayerPropertyValueCount := bswap16 513 }
  let values ← memsetZero Fault.propertyValues p.DMPLayerPropertyValues 1 512
  let p := { p with DMPLayerPropertyValues := values }
  let s ← blackoutLoop k (s.registry.s_SequenceNumbers.length + 2) 0
    { s with m_pE131DataPacket := p }
  if s.SynchronizationPacket.nUniverseNumber ≠ 0 then
    pure (HandleSync k s)
  else
    pure s

/-- The loop of `SendDiscoveryPacket` that stores `__builtin_bswap16(s_SequenceNumbers[i]
.nUniverse)` in `ListOfUniverses[i]`; the second argument counts the iterations left. -/
def fillListOfUniverses (registry : List TSequenceNumbers) :
    Nat → Nat → List Nat → Except Fault (List Nat)
  | 0, _, list => .ok list
  | n + 1, i, list =>
    match readAt Fault.sequenceNumbers registry i with
    | .error e => .error e
    | .ok entry =>
      match writeAt Fault.listOfUniverses list i (bswap16 entry.nUniverse) with
      | .error e => .error e
      | .ok list => fillListOfUniverses registry n (i + 1) list

/-- `E131Controller::SendDiscoveryPacket`.  The difference of the two `uint32_t` clock values
wraps; the `int` threshold is converted to `uint32_t` for the comparison. -/
def SendDiscoveryPacket (k : E131Constants) (s : E131Controller) :
    Except Fault E131Controller :=
  if (s.m_nCurrentPacketMillis + 4294967296 - s.DiscoveryTime) % 4294967296
      ≥ (k.E131_UNIVERSE_DISCOVERY_INTERVAL_SECONDS * 1000) % 4294967296 then do
    let n := s.registry.nActiveUniverses
    let p := s.m_pE131DiscoveryPacket
    let p := { p with RootLayerFlagsLength := flagsLength (k.DISCOVERY_ROOT_LAYER_LENGTH n) }
    let p := { p with FrameLayerFLagsLength := flagsLength (k.DISCOVERY_FRAME_LAYER_LENGTH n) }
    let p := { p with UniverseDiscoveryLayerFlagsLength := flagsLength (k.DISCOVERY_LAYER_LENGTH n) }
    let list ← fillListOfUniverses s.registry.s_SequenceNumbers n 0 p.ListOfUniverses
    let p := { p with ListOfUniverses := list }
    pure (SendTo { s with DiscoveryTime := s.m_nCurrentPacketMillis, m_pE131DiscoveryPacket := p }
      (TE131Packet.discovery p) (k.DISCOVERY_PACKET_SIZE n) s.m_DiscoveryIpAddress
      k.E131_DEFAULT_PORT)
  else .ok s

/-- `E131Controller::Run`, called when `Hardware::Get()->Millis()` is `nMillis`. -/
def Run (k : E131Constants) (s : E131Controller) (nMillis : Nat) : Except Fault E131Controller :=
  if s.bIsRunning then
    SendDiscoveryPacket k { s with m_nCurrentPacketMillis := nMillis }
  else .ok s

end E131Controller

end RpiDmx512

namespace RpiDmx512

namespace E131Controller

/-- Sample values for the constants, those of ANSI E1.31: port 5568, discovery every 10 s, a
data packet of 125 bytes plus the property values, a discovery packet of 120 bytes plus two per
universe, a synchronization packet of 49 bytes. -/
def sampleE131Constants : E131Constants :=
  { E131_DEFAULT_PORT := 5568
    E131_UNIVERSE_DISCOVERY_INTERVAL_SECONDS := 10
    DATA_PACKET_SIZE := fun x => 125 + x
    DATA_ROOT_LAYER_LENGTH := fun x => 109 + x
    DATA_FRAME_LAYER_LENGTH := fun x => 87 + x
    DATA_LAYER_LENGTH := fun x => 10 + x
    DISCOVERY_PACKET_SIZE := fun x => 120 + 2 * x
    DISCOVERY_ROOT_LAYER_LENGTH := fun x => 104 + 2 * x
    DISCOVERY_FRAME_LAYER_LENGTH := fun x => 82 + 2 * x
    DISCOVERY_LAYER_LENGTH := fun x => 8 + 2 * x
    SYNCHRONIZATION_PACKET_SIZE := 49 }

/-- A started controller with the registry `sampleRegistry` (universes 3, 5, 7), the
synchronization universe 7 and the clock at 10 s. -/
def sampleController : E131Controller :=
  { initController with
    registry := sampleRegistry
    bIsRunning := true
    SynchronizationPacket := ⟨7, UniverseToMulticastIp 7, 255⟩
    m_nCurrentPacketMillis := 10000 }

/-- The datagram `HandleSync` sends in state `s`. -/
def syncDatagram (k : E131Constants) (s : E131Controller) : Datagram :=
  { packet := TE131Packet.synchronization
      { s.m_pE131SynchronizationPacket with
        FrameLayerSequenceNumber := s.SynchronizationPacket.nSequenceNumber }
    nSize := k.SYNCHRONIZATION_PACKET_SIZE
    nToIp := s.SynchronizationPacket.nIpAddress
    nRemotePort := k.E131_DEFAULT_PORT }

/-- The sequence number a synchronization datagram carries. -/
def syncSequenceOf (d : Datagram) : Option Nat :=
  match d.packet with
  | TE131Packet.synchronization p => some p.FrameLayerSequenceNumber
  | _ => none

end E131Controller

end RpiDmx512

namespace RpiDmx512

namespace E131Controller

/-- The active entries of the registry, in registry order. -/
def activeEntries (s : SequenceRegistry) : List TSequenceNumbers :=
  s.s_SequenceNumbers.take s.nActiveUniverses

/-- The data packet as `HandleBlackout` prepares it before its loop: the three Flags and Length
words for 513 property values, the property value count 513 and 512 zero channel bytes after
the start code. -/
def blackoutPacket (k : E131Constants) (p : TE131DataPacket) : TE131DataPacket :=
  { p with
    RootLayerFlagsLength := flagsLengthCast (k.DATA_ROOT_LAYER_LENGTH 513)
    FrameLayerFLagsLength := flagsLengthCast (k.DATA_FRAME_LAYER_LENGTH 513)
    DMPLayerFlagsLength := flagsLengthCast (k.DATA_LAYER_LENGTH 513)
    DMPLayerPropertyValueCount := bswap16 513
    DMPLayerPropertyValues :=
      p.DMPLayerPropertyValues.take 1 ++ List.replicate 512 0
        ++ p.DMPLayerPropertyValues.drop 513 }

/-- The blackout datagram for the registry entry `e`: the packet `p` with the next sequence
number of the universe and the universe number in big-endian, sent to the multicast address of
the universe. -/
def blackoutDatagram (k : E131Constants) (p : TE131DataPacket) (e : TSequenceNumbers) :
    Datagram :=
  { packet := TE131Packet.data
      { p with FrameLayerSequenceNumber := (e.nSequenceNumber + 1) % 256
               FrameLayerUniverse := bswap16 e.nUniverse }
    nSize := k.DATA_PACKET_SIZE 513
    nToIp := e.nIpAddress
    nRemotePort := k.E131_DEFAULT_PORT }

/-- The data packet a datagram carries. -/
def dataPacketOf (d : Datagram) : Option TE131DataPacket :=
  match d.packet with
  | TE131Packet.data p => some p
  | _ => none

/-- The synchronization datagram `HandleBlackout` ends with when a synchronization universe is
configured. -/
def blackoutSync (k : E131Constants) (s : E131Controller) : List Datagram :=
  if s.SynchronizationPacket.nUniverseNumber ≠ 0 then [syncDatagram k s] else []

end E131Controller

end RpiDmx512

namespace RpiDmx512

namespace E131Controller

/-- What `GetSequenceNumber(5)` returns in `sampleController` (new registry, sequence number,
multicast address). -/
def sampleAnswer : SequenceRegistry × Nat × Nat :=
  match GetSequenceNumber sampleController.registry 5 with
  | .ok r => r
  | .error _ => (initRegistry, 0, 0)

end E131Controller

end RpiDmx512

namespace RpiDmx512

namespace E131Controller

/-- The registry after `GetSequenceNumber` was called for the universes 1, 2, ..., `k` in this
order on a fresh controller (`k ≤ 512`): entry `j < k` holds universe `j + 1` with sequence
number 0, the other entries are zero. -/
def ascendingRegistry (k : Nat) : SequenceRegistry :=
  { s_SequenceNumbers := (List.range 512).map fun j =>
      if j < k then ⟨j + 1, 0, UniverseToMulticastIp (j + 1)⟩ else ⟨0, 0, 0⟩
    nActiveUniverses := k }

end E131Controller

end RpiDmx512

namespace RpiDmx512

namespace ArtNetPollTable

/-- The invariant of the cursor `m_tTableClean` of `Clean`: the node index is below the entry
count (or both are 0) and the universe index is below the number of universe slots of a node;
on a non-empty table these are the two assertions at the start of `Clean`. -/
def CursorInv (c : Constants) (t : ArtNetPollTable) : Prop :=
  (t.m_tTableClean.nTableIndex < t.m_nPollTableEntries ∨
    (t.m_nPollTableEntries = 0 ∧ t.m_tTableClean.nTableIndex = 0)) ∧
  t.m_tTableClean.nUniverseIndex < c.ARTNET_POLL_TABLE_SIZE_NODE_UNIVERSES

/-- Two nodes announce one universe each and a third reply refreshes the first; then three
`Clean` calls, 20 s after the refresh, walk the cursor over both nodes. -/
def cursorOps : List Op :=
  [Op.add (replyOf (ipv4 10 0 0 2) [2]) 100, Op.add (replyOf (ipv4 10 0 0 1) [1]) 100,
    Op.add (replyOf (ipv4 10 0 0 1) [1]) 20000, Op.clean 20000, Op.clean 20000,
    Op.clean 20000]

/-- The table after `cursorOps` on a fresh table. -/
def cursorTable : ArtNetPollTable :=
  match run smallConstants (init smallConstants) cursorOps with
  | .ok t => t
  | .error _ => init smallConstants

end ArtNetPollTable

end RpiDmx512

namespace RpiDmx512

namespace ArtNetPollTable

/-- `smallConstants` with 3 universe slots per node. -/
def smallConstantsU3 : Constants :=
  { smallConstants with ARTNET_POLL_TABLE_SIZE_NODE_UNIVERSES := 3 }

/-- Node 10.0.0.1 announces the universes 1 and 2 at clock 100 and only universe 2 at 20000; two
`Clean` calls at 20000 walk over its two universe slots (universe 1 is stale and is taken out
of the registry, universe 2 is fresh, the node stays); at 21000 the node announces the universes
1 and 2 again. -/
def reannounceOps : List Op :=
  [Op.add (replyOf (ipv4 10 0 0 1) [1, 2]) 100, Op.add (replyOf (ipv4 10 0 0 1) [2]) 20000,
    Op.clean 20000, Op.clean 20000, Op.add (replyOf (ipv4 10 0 0 1) [1, 2]) 21000]

/-- With 3 universe slots per node: node 10.0.0.1 announces universe 1 at clock 100; two `Clean`
calls at 100000 pass its slots 0 (stale) and 1 (empty); at 100001 the node announces universe 2,
which is recorded in slot 1 and registered; the `Clean` call at 100002 passes slot 2 (empty) and
ends the sweep of the node. -/
def midSweepOps : List Op :=
  [Op.add (replyOf (ipv4 10 0 0 1) [1]) 100, Op.clean 100000, Op.clean 100000,
    Op.add (replyOf (ipv4 10 0 0 1) [2]) 100001, Op.clean 100002]

/-- Node 10.0.0.1 announces universe 1 at clock 100; the `Clean` call at 100000 passes its slot
0 (stale); at 100001 the node announces universe 1 again; the `Clean` call at 100002 passes slot
1 (empty) and ends the sweep of the node. -/
def refreshedOps : List Op :=
  [Op.add (replyOf (ipv4 10 0 0 1) [1]) 100, Op.clean 100000,
    Op.add (replyOf (ipv4 10 0 0 1) [1]) 100001, Op.clean 100002]

/-- Universe 1 gets 10.0.0.9, universe 2 gets 10.0.0.1 and 10.0.0.2; 10.0.0.9 is removed, which
deletes universe 1; then 10.0.0.2 is registered for universe 3. -/
def sharedArrayOps : List RegistryOp :=
  [RegistryOp.processUniverse (ipv4 10 0 0 9) 1, RegistryOp.processUniverse (ipv4 10 0 0 1) 2,
    RegistryOp.processUniverse (ipv4 10 0 0 2) 2, RegistryOp.removeIpAddress 1 (ipv4 10 0 0 9),
    RegistryOp.processUniverse (ipv4 10 0 0 2) 3]

/-- A registered universe as a caller of `GetIpAddress` sees it: the universe number and the IP
addresses `pIpAddresses[0 .. nCount)`. -/
structure RegisteredUniverse where
  nUniverse : Nat
  ipAddresses : List Nat
  deriving DecidableEq

/-- What the examples look at in the universe registry: the registered universes, in registry
order, each with its IP addresses. -/
def registryView (t : ArtNetPollTable) : List RegisteredUniverse :=
  (t.m_pTableUniverses.take t.m_nTableUniversesEntries).map fun p =>
    ⟨p.nUniverse, (t.m_pIpAddresses.getD p.pIpAddresses []).take p.nCount⟩

end ArtNetPollTable

end RpiDmx512

namespace RpiDmx512

namespace ArtNetPollTable

/-- The registry after `ProcessUniverse(10.0.0.1, 1)` and `ProcessUniverse(10.0.0.2, 1)` on a
fresh table with a node array of 3 entries: universe 1 with the set `[10.0.0.1, 10.0.0.2]`. -/
def twoIpTable : ArtNetPollTable :=
  match runRegistry (init smallConstants3)
      [RegistryOp.processUniverse (ipv4 10 0 0 1) 1,
        RegistryOp.processUniverse (ipv4 10 0 0 2) 1] with
  | .ok t => t
  | .error _ => init smallConstants3

end ArtNetPollTable

end RpiDmx512

/-! ## Art-Net node: network timeout and merge of two sources -/

namespace RpiDmx512

/-- The fields of `struct TArtNetNodeState` (`artnetnode.h`) behind the timeout accessors and
the merge. -/
structure TArtNetNodeState where
  nNetworkDataLossTimeoutMillis : Nat
  IsMergeMode : Bool
  bDisableMergeTimeout : Bool
  deriving DecidableEq

/-- The merge modes `TMerge` (`ARTNET_MERGE_HTP`, `ARTNET_MERGE_LTP`). -/
inductive TMerge where
  | ARTNET_MERGE_HTP
  | ARTNET_MERGE_LTP
  deriving DecidableEq

/-- The fields of `struct TOutputPort` (`artnetnode.h`) the merge works on; the buffers are
`uint8_t[ARTNET_DMX_LENGTH]`. -/
structure TOutputPort where
  data : List Nat
  nLength : Nat
  dataA : List Nat
  nMillisA : Nat
  ipA : Nat
  dataB : List Nat
  nMillisB : Nat
  ipB : Nat
  mergeMode : TMerge
  IsDataPending : Bool
  bIsEnabled : Bool
  deriving DecidableEq

namespace ArtNetNode

/-- `ArtNetNode::SetNetworkTimeout`, on `m_State`; the argument and the field are
`uint32_t`. -/
def SetNetworkTimeout (m_State : TArtNetNodeState) (nNetworkDataLossTimeout : Nat) :
    TArtNetNodeState :=
  { m_State with
    nNetworkDataLossTimeoutMillis := (nNetworkDataLossTimeout * 1000) % 4294967296 }

/-- `ArtNetNode::GetNetworkTimeout`. -/
def GetNetworkTimeout (m_State : TArtNetNodeState) : Nat :=
  m_State.nNetworkDataLossTimeoutMillis / 1000

/-- Modelled from the spec: the merge of the two sources of an output port.  The function that
does it, `ArtNetNode::IsMergedDmxDataChanged`, is declared in `artnetnode.h`; its body is
not among the sources.  The specification: "Merge policy: `HTP` → per-channel max(DataA,
DataB); `LTP` → DataB overwrites DataA wholesale if B updated more recently, else A wins." -/
def mergedData (port : TOutputPort) : List Nat :=
  match port.mergeMode with
  | TMerge.ARTNET_MERGE_HTP => List.zipWith max port.dataA port.dataB
  | TMerge.ARTNET_MERGE_LTP =>
    if port.nMillisB > port.nMillisA then port.dataB else port.dataA

/-- Modelled from the spec: `ArtNetNode::IsMergedDmxDataChanged` for one output port (declared
in `artnetnode.h`, body not among the sources).  The specification: "Result written to
PrimaryData only if the merged bytes actually changed"; the result tells whether they did
("byte-exact comparison against the previously sent buffer"). -/
def IsMergedDmxDataChanged (port : TOutputPort) : TOutputPort × Bool :=
  if mergedData port ≠ port.data then ({ port with data := mergedData port }, true)
  else (port, false)

/-- An output port in HTP merge mode with the data `dataA` of source A and `dataB` of source B
and nothing sent yet. -/
def htpPort (dataA dataB : List Nat) : TOutputPort :=
  { data := List.replicate dataA.length 0, nLength := dataA.length
    dataA := dataA, nMillisA := 0, ipA := 0, dataB := dataB, nMillisB := 0, ipB := 0
    mergeMode := TMerge.ARTNET_MERGE_HTP, IsDataPending := false, bIsEnabled := true }

end ArtNetNode

end RpiDmx512

/-! ## Pixel output: `WS28xxMulti::Initialize` -/

namespace RpiDmx512

/-- The LED types `enum TWS28XXType` of `ws28xx.h`. -/
inductive TWS28XXType where
  | WS2801
  | WS2811
  | WS2812
  | WS2812B
  | WS2813
  | WS2815
  | SK6812
  | SK6812W
  | APA102
  | UCS1903
  | UCS2903
  | P9813
  | WS28XX_UNDEFINED
  deriving DecidableEq

/-- `LEDCOUNT_RGB_MAX = (4 * 170)` of `ws28xx.h`. -/
def LEDCOUNT_RGB_MAX : Nat := 4 * 170

/-- `LEDCOUNT_RGBW_MAX = (4 * 128)` of `ws28xx.h`. -/
def LEDCOUNT_RGBW_MAX : Nat := 4 * 128

/-- `SINGLE_RGB = 24` of `ws28xx.h`. -/
def SINGLE_RGB : Nat := 24

/-- `SINGLE_RGBW = 32` of `ws28xx.h`. -/
def SINGLE_RGBW : Nat := 32

/-- What `WS28xxMulti::Initialize` uses from outside the embedded sources: the value
`RGB_MAPPING_UNDEFINED` of `rgbmapping.h` and the static functions `WS28xx::GetRgbMapping` and
`WS28xx::GetTxH` (the low code and the high code of a LED type). -/
structure WS28xxConstants where
  RGB_MAPPING_UNDEFINED : Nat
  GetRgbMapping : TWS28XXType → Nat
  GetTxH : TWS28XXType → Nat × Nat

/-- The members of `WS28xxMulti` that its constructor and `Initialize` assign themselves (the
board type comes from the hardware probe `IsMCP23017`, the buffers from the `Setup...`
functions, which are outside the embedded sources).  `m_nLedCount` is a `uint16_t` and
`m_nBufSize` a `uint32_t`, as in the class `WS28xx` of `ws28xx.h`. -/
structure WS28xxMulti where
  m_tWS28xxType : TWS28XXType
  m_nLedCount : Nat
  m_tRGBMapping : Nat
  m_nLowCode : Nat
  m_nHighCode : Nat
  m_nBufSize : Nat
  deriving DecidableEq

namespace WS28xxMulti

/-- The array `s_NotSupported` of the SPI-clock based LED types. -/
def s_NotSupported : List TWS28XXType :=
  [TWS28XXType.WS2801, TWS28XXType.APA102, TWS28XXType.P9813]

/-- The members after the constructor `WS28xxMulti::WS28xxMulti`. -/
def init (k : WS28xxConstants) : WS28xxMulti :=
  { m_tWS28xxType := TWS28XXType.WS2812B
    m_nLedCount := 170
    m_tRGBMapping := k.RGB_MAPPING_UNDEFINED
    m_nLowCode := 0
    m_nHighCode := 0
    m_nBufSize := 0 }

/-- `WS28xxMulti::Initialize`, up to the calls of the `Setup...` functions.  The file undefines
`NDEBUG`, so `assert(nLedCount > 0)` is compiled in: the result is `none` when it fails.  The
arguments `tRGBMapping`, `nT0H`, `nT1H` are not read by the function and `bUseSI5351A` only by
the hardware setup; `nLedCount` is a `uint16_t`. -/
def Initialize (k : WS28xxConstants) (w : WS28xxMulti) (tWS28xxType : TWS28XXType)
    (nLedCount : Nat) : Option WS28xxMulti :=
  if 0 < nLedCount then
    let m_tWS28xxType :=
      if tWS28xxType ∈ s_NotSupported then TWS28XXType.WS2812B else w.m_tWS28xxType
    let m_tRGBMapping :=
      if w.m_tRGBMapping = k.RGB_MAPPING_UNDEFINED then k.GetRgbMapping m_tWS28xxType
      else w.m_tRGBMapping
    let nLowCode := (k.GetTxH m_tWS28xxType).1
    let nHighCode := (k.GetTxH m_tWS28xxType).2
    let m_nLowCode := if w.m_nLowCode = 0 then nLowCode else w.m_nLowCode
    let m_nHighCode := if w.m_nHighCode = 0 then nHighCode else w.m_nHighCode
    if m_tWS28xxType = TWS28XXType.SK6812W then
      some { m_tWS28xxType := m_tWS28xxType
             m_nLedCount := if nLedCount ≤ LEDCOUNT_RGBW_MAX then nLedCount else LEDCOUNT_RGBW_MAX
             m_tRGBMapping := m_tRGBMapping
             m_nLowCode := m_nLowCode
             m_nHighCode := m_nHighCode
             m_nBufSize := (nLedCount * SINGLE_RGBW) % 4294967296 }
    else
      some { m_tWS28xxType := m_tWS28xxType
             m_nLedCount := if nLedCount ≤ LEDCOUNT_RGB_MAX then nLedCount else LEDCOUNT_RGB_MAX
             m_tRGBMapping := m_tRGBMapping
             m_nLowCode := m_nLowCode
             m_nHighCode := m_nHighCode
             m_nBufSize := (nLedCount * SINGLE_RGB) % 4294967296 }
  else none

/-- Values for the examples: mapping 0 is the undefined one, every LED type has mapping 1 and
the codes 0xC0 and 0xF0 (the examples do not look at them). -/
def sampleWS28xxConstants : WS28xxConstants :=
  { RGB_MAPPING_UNDEFINED := 0
    GetRgbMapping := fun _ => 1
    GetTxH := fun _ => (0xC0, 0xF0) }

end WS28xxMulti

end RpiDmx512

/-! ## Array access lemmas -/

namespace RpiDmx512

theorem readAt_eq_ok {α : Type} {f : Nat → Fault} {xs : List α} {i : Nat} {v : α} :
    readAt f xs i = .ok v ↔ xs[i]? = some v := by
  unfold readAt
  cases h : xs[i]? <;> simp

theorem readAt_of_lt {α : Type} (f : Nat → Fault) {xs : List α} {i : Nat} (h : i < xs.length) :
    readAt f xs i = .ok (xs.get ⟨i, h⟩) := by
  rw [readAt_eq_ok]
  simp [List.getElem?_eq_getElem h]

theorem readAt_of_le {α : Type} (f : Nat → Fault) {xs : List α} {i : Nat} (h : xs.length ≤ i) :
    readAt f xs i = .error (f i) := by
  unfold readAt
  rw [List.getElem?_eq_none h]

theorem readAt_lt {α : Type} {f : Nat → Fault} {xs : List α} {i : Nat} {v : α}
    (h : readAt f xs i = .ok v) : i < xs.length := by
  rw [readAt_eq_ok] at h
  exact (List.getElem?_eq_some.mp h).1

theorem writeAt_eq_ok {α : Type} {f : Nat → Fault} {xs ys : List α} {i : Nat} {v : α} :
    writeAt f xs i v = .ok ys ↔ i < xs.length ∧ ys = xs.set i v := by
  unfold writeAt
  split
  · simp [*, eq_comm]
  · simp [*]

theorem writeAt_of_lt {α : Type} (f : Nat → Fault) {xs : List α} {i : Nat} (v : α)
    (h : i < xs.length) : writeAt f xs i v = .ok (xs.set i v) := by
  simp [writeAt, h]

theorem writeAt_of_le {α : Type} (f : Nat → Fault) {xs : List α} {i : Nat} (v : α)
    (h : xs.length ≤ i) : writeAt f xs i v = .error (f i) := by
  simp [writeAt, Nat.not_lt.mpr h]

theorem bind_eq_ok {α β : Type} {m : Except Fault α} {k : α → Except Fault β} {b : β} :
    (m >>= k) = .ok b ↔ ∃ a, m = .ok a ∧ k a = .ok b := by
  cases m with
  | error e => simp [bind, Except.bind]
  | ok a => simp [bind, Except.bind]

/-! ## The binary search -/

theorem searchLoop_sound (key : Nat → Except Fault Nat) (vals : Nat → Nat) (x n : Nat)
    (hkey : ∀ j v, key j = .ok v → v = vals j)
    (hsorted : ∀ i j, i < j → j < n → vals i < vals j)
    (htrail : vals n = 0) :
    ∀ (fuel : Nat) (nLow nMid nHigh : Int) (res : Search),
      0 ≤ nLow → nHigh ≤ n → nLow ≤ nHigh + 1 →
      (∀ j : Nat, (j : Int) < nLow → j < n → vals j < x) →
      (∀ j : Nat, nHigh < (j : Int) → j < n → x < vals j) →
      (nLow = nHigh + 1 → nHigh = n → nMid = n) →
      searchLoop key x fuel nLow nMid nHigh = .ok res → SearchPost vals x n res := by
  intro fuel
  induction fuel with
  | zero => intro nLow nMid nHigh res _ _ _ _ _ _ h; simp [searchLoop] at h
  | succ fuel ih =>
    intro nLow nMid nHigh res h0 hn hle hlt hgt hmid h
    unfold searchLoop at h
    by_cases hc : nLow ≤ nHigh
    · simp only [hc, if_true] at h
      generalize hm : nLow + (nHigh - nLow) / 2 = m at h
      have hm1 : nLow ≤ m := by omega
      have hm2 : m ≤ nHigh := by omega
      have hm3 : ((m.toNat : Nat) : Int) = m := by omega
      cases hk : key m.toNat with
      | error e => simp [hk] at h
      | ok v =>
        simp only [hk] at h
        have hv := hkey _ _ hk
        subst hv
        by_cases h1 : vals m.toNat < x
        · simp only [h1, if_true] at h
          refine ih _ _ _ _ (by omega) hn (by omega) ?_ hgt (by omega) h
          intro j hj hjn
          by_cases hjm : j = m.toNat
          · subst hjm; exact h1
          · have : j < m.toNat := by omega
            by_cases hmn : m.toNat < n
            · exact lt_trans (hsorted _ _ this hmn) h1
            · exact hlt j (by omega) hjn
        · by_cases h2 : vals m.toNat > x
          · simp only [h1, h2, if_true, if_false] at h
            have hmn : m.toNat < n := by
              by_contra hcon
              have : m.toNat = n := by omega
              rw [this, htrail] at h2
              omega
            refine ih _ _ _ _ h0 (by omega) (by omega) hlt ?_ (by omega) h
            intro j hj hjn
            by_cases hjm : j = m.toNat
            · subst hjm; exact h2
            · have : m.toNat < j := by omega
              exact lt_trans h2 (hsorted _ _ this hjn)
          · simp only [h1, h2, if_false] at h
            cases h
            have hx : vals m.toNat = x := by omega
            refine ⟨hx, ?_⟩
            by_cases hmn : m.toNat < n
            · exact Or.inl hmn
            · right
              have hmn2 : m.toNat = n := by omega
              have hx0 : x = 0 := by rw [← hx, hmn2, htrail]
              have hn0 : n = 0 := by
                by_contra hne
                have := hlt 0 (by omega) (by omega)
                omega
              omega
    · simp only [hc, if_false] at h
      cases h
      refine ⟨h0, by omega, hn, hlt, ?_, ?_⟩
      · intro j hj hjn; exact hgt j (by omega) hjn
      · intro h; exact hmid (by omega) h

theorem search_sound (key : Nat → Except Fault Nat) (vals : Nat → Nat) (x n : Nat)
    (hkey : ∀ j v, key j = .ok v → v = vals j)
    (hsorted : ∀ i j, i < j → j < n → vals i < vals j)
    (htrail : vals n = 0) (res : Search) (h : search key x n = .ok res) :
    SearchPost vals x n res := by
  refine searchLoop_sound key vals x n hkey hsorted htrail _ 0 0 n res (le_refl _) (le_refl _)
    (by omega) ?_ ?_ (by omega) h
  · intro j hj; omega
  · intro j hj hjn; omega

/-- The search finds a key that is present: it ends at the index of the key, and it reads only
slots below `n` on the way (so it needs `key` to succeed only there). -/
theorem searchLoop_finds (key : Nat → Except Fault Nat) (vals : Nat → Nat) (n i : Nat)
    (hkey : ∀ j, j < n → key j = .ok (vals j))
    (hsorted : ∀ i j, i < j → j < n → vals i < vals j) (hi : i < n) :
    ∀ (fuel : Nat) (nLow nMid nHigh : Int),
      0 ≤ nLow → nLow ≤ i → (i : Int) ≤ nHigh → nHigh ≤ n → nHigh - nLow < fuel →
      searchLoop key (vals i) fuel nLow nMid nHigh = .ok (Search.found i) := by
  intro fuel
  induction fuel with
  | zero => intro nLow nMid nHigh _ _ _ _ h; omega
  | succ fuel ih =>
    intro nLow nMid nHigh h0 h1 h2 h3 h4
    unfold searchLoop
    have hc : nLow ≤ nHigh := by omega
    simp only [hc, if_true]
    generalize hm : nLow + (nHigh - nLow) / 2 = m
    have hm1 : nLow ≤ m := by omega
    have hm2 : m ≤ nHigh := by omega
    have hm3 : ((m.toNat : Nat) : Int) = m := by omega
    have hmn : m.toNat < n := by omega
    rw [hkey _ hmn]
    simp only
    rcases Nat.lt_trichotomy m.toNat i with hlt | heq | hgt
    · have := hsorted _ _ hlt hi
      simp only [this, if_true]
      exact ih _ _ _ (by omega) (by omega) h2 h3 (by omega)
    · rw [heq]; simp
    · have := hsorted _ _ hgt hmn
      have hnot : ¬ vals m.toNat < vals i := by omega
      simp only [hnot, if_false, gt_iff_lt, this, if_true]
      exact ih _ _ _ h0 h1 (by omega) (by omega) (by omega)

theorem search_finds (key : Nat → Except Fault Nat) (vals : Nat → Nat) (n i : Nat)
    (hkey : ∀ j, j < n → key j = .ok (vals j))
    (hsorted : ∀ i j, i < j → j < n → vals i < vals j) (hi : i < n) :
    search key (vals i) n = .ok (Search.found i) :=
  searchLoop_finds key vals n i hkey hsorted hi _ 0 0 n (le_refl _) (by omega) (by omega)
    (le_refl _) (by omega)

end RpiDmx512

/-! ## The shifting loops -/

namespace RpiDmx512

theorem moveRight_spec {α : Type} (f : Nat → Fault) (nLow : Int) (h0 : 0 ≤ nLow) :
    ∀ (m : Nat) (p p' : List α), moveRight f nLow m p = .ok p' →
      p'.length = p.length ∧
      ∀ j : Nat, p'[j]? = if nLow < (j : Int) ∧ j ≤ m then p[j - 1]? else p[j]? := by
  intro m
  induction m with
  | zero =>
    intro p p' h
    simp only [moveRight, Except.ok.injEq] at h
    subst h
    refine ⟨rfl, fun j => ?_⟩
    rw [if_neg (by omega)]
  | succ i ih =>
    intro p p' h
    unfold moveRight at h
    by_cases hc : nLow ≤ (i : Int)
    · rw [if_pos hc] at h
      cases hr : readAt f p i with
      | error e => simp [hr] at h
      | ok src =>
        simp only [hr] at h
        cases hw : writeAt f p (i + 1) src with
        | error e => simp [hw] at h
        | ok p1 =>
          simp only [hw] at h
          obtain ⟨hlen, hget⟩ := ih p1 p' h
          obtain ⟨hlt, hp1⟩ := writeAt_eq_ok.mp hw
          subst hp1
          rw [readAt_eq_ok] at hr
          refine ⟨by simpa using hlen, fun j => ?_⟩
          rw [hget j]
          by_cases hj : j = i + 1
          · subst hj
            rw [if_neg (by omega), if_pos (by omega)]
            simp [List.getElem?_set, hlt, hr]
          · by_cases hr2 : nLow < (j : Int) ∧ j ≤ i
            · rw [if_pos hr2, if_pos (by omega)]
              rw [List.getElem?_set_ne (by omega)]
            · rw [if_neg hr2, if_neg (by omega)]
              rw [List.getElem?_set_ne (by omega)]
    · rw [if_neg hc] at h
      simp only [Except.ok.injEq] at h
      subst h
      refine ⟨rfl, fun j => ?_⟩
      rw [if_neg (by omega)]

/-- The loop `moveRight` runs without a fault when the slot after the last moved entry is
inside the array. -/
theorem moveRight_ok {α : Type} (f : Nat → Fault) (nLow : Int) :
    ∀ (m : Nat) (p : List α), m < p.length → ∃ p', moveRight f nLow m p = .ok p' := by
  intro m
  induction m with
  | zero => intro p _; exact ⟨p, rfl⟩
  | succ i ih =>
    intro p hlen
    unfold moveRight
    by_cases hc : nLow ≤ (i : Int)
    · rw [if_pos hc]
      rw [readAt_of_lt f (by omega : i < p.length)]
      simp only
      rw [writeAt_of_lt f _ hlen]
      simp only
      exact ih _ (by simp; omega)
    · rw [if_neg hc]
      exact ⟨p, rfl⟩

theorem moveLeft_spec {α : Type} (f : Nat → Fault) :
    ∀ (k i : Nat) (p p' : List α) (i' : Nat), moveLeft f k i p = .ok (p', i') →
      i' = i + k ∧ p'.length = p.length ∧
      ∀ j : Nat, p'[j]? = if i ≤ j ∧ j < i + k then p[j + 1]? else p[j]? := by
  intro k
  induction k with
  | zero =>
    intro i p p' i' h
    simp only [moveLeft, Except.ok.injEq, Prod.mk.injEq] at h
    obtain ⟨h1, h2⟩ := h
    subst h1 h2
    refine ⟨rfl, rfl, fun j => ?_⟩
    rw [if_neg (by omega)]
  | succ k ih =>
    intro i p p' i' h
    unfold moveLeft at h
    cases hr : readAt f p (i + 1) with
    | error e => simp [hr] at h
    | ok src =>
      simp only [hr] at h
      cases hw : writeAt f p i src with
      | error e => simp [hw] at h
      | ok p1 =>
        simp only [hw] at h
        obtain ⟨hi', hlen, hget⟩ := ih (i + 1) p1 p' i' h
        obtain ⟨hlt, hp1⟩ := writeAt_eq_ok.mp hw
        subst hp1
        rw [readAt_eq_ok] at hr
        refine ⟨by omega, by simpa using hlen, fun j => ?_⟩
        rw [hget j]
        by_cases hj : j = i
        · subst hj
          rw [if_neg (by omega), if_pos (by omega)]
          simp [List.getElem?_set, hlt, hr]
        · by_cases hr2 : i + 1 ≤ j ∧ j < i + 1 + k
          · rw [if_pos hr2, if_pos (by omega)]
            rw [List.getElem?_set_ne (by omega)]
          · rw [if_neg hr2, if_neg (by omega)]
            rw [List.getElem?_set_ne (by omega)]

theorem moveLeft_ok {α : Type} (f : Nat → Fault) :
    ∀ (k i : Nat) (p : List α), i + k < p.length ∨ k = 0 →
      ∃ p', moveLeft f k i p = .ok (p', i + k) := by
  intro k
  induction k with
  | zero => intro i p _; exact ⟨p, rfl⟩
  | succ k ih =>
    intro i p hlen
    have hlen : i + (k + 1) < p.length := by omega
    unfold moveLeft
    rw [readAt_of_lt f (by omega : i + 1 < p.length)]
    simp only
    rw [writeAt_of_lt f _ (by omega : i < p.length)]
    simp only
    obtain ⟨p', hp'⟩ := ih (i + 1) (p.set i (p.get ⟨i + 1, by omega⟩)) (Or.inl (by simp; omega))
    refine ⟨p', ?_⟩
    rw [hp']
    have : i + 1 + k = i + (k + 1) := by omega
    rw [this]

/-- Inserting the key `x` at position `nLow` of `n` strictly ascending keys followed by zero
slots, the later keys moving one slot up, gives `n + 1` strictly ascending keys followed by zero
slots. -/
theorem insert_sorted (vals vals' : Nat → Nat) (n nLow x : Nat) (hle : nLow ≤ n)
    (hsorted : ∀ i j, i < j → j < n → vals i < vals j)
    (htrail : ∀ j, n ≤ j → vals j = 0)
    (hlt : ∀ j, j < nLow → vals j < x) (hgt : ∀ j, nLow ≤ j → j < n → x < vals j)
    (h1 : ∀ j, j < nLow → vals' j = vals j) (h2 : vals' nLow = x)
    (h3 : ∀ j, nLow < j → j ≤ n → vals' j = vals (j - 1))
    (h4 : ∀ j, n < j → vals' j = vals j) :
    (∀ i j, i < j → j < n + 1 → vals' i < vals' j) ∧ (∀ j, n + 1 ≤ j → vals' j = 0) := by
  refine ⟨fun i j hij hj => ?_, fun j hj => by rw [h4 j (by omega)]; exact htrail j (by omega)⟩
  rcases Nat.lt_trichotomy i nLow with hi | hi | hi
  · rw [h1 i hi]
    rcases Nat.lt_trichotomy j nLow with hj' | hj' | hj'
    · rw [h1 j hj']; exact hsorted i j hij (by omega)
    · rw [hj', h2]; exact hlt i hi
    · rw [h3 j hj' (by omega)]
      have ha := hgt (j - 1) (by omega) (by omega)
      have hb := hlt i hi
      omega
  · subst hi
    rw [h2, h3 j hij (by omega)]
    exact hgt (j - 1) (by omega) (by omega)
  · rw [h3 i hi (by omega), h3 j (by omega) (by omega)]
    exact hsorted (i - 1) (j - 1) (by omega) (by omega)

end RpiDmx512

/-! ## The sequence registry keeps its order -/

namespace RpiDmx512

theorem pure_eq_ok {α : Type} (a : α) : (pure a : Except Fault α) = .ok a := rfl

namespace E131Controller

theorem universeKey_eq (s : SequenceRegistry) (j v : Nat) (h : universeKey s j = .ok v) :
    v = universeAt s j := by
  unfold universeKey at h
  unfold universeAt
  cases hr : readAt Fault.sequenceNumbers s.s_SequenceNumbers j with
  | error e => simp [hr] at h
  | ok e =>
    simp only [hr, Except.ok.injEq] at h
    rw [readAt_eq_ok] at hr
    simp [hr, h]

theorem initRegistry_inv : RegistryInv initRegistry := by
  constructor
  · intro i j _ hj
    exact absurd hj (Nat.not_lt_zero j)
  · intro j _
    unfold universeAt initRegistry
    simp only
    rw [List.getElem?_replicate]
    by_cases hj : j < 512
    · rw [if_pos hj]
    · rw [if_neg hj]

/-- Every call of `GetSequenceNumber` that ends without a fault either found the universe at
an index `i` (only the sequence number of that slot changes) or inserted it. -/
theorem GetSequenceNumber_cases (s s' : SequenceRegistry) (u seq ip : Nat)
    (hinv : RegistryInv s) (h : GetSequenceNumber s u = .ok (s', seq, ip)) :
    (∃ i e, s.s_SequenceNumbers[i]? = some e ∧ e.nUniverse = u ∧
        (i < s.nActiveUniverses ∨ (s.nActiveUniverses = 0 ∧ i = 0 ∧ u = 0)) ∧
        seq = (e.nSequenceNumber + 1) % 256 ∧ ip = e.nIpAddress ∧
        s' = { s with s_SequenceNumbers :=
                 s.s_SequenceNumbers.set i { e with nSequenceNumber := seq } }) ∨
    (seq = 0 ∧ ip = UniverseToMulticastIp u ∧ ∃ k, InsertedAt s s' u k) := by
  unfold GetSequenceNumber at h
  cases hs : search (universeKey s) u s.nActiveUniverses with
  | error e => simp [hs] at h
  | ok res =>
    have hpost := search_sound (universeKey s) (universeAt s) u s.nActiveUniverses
      (universeKey_eq s) hinv.1 (hinv.2 _ (le_refl _)) res hs
    cases res with
    | found nMid =>
      left
      simp only [hs, bind_eq_ok, pure_eq_ok, Except.ok.injEq, Prod.mk.injEq] at h
      obtain ⟨e, he, p, hp, h1, h2, h3⟩ := h
      obtain ⟨hlt, hp⟩ := writeAt_eq_ok.mp hp
      rw [readAt_eq_ok] at he
      obtain ⟨hv, hidx⟩ := hpost
      refine ⟨nMid, e, he, ?_, hidx, h2.symm, h3.symm, ?_⟩
      · unfold universeAt at hv
        simpa [he] using hv
      · rw [← h1, hp, h2]
    | notFound nLow nMid nHigh =>
      right
      obtain ⟨h0, hlo, hhi, hlt, hgt, hmid⟩ := hpost
      simp only [hs] at h
      by_cases hc : (s.nActiveUniverses : Int) ≠ nHigh
      · rw [if_pos hc] at h
        simp only [bind_eq_ok, pure_eq_ok, Except.ok.injEq, Prod.mk.injEq] at h
        obtain ⟨p1, hp1, e, he, p2, hp2, h1, h2, h3⟩ := h
        obtain ⟨hlen1, hget1⟩ := moveRight_spec _ nLow h0 _ _ _ hp1
        obtain ⟨hlt2, hp2⟩ := writeAt_eq_ok.mp hp2
        have hk : nLow.toNat ≤ s.nActiveUniverses := by omega
        have hcast : ((nLow.toNat : Nat) : Int) = nLow := by omega
        refine ⟨h2.symm, h3.symm, nLow.toNat, hk, by rw [← h1], ?_, ?_, ?_, ?_, ?_, ?_, ?_⟩
        · rw [← h1]; simp [hp2, hlen1]
        · intro j hj
          rw [← h1]; simp only
          rw [hp2, List.getElem?_set_ne (by omega), hget1 j, if_neg (by omega)]
        · refine ⟨{ e with nIpAddress := UniverseToMulticastIp u, nUniverse := u,
                              nSequenceNumber := 0 }, ?_, rfl, rfl⟩
          rw [← h1]; simp only
          rw [hp2, List.getElem?_set_self hlt2]
        · intro j hj1 hj2
          rw [← h1]; simp only
          rw [hp2, List.getElem?_set_ne (by omega), hget1 j, if_pos (by omega)]
        · intro j hj
          rw [← h1]; simp only
          rw [hp2, List.getElem?_set_ne (by omega), hget1 j, if_neg (by omega)]
        · intro j hj
          exact hlt j (by omega) (by omega)
        · intro j hj1 hj2
          exact hgt j (by omega) hj2
      · rw [if_neg hc] at h
        have hc : (s.nActiveUniverses : Int) = nHigh := by omega
        have hm := hmid hc.symm
        simp only [bind_eq_ok, pure_eq_ok, Except.ok.injEq, Prod.mk.injEq] at h
        obtain ⟨e, he, p2, hp2, h1, h2, h3⟩ := h
        obtain ⟨hlt2, hp2⟩ := writeAt_eq_ok.mp hp2
        have hmn : nMid.toNat = s.nActiveUniverses := by omega
        rw [hmn] at hp2 hlt2
        refine ⟨h2.symm, h3.symm, s.nActiveUniverses, le_refl _, by rw [← h1], ?_, ?_, ?_, ?_, ?_,
          ?_, ?_⟩
        · rw [← h1]; simp [hp2]
        · intro j hj
          rw [← h1]; simp only
          rw [hp2, List.getElem?_set_ne (by omega)]
        · refine ⟨{ e with nIpAddress := UniverseToMulticastIp u, nUniverse := u }, ?_, rfl, rfl⟩
          rw [← h1]; simp only
          rw [hp2, List.getElem?_set_self hlt2]
        · intro j hj1 hj2
          omega
        · intro j hj
          rw [← h1]; simp only
          rw [hp2, List.getElem?_set_ne (by omega)]
        · intro j hj
          exact hlt j (by omega) hj
        · intro j hj1 hj2
          omega

end E131Controller

end RpiDmx512

namespace RpiDmx512

/-- Strictly ascending keys by index give a strictly ascending list of the first `n` keys. -/
theorem pairwise_take_map {α : Type} (xs : List α) (f : α → Nat) (n : Nat) (key : Nat → Nat)
    (hkey : ∀ j e, xs[j]? = some e → key j = f e)
    (h : ∀ i j, i < j → j < n → key i < key j) :
    List.Pairwise (fun a b => a < b) ((xs.take n).map f) := by
  rw [List.pairwise_iff_getElem]
  intro i j hi hj hij
  simp only [List.length_map, List.length_take] at hi hj
  rw [List.getElem_map, List.getElem_map, List.getElem_take, List.getElem_take]
  have h1 := hkey i xs[i] (List.getElem?_eq_getElem (by omega))
  have h2 := hkey j xs[j] (List.getElem?_eq_getElem (by omega))
  rw [← h1, ← h2]
  exact h i j hij (by omega)

namespace E131Controller

theorem universeAt_eq (s : SequenceRegistry) (j : Nat) (e : TSequenceNumbers)
    (h : s.s_SequenceNumbers[j]? = some e) : universeAt s j = e.nUniverse := by
  unfold universeAt
  rw [h]

theorem universeAt_congr (s s' : SequenceRegistry) (j j' : Nat)
    (h : s'.s_SequenceNumbers[j]? = s.s_SequenceNumbers[j']?) :
    universeAt s' j = universeAt s j' := by
  unfold universeAt
  rw [h]

theorem InsertedAt_inv {s s' : SequenceRegistry} {u k : Nat} (hinv : RegistryInv s)
    (h : InsertedAt s s' u k) : RegistryInv s' := by
  obtain ⟨hk, hn, _, h1, ⟨e, he, heu, _⟩, h3, h4, hlt, hgt⟩ := h
  have := insert_sorted (universeAt s) (universeAt s') s.nActiveUniverses k u hk hinv.1 hinv.2
    hlt hgt (fun j hj => universeAt_congr _ _ _ _ (h1 j hj))
    (by rw [universeAt_eq _ _ _ he, heu])
    (fun j hj1 hj2 => universeAt_congr _ _ _ _ (h3 j hj1 hj2))
    (fun j hj => universeAt_congr _ _ _ _ (h4 j hj))
  unfold RegistryInv
  rw [hn]
  exact this

theorem GetSequenceNumber_inv (s s' : SequenceRegistry) (u seq ip : Nat)
    (hinv : RegistryInv s) (h : GetSequenceNumber s u = .ok (s', seq, ip)) :
    RegistryInv s' := by
  rcases GetSequenceNumber_cases s s' u seq ip hinv h with
    ⟨i, e, he, _, _, _, _, hs'⟩ | ⟨_, _, k, hk⟩
  · have hu : ∀ j, universeAt s' j = universeAt s j := by
      intro j
      unfold universeAt
      rw [hs']
      simp only
      by_cases hj : i = j
      · subst hj
        rw [he]
        have hlt : i < s.s_SequenceNumbers.length := (List.getElem?_eq_some.mp he).1
        rw [List.getElem?_set_self hlt]
      · rw [List.getElem?_set_ne hj]
    have hn : s'.nActiveUniverses = s.nActiveUniverses := by rw [hs']
    unfold RegistryInv
    rw [hn]
    exact ⟨fun a b hab hb => by rw [hu a, hu b]; exact hinv.1 a b hab hb,
      fun j hj => by rw [hu j]; exact hinv.2 j hj⟩
  · exact InsertedAt_inv hinv hk

theorem getSequenceNumbers_inv (us : List Nat) :
    ∀ (s s' : SequenceRegistry), RegistryInv s → getSequenceNumbers s us = .ok s' →
      RegistryInv s' := by
  induction us with
  | nil =>
    intro s s' hinv h
    simp only [getSequenceNumbers, Except.ok.injEq] at h
    rw [← h]; exact hinv
  | cons u us ih =>
    intro s s' hinv h
    unfold getSequenceNumbers at h
    cases hg : GetSequenceNumber s u with
    | error e => simp [hg] at h
    | ok r =>
      obtain ⟨s1, seq, ip⟩ := r
      simp only [hg] at h
      exact ih s1 s' (GetSequenceNumber_inv s s1 u seq ip hinv hg) h

end E131Controller

end RpiDmx512

namespace RpiDmx512

namespace E131Controller

set_option maxRecDepth 1000000 in
theorem getSequenceNumbers_sample :
    getSequenceNumbers initRegistry [5, 3, 5, 7] = .ok sampleRegistry := by decide

set_option maxRecDepth 1000000 in
/-- C5, the code at the failing input.  On a fresh controller the first call
`GetSequenceNumber(0)` returns 1, not 0: universe 0 is "found" in the zeroed slot 0 although no
universe is active.  The counter it incremented stays in slot 0, so universe 5, registered
next, returns 0 and then 2. -/
theorem C5_universe_zero_breaks_sequence :
    sequenceResults initRegistry [0] = .ok [1] ∧
    sequenceResults initRegistry [0, 5, 5] = .ok [1, 0, 2] := by decide

set_option maxRecDepth 1000000 in
/-- C6, the code at the failing input.  For universe 0 on a fresh controller (not in the
registry, no universe active) `GetSequenceNumber` returns sequence 1 and multicast IP 0.0.0.0,
and the number of active universes stays 0. -/
theorem C6_universe_zero_not_registered :
    (GetSequenceNumber initRegistry 0).map (fun r => (r.1.nActiveUniverses, r.2.1, r.2.2))
      = .ok (0, 1, 0) := by decide

end E131Controller

end RpiDmx512

/-! ## The node array keeps its order -/

namespace RpiDmx512

namespace ArtNetPollTable

theorem SameNodesBut_refl (i : Nat) (t : ArtNetPollTable) : SameNodesBut i t t :=
  ⟨rfl, rfl, rfl, fun _ _ => rfl, rfl⟩

theorem SameNodesBut_trans {i : Nat} {t1 t2 t3 : ArtNetPollTable}
    (h1 : SameNodesBut i t1 t2) (h2 : SameNodesBut i t2 t3) : SameNodesBut i t1 t3 :=
  ⟨h2.1.trans h1.1, h2.2.1.trans h1.2.1, h2.2.2.1.trans h1.2.2.1,
    fun j hj => (h2.2.2.2.1 j hj).trans (h1.2.2.2.1 j hj), h2.2.2.2.2.trans h1.2.2.2.2⟩

theorem ProcessUniverse_nodes (t t' : ArtNetPollTable) (ip u : Nat)
    (h : ProcessUniverse t ip u = .ok t') :
    t'.m_pPollTable = t.m_pPollTable ∧ t'.m_nPollTableEntries = t.m_nPollTableEntries ∧
    t'.m_tTableClean = t.m_tTableClean := by
  unfold ProcessUniverse at h
  simp only [bind_eq_ok, pure_eq_ok] at h
  obtain ⟨nEntry, _, h⟩ := h
  split at h
  · simp only [bind_eq_ok, pure_eq_ok] at h
    obtain ⟨e, _, p32, _, nCount, _, h⟩ := h
    split at h
    · simp only [Except.ok.injEq] at h
      subst h
      exact ⟨rfl, rfl, rfl⟩
    · simp only [bind_eq_ok, pure_eq_ok, Except.ok.injEq] at h
      obtain ⟨_, _, _, _, _, _, h⟩ := h
      subst h
      exact ⟨rfl, rfl, rfl⟩
  · simp only [bind_eq_ok, pure_eq_ok, Except.ok.injEq] at h
    obtain ⟨_, _, _, _, _, _, _, _, _, _, h⟩ := h
    subst h
    exact ⟨rfl, rfl, rfl⟩

theorem setLastUpdateMillis_nodes (t t' : ArtNetPollTable) (i k nMillis : Nat)
    (h : setLastUpdateMillis t i k nMillis = .ok t') : SameNodesBut i t t' := by
  unfold setLastUpdateMillis at h
  simp only [bind_eq_ok, pure_eq_ok, Except.ok.injEq] at h
  obtain ⟨e, he, u, _, us, _, p, hp, h⟩ := h
  subst h
  obtain ⟨hlt, hp⟩ := writeAt_eq_ok.mp hp
  rw [readAt_eq_ok] at he
  subst hp
  refine ⟨rfl, rfl, by simp, fun j hj => ?_, ?_⟩
  · simp only
    rw [List.getElem?_set_ne (Ne.symm hj)]
  · simp only
    rw [List.getElem?_set_self hlt, he]
    rfl

theorem addPort_nodes (c : Constants) (r : TArtPollReply) (nMillis i : Nat)
    (t t' : ArtNetPollTable) (nIndex : Nat) (h : addPort c r nMillis i t nIndex = .ok t') :
    SameNodesBut i t t' := by
  unfold addPort at h
  simp only [bind_eq_ok, pure_eq_ok] at h
  split at h
  · simp only [bind_eq_ok, pure_eq_ok] at h
    obtain ⟨e, he, k, _, h⟩ := h
    split at h
    · split at h
      · simp only [bind_eq_ok, pure_eq_ok] at h
        obtain ⟨u, _, us, _, p, hp, t1, ht1, h⟩ := h
        obtain ⟨hlt, hp⟩ := writeAt_eq_ok.mp hp
        rw [readAt_eq_ok] at he
        obtain ⟨h1, h2, h3⟩ := ProcessUniverse_nodes _ _ _ _ ht1
        have hA : SameNodesBut i t t1 := by
          refine ⟨h2, h3, by rw [h1]; simp [hp], fun j hj => ?_, ?_⟩
          · rw [h1]; simp only
            rw [hp, List.getElem?_set_ne (Ne.symm hj)]
          · rw [h1]; simp only
            rw [hp, List.getElem?_set_self hlt, he]
            rfl
        exact SameNodesBut_trans hA (setLastUpdateMillis_nodes _ _ _ _ _ h)
      · simp only [Except.ok.injEq] at h
        subst h
        exact SameNodesBut_refl _ _
    · exact setLastUpdateMillis_nodes _ _ _ _ _ h
  · simp only [Except.ok.injEq] at h
    subst h
    exact SameNodesBut_refl _ _

theorem addPorts_nodes (c : Constants) (r : TArtPollReply) (nMillis i : Nat) :
    ∀ (k nIndex : Nat) (t t' : ArtNetPollTable),
      addPorts c r nMillis i k nIndex t = .ok t' → SameNodesBut i t t' := by
  intro k
  induction k with
  | zero =>
    intro nIndex t t' h
    simp only [addPorts, Except.ok.injEq] at h
    subst h
    exact SameNodesBut_refl _ _
  | succ k ih =>
    intro nIndex t t' h
    unfold addPorts at h
    cases hp : addPort c r nMillis i t nIndex with
    | error e => simp [hp] at h
    | ok t1 =>
      simp only [hp] at h
      exact SameNodesBut_trans (addPort_nodes _ _ _ _ _ _ _ hp) (ih _ _ _ h)

theorem SameNodesBut_ipKeyAt {i : Nat} {t t' : ArtNetPollTable} (h : SameNodesBut i t t')
    (j : Nat) : ipKeyAt t' j = ipKeyAt t j := by
  unfold ipKeyAt
  by_cases hj : j = i
  · subst hj
    have := h.2.2.2.2
    cases h1 : t'.m_pPollTable[j]? <;> cases h2 : t.m_pPollTable[j]? <;>
      simp [h1, h2] at this ⊢
    rw [this]
  · rw [h.2.2.2.1 j hj]

theorem SameNodesBut_inv {i : Nat} {t t' : ArtNetPollTable} (h : SameNodesBut i t t')
    (hinv : TableInv t) : TableInv t' := by
  unfold TableInv
  rw [h.1, h.2.2.1]
  exact ⟨fun a b hab hb => by rw [SameNodesBut_ipKeyAt h a, SameNodesBut_ipKeyAt h b]; exact hinv.1 a b hab hb,
    fun j hj => by rw [SameNodesBut_ipKeyAt h j]; exact hinv.2.1 j hj, hinv.2.2.1, hinv.2.2.2⟩

end ArtNetPollTable

end RpiDmx512

namespace RpiDmx512

namespace ArtNetPollTable

theorem nodeKey_eq (t : ArtNetPollTable) (j v : Nat) (h : nodeKey t j = .ok v) :
    v = ipKeyAt t j := by
  unfold nodeKey at h
  unfold ipKeyAt
  cases hr : readAt Fault.pollTable t.m_pPollTable j with
  | error e => simp [hr] at h
  | ok e =>
    simp only [hr, Except.ok.injEq] at h
    rw [readAt_eq_ok] at hr
    simp [hr, h]

theorem ipKeyAt_eq (t : ArtNetPollTable) (j : Nat) (e : TArtNetNodeEntry)
    (h : t.m_pPollTable[j]? = some e) : ipKeyAt t j = bswap32 e.IPAddress := by
  unfold ipKeyAt
  rw [h]

theorem ipKeyAt_congr (t t' : ArtNetPollTable) (j j' : Nat)
    (h : t'.m_pPollTable[j]? = t.m_pPollTable[j']?) : ipKeyAt t' j = ipKeyAt t j' := by
  unfold ipKeyAt
  rw [h]

theorem insertNode_spec (c : Constants) (t t' : ArtNetPollTable) (r : TArtPollReply)
    (nLow nMid nHigh : Int) (i : Nat) (hinv : TableInv t)
    (hpost : SearchPost (ipKeyAt t) (bswap32 r.IPAddress) t.m_nPollTableEntries
      (Search.notFound nLow nMid nHigh))
    (h : insertNode c t r nLow nHigh = .ok (t', i)) :
    NodeInsertedAt c t t' r.IPAddress i := by
  obtain ⟨h0, hlo, hhi, hlt, hgt, _⟩ := hpost
  obtain ⟨_, _, hnlen, hlen32⟩ := hinv
  unfold insertNode at h
  by_cases hc : (t.m_nPollTableEntries : Int) ≠ nHigh % 4294967296
  · rw [if_pos hc] at h
    simp only [bind_eq_ok, pure_eq_ok, Except.ok.injEq, Prod.mk.injEq] at h
    obtain ⟨p1, hp1, p2, hp2, a, ha, e, he, p3, hp3, h3, h4⟩ := h
    subst ha
    simp only at he hp3 h4
    subst h4
    obtain ⟨hlen1, hget1⟩ := moveRight_spec _ nLow h0 _ _ _ hp1
    obtain ⟨hlt2, hp2⟩ := writeAt_eq_ok.mp hp2
    obtain ⟨hlt3, hp3⟩ := writeAt_eq_ok.mp hp3
    rw [readAt_eq_ok] at he
    have hk : nLow.toNat ≤ t.m_nPollTableEntries := by omega
    have hcast : ((nLow.toNat : Nat) : Int) = nLow := by omega
    have hez : e = zeroEntry c := by
      rw [hp2, List.getElem?_set_self hlt2] at he
      exact (Option.some.inj he).symm
    have hnl : t.m_nPollTableEntries < t.m_pPollTable.length := by
      by_cases hkn : nLow.toNat = t.m_nPollTableEntries
      · rw [hkn, hlen1] at hlt2; exact hlt2
      · have hw := hget1 t.m_nPollTableEntries
        rw [if_pos (by omega)] at hw
        by_contra hcon
        have h5 : p1[t.m_nPollTableEntries]? = none :=
          List.getElem?_eq_none (by omega)
        rw [h5] at hw
        have h6 : t.m_nPollTableEntries - 1 < t.m_pPollTable.length := by omega
        rw [List.getElem?_eq_getElem h6] at hw
        exact Option.noConfusion hw
    rw [← h3]
    refine ⟨hk, rfl, ?_, hnl, ?_, ?_, ?_, ?_, ?_, ?_, rfl, rfl, rfl, rfl⟩
    · simp [hp3, hp2, hlen1]
    · intro j hj
      simp only
      rw [hp3, List.getElem?_set_ne (by omega), hp2, List.getElem?_set_ne (by omega), hget1 j,
        if_neg (by omega)]
    · left
      simp only
      rw [hp3, List.getElem?_set_self hlt3, hez]
    · intro j hj1 hj2
      simp only
      rw [hp3, List.getElem?_set_ne (by omega), hp2, List.getElem?_set_ne (by omega), hget1 j,
        if_pos (by omega)]
    · intro j hj
      simp only
      rw [hp3, List.getElem?_set_ne (by omega), hp2, List.getElem?_set_ne (by omega), hget1 j,
        if_neg (by omega)]
    · intro j hj
      exact hlt j (by omega) (by omega)
    · intro j hj1 hj2
      exact hgt j (by omega) hj2
  · rw [if_neg hc] at h
    have hc : (t.m_nPollTableEntries : Int) = nHigh := by omega
    simp only [bind_eq_ok, pure_eq_ok, Except.ok.injEq, Prod.mk.injEq] at h
    obtain ⟨a, ha, e, he, p3, hp3, h3, h4⟩ := h
    subst ha
    simp only at he hp3 h4
    subst h4
    obtain ⟨hlt3, hp3⟩ := writeAt_eq_ok.mp hp3
    rw [readAt_eq_ok] at he
    rw [← h3]
    refine ⟨le_refl _, rfl, ?_, hlt3, ?_, ?_, ?_, ?_, ?_, ?_, rfl, rfl, rfl, rfl⟩
    · simp [hp3]
    · intro j hj
      simp only
      rw [hp3, List.getElem?_set_ne (by omega)]
    · right
      refine ⟨e, rfl, he, ?_⟩
      simp only
      rw [hp3, List.getElem?_set_self hlt3]
    · intro j hj1 hj2
      omega
    · intro j hj
      simp only
      rw [hp3, List.getElem?_set_ne (by omega)]
    · intro j hj
      exact hlt j (by omega) hj
    · intro j hj1 hj2
      omega

theorem NodeInsertedAt_inv {c : Constants} {t t' : ArtNetPollTable} {ip k : Nat}
    (hinv : TableInv t) (h : NodeInsertedAt c t t' ip k) : TableInv t' := by
  obtain ⟨hk, hn, hlen, hnl, h1, h2, h3, h4, hlt, hgt, _⟩ := h
  have hkey : ipKeyAt t' k = bswap32 ip := by
    rcases h2 with h2 | ⟨e, _, _, h2⟩
    · rw [ipKeyAt_eq _ _ _ h2]
    · rw [ipKeyAt_eq _ _ _ h2]
  have := insert_sorted (ipKeyAt t) (ipKeyAt t') t.m_nPollTableEntries k (bswap32 ip) hk
    hinv.1 hinv.2.1 hlt hgt (fun j hj => ipKeyAt_congr _ _ _ _ (h1 j hj)) hkey
    (fun j hj1 hj2 => ipKeyAt_congr _ _ _ _ (h3 j hj1 hj2))
    (fun j hj => ipKeyAt_congr _ _ _ _ (h4 j hj))
  unfold TableInv
  rw [hn, hlen]
  exact ⟨this.1, this.2, by omega, hinv.2.2.2⟩

/-- Every call of `Add` that ends without a fault is one of: the IP was found at index `i`
(then only the universe data of slot `i` changes); the table is full and nothing changes; the
IP was inserted at index `i` and then only the universe data of slot `i` changes. -/
theorem Add_cases (c : Constants) (t t' : ArtNetPollTable) (r : TArtPollReply) (nMillis : Nat)
    (hinv : TableInv t) (h : Add c t r nMillis = .ok t') :
    (∃ i, ipKeyAt t i = bswap32 r.IPAddress ∧
        (i < t.m_nPollTableEntries ∨
          (t.m_nPollTableEntries = 0 ∧ i = 0 ∧ bswap32 r.IPAddress = 0)) ∧
        addPorts c r nMillis i c.ARTNET_MAX_PORTS 0 t = .ok t') ∨
    (t.m_nPollTableEntries = c.ARTNET_POLL_TABLE_SIZE_ENRIES ∧ t' = t ∧
      ∀ j, j < t.m_nPollTableEntries → ipKeyAt t j ≠ bswap32 r.IPAddress) ∨
    (t.m_nPollTableEntries ≠ c.ARTNET_POLL_TABLE_SIZE_ENRIES ∧
      ∃ t1 i, NodeInsertedAt c t t1 r.IPAddress i ∧
        addPorts c r nMillis i c.ARTNET_MAX_PORTS 0 t1 = .ok t') := by
  unfold Add at h
  cases hs : search (nodeKey t) (bswap32 r.IPAddress) t.m_nPollTableEntries with
  | error e => simp [hs] at h
  | ok res =>
    have hpost := search_sound (nodeKey t) (ipKeyAt t) (bswap32 r.IPAddress)
      t.m_nPollTableEntries (nodeKey_eq t) hinv.1 (hinv.2.1 _ (le_refl _)) res hs
    cases res with
    | found i =>
      simp only [hs] at h
      exact Or.inl ⟨i, hpost.1, hpost.2, h⟩
    | notFound nLow nMid nHigh =>
      simp only [hs] at h
      right
      by_cases hfull : t.m_nPollTableEntries = c.ARTNET_POLL_TABLE_SIZE_ENRIES
      · rw [if_pos hfull] at h
        simp only [Except.ok.injEq] at h
        refine Or.inl ⟨hfull, h.symm, fun j hj => ?_⟩
        obtain ⟨_, _, _, hlt, hgt, _⟩ := hpost
        by_cases hjl : (j : Int) < nLow
        · exact Nat.ne_of_lt (hlt j hjl hj)
        · exact Nat.ne_of_gt (hgt j (by omega) hj)
      · rw [if_neg hfull] at h
        right
        cases hi : insertNode c t r nLow nHigh with
        | error e => simp [hi] at h
        | ok res =>
          obtain ⟨t1, i⟩ := res
          simp only [hi] at h
          exact ⟨hfull, t1, i, insertNode_spec c t t1 r nLow nMid nHigh i hinv hpost hi, h⟩

theorem Add_inv (c : Constants) (t t' : ArtNetPollTable) (r : TArtPollReply) (nMillis : Nat)
    (hinv : TableInv t) (h : Add c t r nMillis = .ok t') : TableInv t' := by
  rcases Add_cases c t t' r nMillis hinv h with ⟨i, _, _, h⟩ | ⟨_, h, _⟩ | ⟨_, t1, i, h1, h⟩
  · exact SameNodesBut_inv (addPorts_nodes _ _ _ _ _ _ _ _ h) hinv
  · rw [h]; exact hinv
  · exact SameNodesBut_inv (addPorts_nodes _ _ _ _ _ _ _ _ h) (NodeInsertedAt_inv hinv h1)

theorem init_inv (c : Constants) (hc : c.ARTNET_POLL_TABLE_SIZE_ENRIES < 4294967295) :
    TableInv (init c) := by
  refine ⟨fun i j _ hj => absurd hj (Nat.not_lt_zero j), fun j _ => ?_, Nat.zero_le _, ?_⟩
  · unfold ipKeyAt init
    simp only
    rw [List.getElem?_replicate]
    by_cases hj : j < c.ARTNET_POLL_TABLE_SIZE_ENRIES
    · rw [if_pos hj]; simp [zeroEntry, bswap32]
    · rw [if_neg hj]
  · simp [init, hc]

theorem addAll_inv (c : Constants) (rs : List (TArtPollReply × Nat)) :
    ∀ (t t' : ArtNetPollTable), TableInv t → addAll c t rs = .ok t' → TableInv t' := by
  induction rs with
  | nil =>
    intro t t' hinv h
    simp only [addAll, Except.ok.injEq] at h
    rw [← h]; exact hinv
  | cons x rs ih =>
    intro t t' hinv h
    obtain ⟨r, nMillis⟩ := x
    unfold addAll at h
    cases ha : Add c t r nMillis with
    | error e => simp [ha] at h
    | ok t1 =>
      simp only [ha] at h
      exact ih t1 t' (Add_inv c t t1 r nMillis hinv ha) h

end ArtNetPollTable

end RpiDmx512

/-! ## The poll table: the order of the node array (C1) and the code at the failing inputs -/

namespace RpiDmx512

namespace ArtNetPollTable

/-- C1. For every sequence of `Add` calls starting from the empty table (and staying inside the
arrays), the first `m_nPollTableEntries` node entries are strictly ascending by byte-swapped
(big-endian) IP address, so no IP address appears twice among them.  Every prefix of a sequence
is a sequence, so this holds after each call. -/
theorem C1_add_keeps_nodes_sorted (c : Constants)
    (hc : c.ARTNET_POLL_TABLE_SIZE_ENRIES < 4294967295)
    (rs : List (TArtPollReply × Nat)) (t : ArtNetPollTable)
    (h : addAll c (init c) rs = .ok t) :
    List.Pairwise (fun a b => a < b) (nodeKeys t) ∧ (nodeIps t).Nodup := by
  have hinv := addAll_inv c rs _ _ (init_inv c hc) h
  have hp : List.Pairwise (fun a b => a < b) (nodeKeys t) :=
    pairwise_take_map _ _ _ (ipKeyAt t) (ipKeyAt_eq t) hinv.1
  refine ⟨hp, ?_⟩
  have hmap : nodeKeys t = (nodeIps t).map bswap32 := by
    simp [nodeKeys, nodeIps, List.map_map, Function.comp_def]
  rw [hmap, List.pairwise_map] at hp
  exact hp.imp (fun hab heq => by rw [heq] at hab; exact lt_irrefl _ hab)

set_option maxRecDepth 100000 in
/-- Witness of C1: three replies from two nodes, the second inserted before the first. -/
theorem C1_add_keeps_nodes_sorted_witness :
    addAll smallConstants (init smallConstants) sampleReplies = .ok sampleTable ∧
    nodeIps sampleTable = [ipv4 10 0 0 1, ipv4 10 0 0 2] ∧
    List.Pairwise (fun a b => a < b) (nodeKeys sampleTable) ∧ (nodeIps sampleTable).Nodup :=
  ⟨by decide, by decide,
    C1_add_keeps_nodes_sorted smallConstants (by decide) sampleReplies sampleTable (by decide)⟩

set_option maxRecDepth 100000 in
theorem add_zero_ip_on_empty_table :
    (Add smallConstants (init smallConstants) (replyOf (ipv4 0 0 0 0) [1]) 100).map nodesView
      = .ok (0, [⟨0, 1, [⟨1, 100⟩, ⟨0, 0⟩]⟩, ⟨0, 0, [⟨0, 0⟩, ⟨0, 0⟩]⟩]) := by decide

set_option maxRecDepth 100000 in
/-- C2, the code at the failing input.  On the empty table a reply from 0.0.0.0 (absent from the
table, which has room) is not inserted: the binary search reads slot 0, finds the IP 0 of the
zeroed slot and takes it for the node.  The entry count stays 0 while the universe of the reply
is recorded in slot 0. -/
theorem C2_zero_ip_on_empty_table_not_inserted :
    (Add smallConstants (init smallConstants) (replyOf (ipv4 0 0 0 0) [1]) 100).map nodesView
      = .ok (0, [⟨0, 1, [⟨1, 100⟩, ⟨0, 0⟩]⟩, ⟨0, 0, [⟨0, 0⟩, ⟨0, 0⟩]⟩]) := by decide

set_option maxRecDepth 100000 in
/-- C3, the code at the failing input.  With capacity 2 and the nodes 10.0.0.1 and 10.0.0.2 in
the table, `Add` for 10.0.0.3 reads `m_pPollTable[2]`, one slot past the array, in the binary
search, before the capacity test.  (A third IP below the largest entry is dropped without such
a read: 10.0.0.2 after 10.0.0.1 and 10.0.0.3.) -/
theorem C3_full_table_reads_past_the_array :
    run smallConstants (init smallConstants)
        [Op.add (replyOf (ipv4 10 0 0 1) [1]) 100, Op.add (replyOf (ipv4 10 0 0 2) [1]) 100,
          Op.add (replyOf (ipv4 10 0 0 3) [1]) 100] = .error (Fault.pollTable 2) ∧
    (run smallConstants (init smallConstants)
        [Op.add (replyOf (ipv4 10 0 0 1) [1]) 100, Op.add (replyOf (ipv4 10 0 0 3) [1]) 100,
          Op.add (replyOf (ipv4 10 0 0 2) [1]) 100]).map nodesView
      = .ok (2, [⟨ipv4 10 0 0 1, 1, [⟨1, 100⟩, ⟨0, 0⟩]⟩, ⟨ipv4 10 0 0 3, 1, [⟨1, 100⟩, ⟨0, 0⟩]⟩])
    := by decide

set_option maxRecDepth 100000 in
/-- C4, the code at the failing input.  After `ProcessUniverse(10.0.0.1, 1)`,
`ProcessUniverse(10.0.0.2, 2)`, `RemoveIpAddress(1, 10.0.0.1)`, `ProcessUniverse(10.0.0.3, 3)`
the set of universe 2 is `[10.0.0.3]`, not `[10.0.0.2]`: removing universe 1 copied the
`pIpAddresses` pointer of universe 2 down and left the same pointer in the freed slot, which
universe 3 then took.  Also, removing an IP that was never added drops the last IP of the set:
after `ProcessUniverse(10.0.0.1, 1)`, `RemoveIpAddress(1, 10.0.0.2)` universe 1 is gone. -/
theorem C4_registry_loses_and_swaps_ips :
    ipAddressesAfter (init smallConstants) aliasingOps 2 = .ok [ipv4 10 0 0 3] ∧
    ipAddressesAfter (init smallConstants) aliasingOps 3 = .ok [ipv4 10 0 0 3] ∧
    ipAddressesAfter (init smallConstants)
      [RegistryOp.processUniverse (ipv4 10 0 0 1) 1, RegistryOp.removeIpAddress 1 (ipv4 10 0 0 2)]
      1 = .ok [] := by decide

/-- C9, the code at the failing input.  After a reply from 0.0.0.0 reached the empty table
(C2), the entry count is 0 and slot 0 holds a universe count of 1; `Clean` returns at once
when the entry count is 0, so no number of `Clean` calls, at any clock values, clears the
slot. -/
theorem C9_clean_never_clears_the_phantom_slot (times : List Nat) :
    (run smallConstants (init smallConstants)
        (Op.add (replyOf (ipv4 0 0 0 0) [1]) 100 :: times.map Op.clean)).map nodesView
      = .ok (0, [⟨0, 1, [⟨1, 100⟩, ⟨0, 0⟩]⟩, ⟨0, 0, [⟨0, 0⟩, ⟨0, 0⟩]⟩]) := by
  have hadd : ∃ t, Add smallConstants (init smallConstants) (replyOf (ipv4 0 0 0 0) [1]) 100
      = .ok t ∧ t.m_nPollTableEntries = 0 ∧
      nodesView t = (0, [⟨0, 1, [⟨1, 100⟩, ⟨0, 0⟩]⟩, ⟨0, 0, [⟨0, 0⟩, ⟨0, 0⟩]⟩]) := by
    cases h : Add smallConstants (init smallConstants) (replyOf (ipv4 0 0 0 0) [1]) 100 with
    | error e =>
      have := add_zero_ip_on_empty_table
      rw [h] at this
      exact absurd this (by simp [Except.map])
    | ok t =>
      have := add_zero_ip_on_empty_table
      rw [h] at this
      simp only [Except.map, Except.ok.injEq] at this
      refine ⟨t, rfl, ?_, this⟩
      have h1 := congrArg Prod.fst this
      exact h1
  obtain ⟨t, ht, hn, hv⟩ := hadd
  have hclean : ∀ ts : List Nat, run smallConstants t (ts.map Op.clean) = .ok t := by
    intro ts
    induction ts with
    | nil => rfl
    | cons x ts ih =>
      simp only [List.map_cons, run]
      have : Clean smallConstants t x = .ok t := by
        unfold Clean
        rw [if_pos hn]
      rw [this]
      exact ih
  simp only [run, ht, hclean times, Except.map, hv]

set_option maxRecDepth 100000 in
/-- C10, the code at the failing input.  Node 10.0.0.1 announces universe 2; the universe ages
out and two `Clean` calls remove the node; a reply from 0.0.0.0 (universe 1) reaches the empty
table; then 10.0.0.1 announces universe 2 again.  Its new entry holds two universes: universe 1
with the timestamp of the 0.0.0.0 reply, and universe 2.  The node is appended in slot 0 and,
unlike the `Move` path, the append path does not clear the slot. -/
theorem C10_new_entry_inherits_universes :
    (run smallConstants (init smallConstants)
        [Op.add (replyOf (ipv4 10 0 0 1) [2]) 100, Op.clean 100000, Op.clean 100000]).map nodesView
      = .ok (0, [⟨0, 0, [⟨0, 0⟩, ⟨0, 0⟩]⟩, ⟨0, 0, [⟨0, 0⟩, ⟨0, 0⟩]⟩]) ∧
    (run smallConstants (init smallConstants)
        [Op.add (replyOf (ipv4 10 0 0 1) [2]) 100, Op.clean 100000, Op.clean 100000,
          Op.add (replyOf (ipv4 0 0 0 0) [1]) 100100,
          Op.add (replyOf (ipv4 10 0 0 1) [2]) 100200]).map nodesView
      = .ok (1, [⟨ipv4 10 0 0 1, 2, [⟨1, 100100⟩, ⟨2, 100200⟩]⟩, ⟨0, 0, [⟨0, 0⟩, ⟨0, 0⟩]⟩])
    := by decide

set_option maxRecDepth 100000 in
/-- C11, the code at the failing input.  In the registry reached by `aliasingOps` (C4) the
entries of the universes 2 and 3 share one IP array.  `RemoveIpAddress(3, 10.0.0.3)` removes
universe 3 and changes the set of universe 2 from `[10.0.0.3]` to `[0.0.0.0]`. -/
theorem C11_remove_changes_another_universe :
    ipAddressesAfter (init smallConstants) aliasingOps 2 = .ok [ipv4 10 0 0 3] ∧
    ipAddressesAfter (init smallConstants)
      (aliasingOps ++ [RegistryOp.removeIpAddress 3 (ipv4 10 0 0 3)]) 2 = .ok [ipv4 0 0 0 0] ∧
    ipAddressesAfter (init smallConstants)
      (aliasingOps ++ [RegistryOp.removeIpAddress 3 (ipv4 10 0 0 3)]) 3 = .ok [] := by decide

set_option maxRecDepth 100000 in
/-- C13, the code at the failing input.  After `duplicateOps` the cursor of `Clean` is on node
10.0.0.3 (index 1), universe slot 0 (universe 2, last update 20000), and the set of universe 2
is `[10.0.0.3, 10.0.0.3]`.  `Clean` at 40000 (20 s later, more than 12 s) sets the slot's
timestamp to 0, but the set of universe 2 is then `[10.0.0.3]`: the IP of the node is still in
it. -/
theorem C13_stale_ip_stays_in_the_set :
    (run smallConstants3 (init smallConstants3) duplicateOps).map
        (fun t => (nodesView t, t.m_tTableClean, ipAddressesOf t 2))
      = .ok ((2, [⟨ipv4 10 0 0 2, 1, [⟨2, 20000⟩, ⟨0, 0⟩]⟩,
                  ⟨ipv4 10 0 0 3, 2, [⟨2, 20000⟩, ⟨3, 20000⟩]⟩, ⟨0, 0, [⟨0, 0⟩, ⟨0, 0⟩]⟩]),
             ⟨1, 0, true⟩, .ok [ipv4 10 0 0 3, ipv4 10 0 0 3]) ∧
    (run smallConstants3 (init smallConstants3) (duplicateOps ++ [Op.clean 40000])).map
        (fun t => (nodesView t, t.m_tTableClean, ipAddressesOf t 2))
      = .ok ((2, [⟨ipv4 10 0 0 2, 1, [⟨2, 20000⟩, ⟨0, 0⟩]⟩,
                  ⟨ipv4 10 0 0 3, 2, [⟨2, 0⟩, ⟨3, 20000⟩]⟩, ⟨0, 0, [⟨0, 0⟩, ⟨0, 0⟩]⟩]),
             ⟨1, 1, true⟩, .ok [ipv4 10 0 0 3]) := by decide

end ArtNetPollTable

end RpiDmx512

/-! ## `MakePortAddress` (C15) -/

namespace RpiDmx512

namespace ArtNetPollTable

theorem MakePortAddress_eq (nNetSwitch nSubSwitch nUniverse : Nat) :
    MakePortAddress nNetSwitch nSubSwitch nUniverse
      = portAddressFormula (nNetSwitch % 128) (nSubSwitch % 16) (nUniverse % 16) ∧
    MakePortAddress nNetSwitch nSubSwitch nUniverse < 32768 := by
  have h1 : nNetSwitch &&& 0x7F = nNetSwitch % 128 := Nat.and_pow_two_sub_one_eq_mod _ 7
  have h2 : nSubSwitch &&& 0x0F = nSubSwitch % 16 := Nat.and_pow_two_sub_one_eq_mod _ 4
  have h3 : nUniverse &&& 0x0F = nUniverse % 16 := Nat.and_pow_two_sub_one_eq_mod _ 4
  have hb : portAddressFormula (nNetSwitch % 128) (nSubSwitch % 16) (nUniverse % 16) < 2 ^ 15 := by
    unfold portAddressFormula
    apply Nat.or_lt_two_pow
    · apply Nat.or_lt_two_pow
      · rw [Nat.shiftLeft_eq]
        have := Nat.mod_lt nNetSwitch (by decide : 128 > 0)
        omega
      · rw [Nat.shiftLeft_eq]
        have := Nat.mod_lt nSubSwitch (by decide : 16 > 0)
        omega
    · have := Nat.mod_lt nUniverse (by decide : 16 > 0)
      omega
  have he : MakePortAddress nNetSwitch nSubSwitch nUniverse
      = portAddressFormula (nNetSwitch % 128) (nSubSwitch % 16) (nUniverse % 16) := by
    unfold MakePortAddress
    rw [h1, h2, h3]
    exact Nat.mod_eq_of_lt (by unfold portAddressFormula at hb; omega)
  exact ⟨he, by rw [he]; exact hb⟩

/-- C15, counterexample to the claim as stated.  For the bytes Net = 128, Sub-Net = 0,
Universe = 0 the formula `(Net<<8)|(Sub<<4)|Universe` is 32768 and `MakePortAddress` returns 0;
for Sub-Net = 16 the formula is 256 and the result 0; for Universe = 16 the formula is 16 and
the result 0. -/
theorem C15_counterexample_bytes_outside_the_fields :
    MakePortAddress 128 0 0 ≠ portAddressFormula 128 0 0 ∧
    MakePortAddress 0 16 0 ≠ portAddressFormula 0 16 0 ∧
    MakePortAddress 0 0 16 ≠ portAddressFormula 0 0 16 := by decide

/-- C15, amended.  For every Net, Sub-Net and Universe byte `MakePortAddress` returns the
Port-Address built from the low 7 bits of Net, the low 4 bits of Sub-Net and the low 4 bits of
Universe, a 15-bit value; this is `(Net<<8)|(Sub<<4)|Universe` whenever Net < 128,
Sub-Net < 16 and Universe < 16. -/
theorem C15_make_port_address_masks_its_fields (nNetSwitch nSubSwitch nUniverse : Nat) :
    MakePortAddress nNetSwitch nSubSwitch nUniverse
      = portAddressFormula (nNetSwitch % 128) (nSubSwitch % 16) (nUniverse % 16) ∧
    MakePortAddress nNetSwitch nSubSwitch nUniverse < 32768 ∧
    (nNetSwitch < 128 → nSubSwitch < 16 → nUniverse < 16 →
      MakePortAddress nNetSwitch nSubSwitch nUniverse
        = portAddressFormula nNetSwitch nSubSwitch nUniverse) := by
  obtain ⟨he, hb⟩ := MakePortAddress_eq nNetSwitch nSubSwitch nUniverse
  refine ⟨he, hb, fun h1 h2 h3 => ?_⟩
  rw [he, Nat.mod_eq_of_lt h1, Nat.mod_eq_of_lt h2, Nat.mod_eq_of_lt h3]

/-- Witness of C15 (amended): Net 1, Sub-Net 2, Universe 3 give the Port-Address 0x0123. -/
theorem C15_make_port_address_masks_its_fields_witness :
    MakePortAddress 1 2 3 = 0x0123 ∧ MakePortAddress 1 2 3 = portAddressFormula 1 2 3 :=
  ⟨by decide,
    (C15_make_port_address_masks_its_fields 1 2 3).2.2 (by decide) (by decide) (by decide)⟩

end ArtNetPollTable

end RpiDmx512

/-! ## The universe registry: order of the entries (C12) -/

namespace RpiDmx512

namespace ArtNetPollTable

theorem scanUniverse_spec (tu : List TArtNetPollTableUniverses) (u : Nat) :
    ∀ (k i r : Nat), scanUniverse tu u k i = .ok r →
      i ≤ r ∧ r ≤ i + k ∧
      (∀ j, i ≤ j → j < r → ∃ e, tu[j]? = some e ∧ e.nUniverse ≠ u) ∧
      (r < i + k → ∃ e, tu[r]? = some e ∧ e.nUniverse = u) := by
  intro k
  induction k with
  | zero =>
    intro i r h
    simp only [scanUniverse, Except.ok.injEq] at h
    subst h
    exact ⟨le_refl _, le_refl _, fun j h1 h2 => by omega, fun h => by omega⟩
  | succ k ih =>
    intro i r h
    unfold scanUniverse at h
    cases hr : readAt Fault.tableUniverses tu i with
    | error e => simp [hr] at h
    | ok e =>
      simp only [hr] at h
      rw [readAt_eq_ok] at hr
      by_cases hu : e.nUniverse = u
      · rw [if_pos hu] at h
        simp only [Except.ok.injEq] at h
        subst h
        exact ⟨le_refl _, by omega, fun j h1 h2 => by omega, fun _ => ⟨e, hr, hu⟩⟩
      · rw [if_neg hu] at h
        obtain ⟨h1, h2, h3, h4⟩ := ih (i + 1) r h
        refine ⟨by omega, by omega, fun j hj1 hj2 => ?_, fun hlt => h4 (by omega)⟩
        by_cases hji : j = i
        · subst hji; exact ⟨e, hr, hu⟩
        · exact h3 j (by omega) hj2

theorem getElem?_take_map {α β : Type} (xs : List α) (f : α → β) (n j : Nat) :
    ((xs.take n).map f)[j]? = if j < n then (xs[j]?).map f else none := by
  rw [List.getElem?_map, List.getElem?_take]
  by_cases h : j < n
  · rw [if_pos h, if_pos h]
  · rw [if_neg h, if_neg h]; rfl

theorem registeredUniverses_getElem? (t : ArtNetPollTable) (j : Nat) :
    (registeredUniverses t)[j]? =
      if j < t.m_nTableUniversesEntries then
        (t.m_pTableUniverses[j]?).map (fun p => p.nUniverse)
      else none :=
  getElem?_take_map _ _ _ _

theorem registeredUniverses_length (t : ArtNetPollTable)
    (hle : t.m_nTableUniversesEntries ≤ t.m_pTableUniverses.length) :
    (registeredUniverses t).length = t.m_nTableUniversesEntries := by
  simp [registeredUniverses, hle]

theorem mem_registeredUniverses (t : ArtNetPollTable) (u : Nat) :
    u ∈ registeredUniverses t ↔
      ∃ j e, j < t.m_nTableUniversesEntries ∧ t.m_pTableUniverses[j]? = some e ∧
        e.nUniverse = u := by
  rw [List.mem_iff_getElem?]
  constructor
  · rintro ⟨j, hj⟩
    rw [registeredUniverses_getElem?] at hj
    by_cases hlt : j < t.m_nTableUniversesEntries
    · rw [if_pos hlt] at hj
      cases he : t.m_pTableUniverses[j]? with
      | none => rw [he] at hj; exact Option.noConfusion hj
      | some e =>
        rw [he] at hj
        exact ⟨j, e, hlt, he, Option.some.inj hj⟩
    · rw [if_neg hlt] at hj; exact Option.noConfusion hj
  · rintro ⟨j, e, hlt, he, hu⟩
    refine ⟨j, ?_⟩
    rw [registeredUniverses_getElem?, if_pos hlt, he, ← hu]
    rfl

/-- `ProcessUniverse` leaves the registered universes as they are when the universe is among
them and appends it after them otherwise. -/
theorem ProcessUniverse_registeredUniverses (t t' : ArtNetPollTable) (ip u : Nat)
    (hle : t.m_nTableUniversesEntries ≤ t.m_pTableUniverses.length)
    (h : ProcessUniverse t ip u = .ok t') :
    registeredUniverses t' =
      if u ∈ registeredUniverses t then registeredUniverses t
      else registeredUniverses t ++ [u] := by
  unfold ProcessUniverse at h
  simp only [bind_eq_ok, pure_eq_ok] at h
  obtain ⟨nEntry, hscan, h⟩ := h
  obtain ⟨_, hr2, hne, hfound⟩ := scanUniverse_spec _ _ _ _ _ hscan
  simp only [Nat.zero_add] at hr2 hfound
  by_cases hf : nEntry < t.m_nTableUniversesEntries
  · obtain ⟨e0, he0, hu0⟩ := hfound hf
    have hmem : u ∈ registeredUniverses t :=
      (mem_registeredUniverses t u).mpr ⟨nEntry, e0, hf, he0, hu0⟩
    rw [if_pos hmem]
    simp only [hf, decide_True, if_true, bind_eq_ok, pure_eq_ok] at h
    obtain ⟨e, he, p32, _, nCount, _, h⟩ := h
    split at h
    · simp only [Except.ok.injEq] at h
      rw [← h]
    · simp only [bind_eq_ok, pure_eq_ok, Except.ok.injEq] at h
      obtain ⟨_, _, _, _, tu, htu, h⟩ := h
      obtain ⟨hlt, htu⟩ := writeAt_eq_ok.mp htu
      rw [readAt_eq_ok] at he
      apply List.ext_getElem?
      intro j
      rw [registeredUniverses_getElem?, registeredUniverses_getElem?, ← h]
      simp only
      by_cases hj : j < t.m_nTableUniversesEntries
      · rw [if_pos hj, if_pos hj, htu]
        by_cases hjn : nEntry = j
        · subst hjn
          rw [List.getElem?_set_self hlt, he]
          rfl
        · rw [List.getElem?_set_ne hjn]
      · rw [if_neg hj, if_neg hj]
  · have hn : nEntry = t.m_nTableUniversesEntries := by omega
    have hmem : u ∉ registeredUniverses t := by
      intro hm
      obtain ⟨j, e, hj, he, hu⟩ := (mem_registeredUniverses t u).mp hm
      obtain ⟨e', he', hu'⟩ := hne j (Nat.zero_le _) (by omega)
      rw [he] at he'
      exact hu' (by rw [← Option.some.inj he']; exact hu)
    rw [if_neg hmem]
    simp only [hf, decide_False, Bool.false_eq_true, if_false, bind_eq_ok, pure_eq_ok,
      Except.ok.injEq] at h
    obtain ⟨e, he, _, _, _, _, _, _, tu, htu, h⟩ := h
    obtain ⟨hlt, htu⟩ := writeAt_eq_ok.mp htu
    rw [readAt_eq_ok] at he
    apply List.ext_getElem?
    intro j
    rw [registeredUniverses_getElem?, ← h]
    simp only
    rw [List.getElem?_append, registeredUniverses_length t hle, registeredUniverses_getElem?, htu,
      hn]
    by_cases hj : j < t.m_nTableUniversesEntries
    · rw [if_pos hj, if_pos (by omega), if_pos hj, List.getElem?_set_ne (by omega)]
    · rw [if_neg hj]
      by_cases hj2 : j = t.m_nTableUniversesEntries
      · subst hj2
        rw [if_pos (by omega), List.getElem?_set_self (by omega)]
        simp
      · rw [if_neg (by omega)]
        have : j - t.m_nTableUniversesEntries ≠ 0 := by omega
        cases hd : j - t.m_nTableUniversesEntries with
        | zero => exact absurd hd this
        | succ d => rfl

end ArtNetPollTable

end RpiDmx512

namespace RpiDmx512

namespace ArtNetPollTable

/-- `RemoveIpAddress(u, ip)` leaves the registered universes as they are or deletes one of
them, at an index where the list holds `u`, keeping the order of the others. -/
theorem RemoveIpAddress_registeredUniverses (t t' : ArtNetPollTable) (u ip : Nat)
    (h : RemoveIpAddress t u ip = .ok t') :
    registeredUniverses t' = registeredUniverses t ∨
    ∃ k, (registeredUniverses t)[k]? = some u ∧
      registeredUniverses t' = (registeredUniverses t).eraseIdx k := by
  unfold RemoveIpAddress at h
  by_cases hz : t.m_nTableUniversesEntries = 0
  · rw [if_pos hz] at h
    simp only [Except.ok.injEq] at h
    left; rw [h]
  · rw [if_neg hz] at h
    simp only [bind_eq_ok, pure_eq_ok] at h
    obtain ⟨nEntry, hscan, h⟩ := h
    obtain ⟨_, hr2, _, hfound⟩ := scanUniverse_spec _ _ _ _ _ hscan
    simp only [Nat.zero_add] at hr2 hfound
    by_cases hn : nEntry = t.m_nTableUniversesEntries
    · rw [if_pos hn] at h
      simp only [Except.ok.injEq] at h
      left; rw [h]
    · rw [if_neg hn] at h
      have hat : (registeredUniverses t)[nEntry]? = some u := by
        obtain ⟨e0, he0, heu⟩ := hfound (by omega)
        rw [registeredUniverses_getElem?, if_pos (by omega), he0]
        simp only [Option.map_some', heu]
      simp only [bind_eq_ok, pure_eq_ok] at h
      obtain ⟨e, he, _, _, _, _, _, _, _, _, ips, _, tu, htu, h⟩ := h
      obtain ⟨hlt, htu⟩ := writeAt_eq_ok.mp htu
      rw [readAt_eq_ok] at he
      have htu_get : ∀ j : Nat, (tu[j]?).map (fun p : TArtNetPollTableUniverses => p.nUniverse)
          = (t.m_pTableUniverses[j]?).map (fun p : TArtNetPollTableUniverses => p.nUniverse) := by
        intro j
        rw [htu]
        by_cases hj : nEntry = j
        · subst hj
          rw [List.getElem?_set_self hlt, he]
          rfl
        · rw [List.getElem?_set_ne hj]
      by_cases hc : e.nCount - 1 = 0
      · rw [if_pos hc] at h
        simp only [bind_eq_ok, pure_eq_ok, Except.ok.injEq] at h
        obtain ⟨⟨p, i⟩, hmove, last, _, p2, hp2, h⟩ := h
        simp only at hp2
        obtain ⟨hi, hlen, hget⟩ := moveLeft_spec _ _ _ _ _ _ hmove
        obtain ⟨_, hp2⟩ := writeAt_eq_ok.mp hp2
        right
        refine ⟨nEntry, hat, ?_⟩
        apply List.ext_getElem?
        intro j
        rw [List.getElem?_eraseIdx, registeredUniverses_getElem?, registeredUniverses_getElem?,
          registeredUniverses_getElem?, ← h]
        simp only
        by_cases hj : j < t.m_nTableUniversesEntries - 1
        · rw [if_pos hj, hp2, List.getElem?_set_ne (by omega), hget j]
          by_cases hjn : j < nEntry
          · rw [if_pos hjn, if_neg (by omega), if_pos (by omega), htu_get]
          · rw [if_neg hjn, if_pos (by omega), if_pos (by omega), htu_get]
        · rw [if_neg hj]
          by_cases hjn : j < nEntry
          · omega
          · rw [if_neg hjn, if_neg (by omega)]
      · rw [if_neg hc] at h
        simp only [Except.ok.injEq] at h
        left
        apply List.ext_getElem?
        intro j
        rw [registeredUniverses_getElem?, registeredUniverses_getElem?, ← h]
        simp only
        rw [htu_get]

theorem pairwise_eraseIdx_lt (l : List Nat) (k : Nat)
    (h : List.Pairwise (fun a b => a < b) l) :
    List.Pairwise (fun a b => a < b) (l.eraseIdx k) :=
  List.Pairwise.sublist (List.eraseIdx_sublist l k) h

/-- C12, counterexample to the claim as stated.  After `ProcessUniverse(10.0.0.1, 5)` and
`ProcessUniverse(10.0.0.1, 3)` the registered universes are 5, 3 in this order, which is not
ascending. -/
theorem C12_counterexample_registry_not_sorted :
    (runRegistry (init smallConstants)
        [RegistryOp.processUniverse (ipv4 10 0 0 1) 5,
          RegistryOp.processUniverse (ipv4 10 0 0 1) 3]).map registeredUniverses = .ok [5, 3] ∧
    ¬ List.Pairwise (fun a b => a ≤ b) [5, 3] := by decide

/-- C12, amended.  The registry is kept in order of registration, not sorted: `ProcessUniverse`
leaves the list of registered universes as it is when the universe is registered and appends
the universe at its end otherwise; `RemoveIpAddress(u, ip)` leaves the list as it is or deletes
exactly one entry, an entry of `u` (the list gets one shorter and the other entries keep their
order), and it leaves the list as it is when `u` is not registered; so it keeps an ascending
registry ascending. -/
theorem C12_registry_in_registration_order (t t' : ArtNetPollTable)
    (hle : t.m_nTableUniversesEntries ≤ t.m_pTableUniverses.length) :
    (∀ ip u, ProcessUniverse t ip u = .ok t' →
      registeredUniverses t' =
        if u ∈ registeredUniverses t then registeredUniverses t
        else registeredUniverses t ++ [u]) ∧
    (∀ u ip, RemoveIpAddress t u ip = .ok t' →
      (registeredUniverses t' = registeredUniverses t ∨
        ∃ k, (registeredUniverses t)[k]? = some u ∧
          registeredUniverses t' = (registeredUniverses t).eraseIdx k ∧
          (registeredUniverses t').length + 1 = (registeredUniverses t).length) ∧
      (u ∉ registeredUniverses t → registeredUniverses t' = registeredUniverses t) ∧
      (List.Pairwise (fun a b => a < b) (registeredUniverses t) →
        List.Pairwise (fun a b => a < b) (registeredUniverses t'))) := by
  refine ⟨fun ip u h => ProcessUniverse_registeredUniverses t t' ip u hle h, fun u ip h => ?_⟩
  rcases RemoveIpAddress_registeredUniverses t t' u ip h with h1 | ⟨k, hk, h1⟩
  · rw [h1]
    exact ⟨Or.inl rfl, fun _ => rfl, fun hp => hp⟩
  · have hlt : k < (registeredUniverses t).length := (List.getElem?_eq_some.mp hk).1
    refine ⟨Or.inr ⟨k, hk, h1, ?_⟩, fun hu => ?_, fun hp => ?_⟩
    · rw [h1, List.length_eraseIdx, if_pos hlt]
      omega
    · exact absurd (List.getElem?_mem hk) hu
    · rw [h1]
      exact pairwise_eraseIdx_lt _ _ hp

end ArtNetPollTable

end RpiDmx512

namespace RpiDmx512

namespace ArtNetPollTable

set_option maxRecDepth 100000 in
/-- Witness of C12 (amended): universe 5 is appended to the empty registry, and removing its
only IP deletes its entry again. -/
theorem C12_registry_in_registration_order_witness :
    (ProcessUniverse (init smallConstants) (ipv4 10 0 0 1) 5 = .ok registered5 ∧
      registeredUniverses registered5 = [5]) ∧
    (RemoveIpAddress registered5 5 (ipv4 10 0 0 1) = .ok removed5 ∧
      registeredUniverses removed5 = [] ∧
      (registeredUniverses removed5 = registeredUniverses registered5 ∨
        ∃ k, (registeredUniverses registered5)[k]? = some 5 ∧
          registeredUniverses removed5 = (registeredUniverses registered5).eraseIdx k ∧
          (registeredUniverses removed5).length + 1
            = (registeredUniverses registered5).length)) :=
  ⟨⟨by decide,
      ((C12_registry_in_registration_order (init smallConstants) registered5 (by decide)).1
        (ipv4 10 0 0 1) 5 (by decide)).trans (by decide)⟩,
    ⟨by decide, by decide,
      ((C12_registry_in_registration_order registered5 removed5 (by decide)).2
        5 (ipv4 10 0 0 1) (by decide)).1⟩⟩

end ArtNetPollTable

end RpiDmx512

/-! ## `Add` refreshes the timestamps of the announced universes (C14) -/

namespace RpiDmx512

namespace ArtNetPollTable

theorem scanNodeUniverse_spec (us : List TArtNetNodeEntryUniverse) (nUniverse : Nat) :
    ∀ (k i r : Nat), scanNodeUniverse us nUniverse k i = .ok r →
      i ≤ r ∧ r ≤ i + k ∧
      (∀ j, i ≤ j → j < r → ∃ u, us[j]? = some u ∧ u.nUniverse ≠ nUniverse) ∧
      (r < i + k → ∃ u, us[r]? = some u ∧ u.nUniverse = nUniverse) := by
  intro k
  induction k with
  | zero =>
    intro i r h
    simp only [scanNodeUniverse, Except.ok.injEq] at h
    subst h
    exact ⟨le_refl _, le_refl _, fun j h1 h2 => by omega, fun h => by omega⟩
  | succ k ih =>
    intro i r h
    unfold scanNodeUniverse at h
    cases hr : readAt Fault.nodeUniverse us i with
    | error e => simp [hr] at h
    | ok e =>
      simp only [hr] at h
      rw [readAt_eq_ok] at hr
      by_cases hu : e.nUniverse = nUniverse
      · rw [if_pos hu] at h
        simp only [Except.ok.injEq] at h
        subst h
        exact ⟨le_refl _, by omega, fun j h1 h2 => by omega, fun _ => ⟨e, hr, hu⟩⟩
      · rw [if_neg hu] at h
        obtain ⟨h1, h2, h3, h4⟩ := ih (i + 1) r h
        refine ⟨by omega, by omega, fun j hj1 hj2 => ?_, fun hlt => h4 (by omega)⟩
        by_cases hji : j = i
        · subst hji; exact ⟨e, hr, hu⟩
        · exact h3 j (by omega) hj2

theorem NodeEvolves_refl (cap nMillis : Nat) (e : TArtNetNodeEntry) :
    NodeEvolves cap nMillis e e :=
  ⟨le_refl _, fun _ _ => rfl, fun _ h => h, fun _ => rfl⟩

theorem NodeEvolves_trans {cap nMillis : Nat} {e1 e2 e3 : TArtNetNodeEntry}
    (h1 : NodeEvolves cap nMillis e1 e2) (h2 : NodeEvolves cap nMillis e2 e3) :
    NodeEvolves cap nMillis e1 e3 := by
  obtain ⟨a1, a2, a3, a4⟩ := h1
  obtain ⟨b1, b2, b3, b4⟩ := h2
  refine ⟨le_trans a1 b1, fun k hk => ?_, fun k hk => b3 k (a3 k hk), fun hc => ?_⟩
  · rw [b2 k (by omega), a2 k hk]
  · have := a4 hc
    rw [b4 (by omega), this]

/-- The slot in which an entry records a universe does not move while the entry evolves. -/
theorem RecordedAt_of_evolves {cap nMillis : Nat} {e1 e2 : TArtNetNodeEntry} {u k : Nat}
    (h : NodeEvolves cap nMillis e1 e2) (hr : RecordedAt e2 u k) (hk : k < e1.nUniversesCount) :
    RecordedAt e1 u k := by
  obtain ⟨_, a2, _, _⟩ := h
  obtain ⟨_, r2, r3⟩ := hr
  refine ⟨hk, by rw [← a2 k hk]; exact r2, fun k' hk' => ?_⟩
  rw [← a2 k' (by omega)]
  exact r3 k' hk'

theorem RecordedAt_lt_of_evolves {cap nMillis : Nat} {e1 e2 : TArtNetNodeEntry} {u k1 k2 : Nat}
    (h : NodeEvolves cap nMillis e1 e2) (h1 : RecordedAt e1 u k1) (h2 : RecordedAt e2 u k2) :
    k2 < e1.nUniversesCount := by
  obtain ⟨_, a2, _, _⟩ := h
  obtain ⟨r1, r2, _⟩ := h1
  obtain ⟨_, _, s3⟩ := h2
  by_contra hcon
  exact s3 k1 (by omega) (by rw [a2 k1 r1]; exact r2)

theorem setLastUpdateMillis_entry (t t' : ArtNetPollTable) (i k nMillis : Nat)
    (h : setLastUpdateMillis t i k nMillis = .ok t') :
    ∃ e u, t.m_pPollTable[i]? = some e ∧ e.Universe[k]? = some u ∧
      t'.m_pPollTable[i]? = some
        { e with Universe := e.Universe.set k { u with nLastUpdateMillis := nMillis } } := by
  unfold setLastUpdateMillis at h
  simp only [bind_eq_ok, pure_eq_ok, Except.ok.injEq] at h
  obtain ⟨e, he, u, hu, us, hus, p, hp, h⟩ := h
  subst h
  obtain ⟨hlt, hp⟩ := writeAt_eq_ok.mp hp
  obtain ⟨_, hus⟩ := writeAt_eq_ok.mp hus
  rw [readAt_eq_ok] at he hu
  refine ⟨e, u, he, hu, ?_⟩
  simp only
  rw [hp, List.getElem?_set_self hlt, hus]

/-- Stamping slot `k` of an entry with `nMillis`. -/
theorem stamp_evolves (cap nMillis : Nat) (e : TArtNetNodeEntry) (k : Nat)
    (u : TArtNetNodeEntryUniverse) (hu : e.Universe[k]? = some u) :
    NodeEvolves cap nMillis e
        { e with Universe := e.Universe.set k { u with nLastUpdateMillis := nMillis } } ∧
      lastUpdateAt
        { e with Universe := e.Universe.set k { u with nLastUpdateMillis := nMillis } } k
          = some nMillis ∧
      ∀ j, universeNumberAt
          { e with Universe := e.Universe.set k { u with nLastUpdateMillis := nMillis } } j
            = universeNumberAt e j := by
  have hlt : k < e.Universe.length := (List.getElem?_eq_some.mp hu).1
  have hnum : ∀ j, universeNumberAt
      { e with Universe := e.Universe.set k { u with nLastUpdateMillis := nMillis } } j
        = universeNumberAt e j := by
    intro j
    unfold universeNumberAt
    simp only
    by_cases hj : k = j
    · subst hj
      rw [List.getElem?_set_self hlt, hu]
      rfl
    · rw [List.getElem?_set_ne hj]
  refine ⟨⟨le_refl _, fun j _ => hnum j, fun j hj => ?_, fun _ => rfl⟩, ?_, hnum⟩
  · unfold lastUpdateAt at hj ⊢
    simp only
    by_cases hjk : k = j
    · subst hjk
      rw [List.getElem?_set_self hlt]
      rfl
    · rw [List.getElem?_set_ne hjk]
      exact hj
  · unfold lastUpdateAt
    simp only
    rw [List.getElem?_set_self hlt]
    rfl

end ArtNetPollTable

end RpiDmx512

namespace RpiDmx512

namespace ArtNetPollTable

/-- What one round of the port loop of `Add` does to the entry of the node. -/
theorem addPort_entry (c : Constants) (r : TArtPollReply) (nMillis i : Nat)
    (t t' : ArtNetPollTable) (nIndex : Nat) (e : TArtNetNodeEntry)
    (h : addPort c r nMillis i t nIndex = .ok t') (he : t.m_pPollTable[i]? = some e) :
    ∃ e', t'.m_pPollTable[i]? = some e' ∧
      NodeEvolves c.ARTNET_POLL_TABLE_SIZE_NODE_UNIVERSES nMillis e e' ∧
      (r.PortTypes.getD nIndex 0 = c.ARTNET_ENABLE_OUTPUT →
        (∀ k, RecordedAt e' (portUniverse r nIndex) k → lastUpdateAt e' k = some nMillis) ∧
        ((∃ k, RecordedAt e' (portUniverse r nIndex) k) ∨
          c.ARTNET_POLL_TABLE_SIZE_NODE_UNIVERSES ≤ e'.nUniversesCount)) := by
  unfold addPort at h
  simp only [bind_eq_ok, pure_eq_ok] at h
  by_cases hen : r.PortTypes.getD nIndex 0 = c.ARTNET_ENABLE_OUTPUT
  · rw [if_pos hen] at h
    simp only [bind_eq_ok, pure_eq_ok] at h
    obtain ⟨e0, he0, idx, hscan, h⟩ := h
    rw [readAt_eq_ok, he] at he0
    have he0 := Option.some.inj he0
    subst he0
    obtain ⟨_, hr2, hne, hfound⟩ := scanNodeUniverse_spec _ _ _ _ _ hscan
    simp only [Nat.zero_add] at hr2 hfound
    have hU : MakePortAddress r.NetSwitch r.SubSwitch (r.SwOut.getD nIndex 0)
        = portUniverse r nIndex := rfl
    rw [hU] at hne hfound h
    by_cases hidx : idx = e.nUniversesCount
    · rw [if_pos hidx] at h
      have hnone : ∀ k, k < e.nUniversesCount →
          universeNumberAt e k ≠ some (portUniverse r nIndex) := by
        intro k hk hcon
        obtain ⟨u, hu, hne'⟩ := hne k (Nat.zero_le _) (by omega)
        unfold universeNumberAt at hcon
        rw [hu] at hcon
        exact hne' (Option.some.inj hcon)
      by_cases hroom : e.nUniversesCount < c.ARTNET_POLL_TABLE_SIZE_NODE_UNIVERSES
      · rw [if_pos hroom] at h
        simp only [bind_eq_ok, pure_eq_ok] at h
        obtain ⟨u, hu, us, hus, p, hp, t1, ht1, h⟩ := h
        obtain ⟨hlt, hp⟩ := writeAt_eq_ok.mp hp
        obtain ⟨hltu, hus⟩ := writeAt_eq_ok.mp hus
        rw [readAt_eq_ok] at hu
        obtain ⟨h1, _, _⟩ := ProcessUniverse_nodes _ _ _ _ ht1
        obtain ⟨e1, u1, he1, hu1, he'⟩ := setLastUpdateMillis_entry _ _ _ _ _ h
        rw [h1] at he1
        simp only at he1
        rw [hp, List.getElem?_set_self hlt] at he1
        have he1 := (Option.some.inj he1).symm
        subst he1
        simp only at hu1 he'
        rw [hus, List.getElem?_set_self hltu] at hu1
        have hu1 := (Option.some.inj hu1).symm
        subst hu1
        subst hidx
        refine ⟨_, he', ?_, fun _ => ?_⟩
        · refine ⟨by simp, fun k hk => ?_, fun k hk => ?_, fun hc => by omega⟩
          · unfold universeNumberAt
            simp only
            rw [hus, List.getElem?_set_ne (by omega), List.getElem?_set_ne (by omega)]
          · unfold lastUpdateAt at hk ⊢
            simp only
            by_cases hkc : e.nUniversesCount = k
            · subst hkc
              rw [List.getElem?_set_self (by rw [hus]; simpa using hltu)]
              rfl
            · rw [List.getElem?_set_ne hkc, hus, List.getElem?_set_ne hkc]
              exact hk
        · have hat : universeNumberAt
              { IPAddress := e.IPAddress, nUniversesCount := e.nUniversesCount + 1,
                Universe := us.set e.nUniversesCount
                  { nUniverse := portUniverse r nIndex, nLastUpdateMillis := nMillis } }
              e.nUniversesCount = some (portUniverse r nIndex) := by
            unfold universeNumberAt
            simp only
            rw [List.getElem?_set_self (by rw [hus]; simpa using hltu)]
            rfl
          have hbelow : ∀ k, k < e.nUniversesCount → universeNumberAt
              { IPAddress := e.IPAddress, nUniversesCount := e.nUniversesCount + 1,
                Universe := us.set e.nUniversesCount
                  { nUniverse := portUniverse r nIndex, nLastUpdateMillis := nMillis } }
              k ≠ some (portUniverse r nIndex) := by
            intro k hk
            have : universeNumberAt
              { IPAddress := e.IPAddress, nUniversesCount := e.nUniversesCount + 1,
                Universe := us.set e.nUniversesCount
                  { nUniverse := portUniverse r nIndex, nLastUpdateMillis := nMillis } }
              k = universeNumberAt e k := by
              unfold universeNumberAt
              simp only
              rw [List.getElem?_set_ne (by omega), hus, List.getElem?_set_ne (by omega)]
            rw [this]
            exact hnone k hk
          have hrec : RecordedAt
              { IPAddress := e.IPAddress, nUniversesCount := e.nUniversesCount + 1,
                Universe := us.set e.nUniversesCount
                  { nUniverse := portUniverse r nIndex, nLastUpdateMillis := nMillis } }
              (portUniverse r nIndex) e.nUniversesCount :=
            ⟨by simp, hat, hbelow⟩
          refine ⟨fun k hk => ?_, Or.inl ⟨_, hrec⟩⟩
          have hkeq : k = e.nUniversesCount := by
            rcases Nat.lt_trichotomy k e.nUniversesCount with hlt' | heq | hgt
            · exact absurd hk.2.1 (hbelow k hlt')
            · exact heq
            · exact absurd hat (hk.2.2 _ hgt)
          subst hkeq
          unfold lastUpdateAt
          simp only
          rw [List.getElem?_set_self (by rw [hus]; simpa using hltu)]
          rfl
      · rw [if_neg hroom] at h
        simp only [Except.ok.injEq] at h
        subst h
        refine ⟨e, he, NodeEvolves_refl _ _ _, fun _ => ⟨fun k hk => ?_, Or.inr (by omega)⟩⟩
        exact absurd hk.2.1 (hnone k hk.1)
    · rw [if_neg hidx] at h
      obtain ⟨u0, hu0, hu0U⟩ := hfound (by omega)
      obtain ⟨e1, u1, he1, hu1, he'⟩ := setLastUpdateMillis_entry _ _ _ _ _ h
      rw [he] at he1
      have he1 := Option.some.inj he1
      subst he1
      obtain ⟨hev, hlast, hnum⟩ := stamp_evolves c.ARTNET_POLL_TABLE_SIZE_NODE_UNIVERSES
        nMillis e idx u1 hu1
      have hat : universeNumberAt e idx = some (portUniverse r nIndex) := by
        unfold universeNumberAt
        rw [hu0, ← hu0U]
        rfl
      have hbelow : ∀ k, k < idx → universeNumberAt e k ≠ some (portUniverse r nIndex) := by
        intro k hk hcon
        obtain ⟨u, hu, hne'⟩ := hne k (Nat.zero_le _) hk
        unfold universeNumberAt at hcon
        rw [hu] at hcon
        exact hne' (Option.some.inj hcon)
      refine ⟨_, he', hev, fun _ => ⟨fun k hk => ?_, Or.inl ⟨idx, ?_⟩⟩⟩
      · have hkeq : k = idx := by
          rcases Nat.lt_trichotomy k idx with hlt' | heq | hgt
          · exact absurd (by rw [← hnum k]; exact hk.2.1) (hbelow k hlt')
          · exact heq
          · exact absurd (by rw [hnum idx]; exact hat) (hk.2.2 _ hgt)
        subst hkeq
        exact hlast
      · exact ⟨by simp only; omega, by rw [hnum idx]; exact hat,
          fun k hk => by rw [hnum k]; exact hbelow k hk⟩
  · rw [if_neg hen] at h
    simp only [Except.ok.injEq] at h
    subst h
    exact ⟨e, he, NodeEvolves_refl _ _ _, fun hcon => absurd hcon hen⟩

end ArtNetPollTable

end RpiDmx512

namespace RpiDmx512

namespace ArtNetPollTable

theorem addPorts_entry (c : Constants) (r : TArtPollReply) (nMillis i : Nat) :
    ∀ (k nIndex : Nat) (t t' : ArtNetPollTable) (e : TArtNetNodeEntry),
      addPorts c r nMillis i k nIndex t = .ok t' → t.m_pPollTable[i]? = some e →
      ∃ e', t'.m_pPollTable[i]? = some e' ∧
        NodeEvolves c.ARTNET_POLL_TABLE_SIZE_NODE_UNIVERSES nMillis e e' ∧
        ∀ p, nIndex ≤ p → p < nIndex + k →
          r.PortTypes.getD p 0 = c.ARTNET_ENABLE_OUTPUT →
          ∀ kk, RecordedAt e' (portUniverse r p) kk → lastUpdateAt e' kk = some nMillis := by
  intro k
  induction k with
  | zero =>
    intro nIndex t t' e h he
    simp only [addPorts, Except.ok.injEq] at h
    subst h
    exact ⟨e, he, NodeEvolves_refl _ _ _, fun p h1 h2 => by omega⟩
  | succ k ih =>
    intro nIndex t t' e h he
    unfold addPorts at h
    cases hp : addPort c r nMillis i t nIndex with
    | error x => simp [hp] at h
    | ok t1 =>
      simp only [hp] at h
      obtain ⟨e1, he1, hev1, hprop1⟩ := addPort_entry c r nMillis i t t1 nIndex e hp he
      obtain ⟨e', he', hev', hprop'⟩ := ih (nIndex + 1) t1 t' e1 h he1
      refine ⟨e', he', NodeEvolves_trans hev1 hev', fun p hp1 hp2 hen kk hrec => ?_⟩
      by_cases hpn : p = nIndex
      · subst hpn
        obtain ⟨hA, hB⟩ := hprop1 hen
        have hkk : kk < e1.nUniversesCount := by
          rcases hB with ⟨k1, hk1⟩ | hcap
          · exact RecordedAt_lt_of_evolves hev' hk1 hrec
          · have := hev'.2.2.2 hcap
            have := hrec.1
            omega
        exact hev'.2.2.1 kk (hA kk (RecordedAt_of_evolves hev' hrec hkk))
      · exact hprop' p (by omega) (by omega) hen kk hrec

theorem scanNodeUniverse_none (us : List TArtNetNodeEntryUniverse) (nUniverse : Nat) :
    ∀ (k i : Nat),
      (∀ j, i ≤ j → j < i + k → ∃ u, us[j]? = some u ∧ u.nUniverse ≠ nUniverse) →
      scanNodeUniverse us nUniverse k i = .ok (i + k) := by
  intro k
  induction k with
  | zero => intro i _; rfl
  | succ k ih =>
    intro i h
    unfold scanNodeUniverse
    obtain ⟨u, hu, hne⟩ := h i (le_refl _) (by omega)
    rw [readAt_eq_ok.mpr hu]
    simp only
    rw [if_neg hne, ih (i + 1) (fun j h1 h2 => h j (by omega) (by omega))]
    congr 1
    omega

/-- A new universe beyond the per-node cap is dropped: the table is left as it is. -/
theorem addPort_no_room (c : Constants) (r : TArtPollReply) (nMillis i : Nat)
    (t : ArtNetPollTable) (nIndex : Nat) (e : TArtNetNodeEntry)
    (he : t.m_pPollTable[i]? = some e)
    (hcap : c.ARTNET_POLL_TABLE_SIZE_NODE_UNIVERSES ≤ e.nUniversesCount)
    (hlen : e.nUniversesCount ≤ e.Universe.length)
    (hnew : ∀ k, k < e.nUniversesCount → universeNumberAt e k ≠ some (portUniverse r nIndex)) :
    addPort c r nMillis i t nIndex = .ok t := by
  unfold addPort
  by_cases hen : r.PortTypes.getD nIndex 0 = c.ARTNET_ENABLE_OUTPUT
  · simp only [bind, Except.bind, pure, Except.pure]
    rw [if_pos hen, readAt_eq_ok.mpr he]
    simp only
    have hscan : scanNodeUniverse e.Universe
        (MakePortAddress r.NetSwitch r.SubSwitch (r.SwOut.getD nIndex 0)) e.nUniversesCount 0
          = .ok e.nUniversesCount := by
      have := scanNodeUniverse_none e.Universe (portUniverse r nIndex) e.nUniversesCount 0
        (fun j _ hj => by
          have hj' : j < e.Universe.length := by omega
          refine ⟨e.Universe[j], List.getElem?_eq_getElem hj', fun hcon => ?_⟩
          apply hnew j (by omega)
          unfold universeNumberAt
          rw [List.getElem?_eq_getElem hj', ← hcon]
          rfl)
      rw [Nat.zero_add] at this
      exact this
    rw [hscan]
    simp only
    rw [if_pos trivial, if_neg (by omega)]
  · simp only [bind, Except.bind, pure, Except.pure]
    rw [if_neg hen]

end ArtNetPollTable

end RpiDmx512

/-! ## `Clean` keeps the order of the node array -/

namespace RpiDmx512

namespace ArtNetPollTable

theorem RemoveIpAddress_nodes (t t' : ArtNetPollTable) (u ip : Nat)
    (h : RemoveIpAddress t u ip = .ok t') :
    t'.m_pPollTable = t.m_pPollTable ∧ t'.m_nPollTableEntries = t.m_nPollTableEntries ∧
    t'.m_tTableClean = t.m_tTableClean := by
  unfold RemoveIpAddress at h
  by_cases hz : t.m_nTableUniversesEntries = 0
  · rw [if_pos hz] at h
    simp only [Except.ok.injEq] at h
    subst h
    exact ⟨rfl, rfl, rfl⟩
  · rw [if_neg hz] at h
    simp only [bind_eq_ok, pure_eq_ok] at h
    obtain ⟨nEntry, _, h⟩ := h
    by_cases hn : nEntry = t.m_nTableUniversesEntries
    · rw [if_pos hn] at h
      simp only [Except.ok.injEq] at h
      subst h
      exact ⟨rfl, rfl, rfl⟩
    · rw [if_neg hn] at h
      simp only [bind_eq_ok, pure_eq_ok] at h
      obtain ⟨e, _, _, _, _, _, _, _, _, _, ips, _, tu, _, h⟩ := h
      by_cases hc : e.nCount - 1 = 0
      · rw [if_pos hc] at h
        simp only [bind_eq_ok, pure_eq_ok, Except.ok.injEq] at h
        obtain ⟨_, _, _, _, _, _, h⟩ := h
        subst h
        exact ⟨rfl, rfl, rfl⟩
      · rw [if_neg hc] at h
        simp only [Except.ok.injEq] at h
        subst h
        exact ⟨rfl, rfl, rfl⟩

theorem cleanSlot_nodes (c : Constants) (t t1 : ArtNetPollTable) (nMillis : Nat) (b : Bool)
    (h : cleanSlot c t nMillis = .ok (t1, b)) :
    SameNodesBut t.m_tTableClean.nTableIndex t t1 := by
  unfold cleanSlot at h
  simp only [bind_eq_ok, pure_eq_ok] at h
  obtain ⟨e, he, bind, _, h⟩ := h
  rw [readAt_eq_ok] at he
  by_cases hr : bind.nLastUpdateMillis ≠ 0
  · rw [if_pos hr] at h
    by_cases hs : isStale c nMillis bind.nLastUpdateMillis = true
    · rw [if_pos hs] at h
      simp only [bind_eq_ok, pure_eq_ok, Except.ok.injEq, Prod.mk.injEq] at h
      obtain ⟨us, _, p, hp, t2, ht2, h, _⟩ := h
      subst h
      obtain ⟨hlt, hp⟩ := writeAt_eq_ok.mp hp
      obtain ⟨h1, h2, h3⟩ := RemoveIpAddress_nodes _ _ _ _ ht2
      refine ⟨h2, h3, by rw [h1]; simp [hp], fun j hj => ?_, ?_⟩
      · rw [h1]; simp only
        rw [hp, List.getElem?_set_ne (Ne.symm hj)]
      · rw [h1]; simp only
        rw [hp, List.getElem?_set_self hlt, he]
        rfl
    · rw [if_neg hs] at h
      simp only [Except.ok.injEq, Prod.mk.injEq] at h
      rw [← h.1]
      exact SameNodesBut_refl _ _
  · rw [if_neg hr] at h
    simp only [Except.ok.injEq, Prod.mk.injEq] at h
    rw [← h.1]
    exact SameNodesBut_refl _ _

/-- Deleting position `idx` of `n` strictly ascending keys followed by zero slots, the later
keys moving one slot down and the vacated slot becoming zero, gives `n - 1` strictly ascending
keys followed by zero slots. -/
theorem remove_sorted (vals vals' : Nat → Nat) (n idx : Nat)
    (hsorted : ∀ i j, i < j → j < n → vals i < vals j)
    (h1 : ∀ j, j < n - 1 → vals' j = if idx ≤ j then vals (j + 1) else vals j)
    (h2 : ∀ j, n - 1 ≤ j → vals' j = 0) :
    (∀ i j, i < j → j < n - 1 → vals' i < vals' j) ∧ (∀ j, n - 1 ≤ j → vals' j = 0) := by
  refine ⟨fun i j hij hj => ?_, h2⟩
  rw [h1 i (by omega), h1 j hj]
  by_cases hi : idx ≤ i
  · rw [if_pos hi, if_pos (by omega)]
    exact hsorted _ _ (by omega) (by omega)
  · rw [if_neg hi]
    by_cases hj' : idx ≤ j
    · rw [if_pos hj']
      exact hsorted _ _ (by omega) (by omega)
    · rw [if_neg hj']
      exact hsorted _ _ hij (by omega)

theorem removeNode_inv (c : Constants) (t t' : ArtNetPollTable) (idx : Nat)
    (hinv : TableInv t) (h : removeNode c t idx = .ok t') : TableInv t' := by
  unfold removeNode at h
  simp only [bind_eq_ok, pure_eq_ok, Except.ok.injEq] at h
  obtain ⟨⟨p, i'⟩, hmove, p2, hp2, h⟩ := h
  simp only at hp2
  obtain ⟨_, hlen, hget⟩ := moveLeft_spec _ _ _ _ _ _ hmove
  obtain ⟨hlt2, hp2⟩ := writeAt_eq_ok.mp hp2
  obtain ⟨hs, htr, hnl, h32⟩ := hinv
  have ht1 : t'.m_pPollTable = p2 := by rw [← h]
  have ht2 : t'.m_nPollTableEntries = t.m_nPollTableEntries - 1 := by rw [← h]
  have hkey : ∀ j, ipKeyAt t' j =
      if j = t.m_nPollTableEntries - 1 then 0
      else if idx ≤ j ∧ j < idx + (t.m_nPollTableEntries - 1 - idx) then ipKeyAt t (j + 1)
      else ipKeyAt t j := by
    intro j
    unfold ipKeyAt
    rw [ht1, hp2]
    by_cases hj : t.m_nPollTableEntries - 1 = j
    · subst hj
      rw [if_pos rfl, List.getElem?_set_self hlt2]
      simp [zeroEntry, bswap32]
    · rw [if_neg (Ne.symm hj), List.getElem?_set_ne hj, hget j]
      by_cases hr : idx ≤ j ∧ j < idx + (t.m_nPollTableEntries - 1 - idx)
      · rw [if_pos hr, if_pos hr]
      · rw [if_neg hr, if_neg hr]
  have := remove_sorted (ipKeyAt t) (ipKeyAt t') t.m_nPollTableEntries idx hs
    (fun j hj => by
      rw [hkey j, if_neg (by omega)]
      by_cases hi : idx ≤ j
      · rw [if_pos ⟨hi, by omega⟩, if_pos hi]
      · rw [if_neg (by omega), if_neg hi])
    (fun j hj => by
      rw [hkey j]
      by_cases hj1 : j = t.m_nPollTableEntries - 1
      · rw [if_pos hj1]
      · rw [if_neg hj1, if_neg (by omega)]
        exact htr j (by omega))
  unfold TableInv
  rw [ht2, ht1]
  refine ⟨this.1, this.2, ?_, ?_⟩
  · rw [hp2]; simp only [List.length_set]; omega
  · rw [hp2]; simp only [List.length_set]; omega

theorem Clean_inv (c : Constants) (t t' : ArtNetPollTable) (nMillis : Nat)
    (hinv : TableInv t) (h : Clean c t nMillis = .ok t') : TableInv t' := by
  unfold Clean at h
  by_cases hz : t.m_nPollTableEntries = 0
  · rw [if_pos hz] at h
    simp only [Except.ok.injEq] at h
    rw [← h]; exact hinv
  · rw [if_neg hz] at h
    simp only [bind_eq_ok, pure_eq_ok] at h
    obtain ⟨⟨t1, b⟩, hslot, h⟩ := h
    have hinv1 : TableInv t1 := SameNodesBut_inv (cleanSlot_nodes c t t1 nMillis b hslot) hinv
    by_cases hu : t.m_tTableClean.nUniverseIndex + 1 = c.ARTNET_POLL_TABLE_SIZE_NODE_UNIVERSES
    · rw [if_pos hu] at h
      simp only at h
      by_cases hb : b = true
      · rw [if_pos hb] at h
        simp only [bind_eq_ok, pure_eq_ok, Except.ok.injEq] at h
        obtain ⟨t2, ht2, h⟩ := h
        rw [← h]
        exact removeNode_inv c t1 t2 _ hinv1 ht2
      · rw [if_neg hb] at h
        simp only [bind_eq_ok, pure_eq_ok, Except.ok.injEq] at h
        obtain ⟨t2, ht2, h⟩ := h
        rw [← h, ← ht2]
        exact hinv1
    · rw [if_neg hu] at h
      simp only [Except.ok.injEq] at h
      rw [← h]
      exact hinv1

theorem run_inv (c : Constants) (ops : List Op) :
    ∀ (t t' : ArtNetPollTable), TableInv t → run c t ops = .ok t' → TableInv t' := by
  induction ops with
  | nil =>
    intro t t' hinv h
    simp only [run, Except.ok.injEq] at h
    rw [← h]; exact hinv
  | cons op ops ih =>
    intro t t' hinv h
    cases op with
    | add r nMillis =>
      simp only [run] at h
      cases ha : Add c t r nMillis with
      | error e => simp [ha] at h
      | ok t1 =>
        simp only [ha] at h
        exact ih t1 t' (Add_inv c t t1 r nMillis hinv ha) h
    | clean nMillis =>
      simp only [run] at h
      cases ha : Clean c t nMillis with
      | error e => simp [ha] at h
      | ok t1 =>
        simp only [ha] at h
        exact ih t1 t' (Clean_inv c t t1 nMillis hinv ha) h

end ArtNetPollTable

end RpiDmx512

namespace RpiDmx512

namespace ArtNetPollTable

/-- In a table that satisfies the invariant, an IP address is at one index only. -/
theorem index_unique (t : ArtNetPollTable) (hinv : TableInv t) (i j : Nat)
    (hi : i < t.m_nPollTableEntries) (hj : j < t.m_nPollTableEntries)
    (h : ipKeyAt t i = ipKeyAt t j) : i = j := by
  rcases Nat.lt_trichotomy i j with hlt | heq | hgt
  · have := hinv.1 i j hlt hj
    omega
  · exact heq
  · have := hinv.1 j i hgt hi
    omega

/-- C14. Let `t` be a table reached by `Add` and `Clean` calls and let `Add(reply)` at clock
`nMillis` end in `t'`.  If the node of the reply is in the table afterwards, then for every
port of the reply whose type is `ARTNET_ENABLE_OUTPUT` and whose Port-Address the node records
(in slot `k`), the timestamp of that slot is `nMillis`.  And in any table, the round of the port
loop for an enabled port whose universe the node does not record, while the node already holds
`ARTNET_POLL_TABLE_SIZE_NODE_UNIVERSES` universes, leaves the whole table (node entries and
universe registry) as it is. -/
theorem C14_add_stamps_recorded_universes (c : Constants)
    (hc : c.ARTNET_POLL_TABLE_SIZE_ENRIES < 4294967295) (ops : List Op)
    (t t' : ArtNetPollTable) (r : TArtPollReply) (nMillis : Nat)
    (hreach : run c (init c) ops = .ok t) (h : Add c t r nMillis = .ok t') :
    (∀ j e', j < t'.m_nPollTableEntries → t'.m_pPollTable[j]? = some e' →
      e'.IPAddress = r.IPAddress →
      ∀ nIndex, nIndex < c.ARTNET_MAX_PORTS →
        r.PortTypes.getD nIndex 0 = c.ARTNET_ENABLE_OUTPUT →
        ∀ k, RecordedAt e' (portUniverse r nIndex) k → lastUpdateAt e' k = some nMillis) ∧
    (∀ (t0 : ArtNetPollTable) (i nIndex : Nat) (e : TArtNetNodeEntry),
      t0.m_pPollTable[i]? = some e →
      c.ARTNET_POLL_TABLE_SIZE_NODE_UNIVERSES ≤ e.nUniversesCount →
      e.nUniversesCount ≤ e.Universe.length →
      (∀ k, k < e.nUniversesCount → universeNumberAt e k ≠ some (portUniverse r nIndex)) →
      addPort c r nMillis i t0 nIndex = .ok t0) := by
  have hinv : TableInv t := run_inv c ops _ _ (init_inv c hc) hreach
  have hinv' : TableInv t' := Add_inv c t t' r nMillis hinv h
  refine ⟨?_, fun t0 i nIndex e he hcap hlen hnew =>
    addPort_no_room c r nMillis i t0 nIndex e he hcap hlen hnew⟩
  intro j e' hj he' hip nIndex hn hen k hrec
  have hkeyj : ipKeyAt t' j = bswap32 r.IPAddress := by
    rw [ipKeyAt_eq t' j e' he', hip]
  -- the index `i` the port loop worked on, and the entry it started from
  have hmain : ∃ t1 i e1, addPorts c r nMillis i c.ARTNET_MAX_PORTS 0 t1 = .ok t' ∧
      t1.m_pPollTable[i]? = some e1 ∧ i < t'.m_nPollTableEntries ∧
      ipKeyAt t' i = bswap32 r.IPAddress := by
    rcases Add_cases c t t' r nMillis hinv h with
      ⟨i, hkey, hidx, hp⟩ | ⟨_, ht, habs⟩ | ⟨_, t1, i, hins, hp⟩
    · have hsame := addPorts_nodes _ _ _ _ _ _ _ _ hp
      rcases hidx with hlt | ⟨hz, _, _⟩
      · have hlt' : i < t.m_pPollTable.length := lt_of_lt_of_le hlt hinv.2.2.1
        exact ⟨t, i, t.m_pPollTable[i], hp, List.getElem?_eq_getElem hlt',
          by rw [hsame.1]; exact hlt, by rw [SameNodesBut_ipKeyAt hsame i]; exact hkey⟩
      · rw [hsame.1, hz] at hj
        exact absurd hj (Nat.not_lt_zero j)
    · rw [ht] at hj hkeyj
      exact absurd hkeyj (habs j hj)
    · have hsame := addPorts_nodes _ _ _ _ _ _ _ _ hp
      obtain ⟨hk, hn1, _, _, _, hent, _⟩ := hins
      have hkey1 : ipKeyAt t1 i = bswap32 r.IPAddress := by
        rcases hent with h2 | ⟨e, _, _, h2⟩
        · rw [ipKeyAt_eq _ _ _ h2]
        · rw [ipKeyAt_eq _ _ _ h2]
      have hent1 : ∃ e1, t1.m_pPollTable[i]? = some e1 := by
        rcases hent with h2 | ⟨e, _, _, h2⟩
        · exact ⟨_, h2⟩
        · exact ⟨_, h2⟩
      obtain ⟨e1, he1⟩ := hent1
      exact ⟨t1, i, e1, hp, he1, by rw [hsame.1, hn1]; omega,
        by rw [SameNodesBut_ipKeyAt hsame i]; exact hkey1⟩
  obtain ⟨t1, i, e1, hp, he1, hi, hkeyi⟩ := hmain
  have hji : i = j := index_unique t' hinv' i j hi hj (by rw [hkeyi, hkeyj])
  subst hji
  obtain ⟨e2, he2, _, hprop⟩ := addPorts_entry c r nMillis i _ 0 t1 t' e1 hp he1
  rw [he'] at he2
  have he2 := Option.some.inj he2
  subst he2
  exact hprop nIndex (Nat.zero_le _) (by omega) hen k hrec

set_option maxRecDepth 100000 in
/-- Witness of C14: the reply of 10.0.0.1 with the enabled outputs 1 and 2 reaches the fresh
table at clock 100; the node records universe 1 in slot 0, stamped 100. -/
theorem C14_add_stamps_recorded_universes_witness :
    Add smallConstants (init smallConstants) (replyOf (ipv4 10 0 0 1) [1, 2]) 100
      = .ok oneNodeTable ∧
    oneNodeTable.m_pPollTable[0]? = some ⟨ipv4 10 0 0 1, 2, [⟨1, 100⟩, ⟨2, 100⟩]⟩ ∧
    lastUpdateAt ⟨ipv4 10 0 0 1, 2, [⟨1, 100⟩, ⟨2, 100⟩]⟩ 0 = some 100 :=
  ⟨by decide, by decide,
    (C14_add_stamps_recorded_universes smallConstants (by decide) [] (init smallConstants)
      oneNodeTable (replyOf (ipv4 10 0 0 1) [1, 2]) 100 rfl (by decide)).1
      0 ⟨ipv4 10 0 0 1, 2, [⟨1, 100⟩, ⟨2, 100⟩]⟩ (by decide) (by decide) rfl
      0 (by decide) (by decide) 0
      ⟨by decide, by decide, fun k' hk' => absurd hk' (Nat.not_lt_zero k')⟩⟩

end ArtNetPollTable

end RpiDmx512

/-! ## The sACN controller: `HandleSync` (C20) and the discovery timer (C19) -/

namespace RpiDmx512

namespace E131Controller

/-- C20. `HandleSync` sends nothing and leaves the controller as it is when the synchronization
universe is 0.  Otherwise it sends exactly one Synchronization packet, which carries the
current synchronization sequence number, and increments the counter by one modulo 256; a second
call then sends one more packet, and its sequence number is that of the first plus one modulo
256. -/
theorem C20_handle_sync (k : E131Constants) (s : E131Controller) :
    (s.SynchronizationPacket.nUniverseNumber = 0 → HandleSync k s = s) ∧
    (s.SynchronizationPacket.nUniverseNumber ≠ 0 →
      (HandleSync k s).sent = s.sent ++ [syncDatagram k s] ∧
      syncSequenceOf (syncDatagram k s) = some s.SynchronizationPacket.nSequenceNumber ∧
      (HandleSync k s).SynchronizationPacket.nSequenceNumber
        = (s.SynchronizationPacket.nSequenceNumber + 1) % 256 ∧
      (HandleSync k s).registry = s.registry ∧
      (HandleSync k (HandleSync k s)).sent
        = s.sent ++ [syncDatagram k s, syncDatagram k (HandleSync k s)] ∧
      syncSequenceOf (syncDatagram k (HandleSync k s))
        = some ((s.SynchronizationPacket.nSequenceNumber + 1) % 256)) := by
  constructor
  · intro h
    unfold HandleSync
    rw [if_neg (by simpa using h)]
  · intro h
    have h1 : HandleSync k s = SendTo { s with
        m_pE131SynchronizationPacket := { s.m_pE131SynchronizationPacket with
          FrameLayerSequenceNumber := s.SynchronizationPacket.nSequenceNumber }
        SynchronizationPacket := { s.SynchronizationPacket with
          nSequenceNumber := (s.SynchronizationPacket.nSequenceNumber + 1) % 256 } }
      (TE131Packet.synchronization { s.m_pE131SynchronizationPacket with
          FrameLayerSequenceNumber := s.SynchronizationPacket.nSequenceNumber })
      k.SYNCHRONIZATION_PACKET_SIZE s.SynchronizationPacket.nIpAddress k.E131_DEFAULT_PORT := by
      unfold HandleSync
      rw [if_pos h]
    have h2 : (HandleSync k s).SynchronizationPacket.nUniverseNumber ≠ 0 := by
      rw [h1]; exact h
    have h3 : (HandleSync k s).sent = s.sent ++ [syncDatagram k s] := by
      rw [h1]; rfl
    refine ⟨h3, rfl, by rw [h1]; rfl, by rw [h1]; rfl, ?_, by rw [h1]; rfl⟩
    have h4 : (HandleSync k (HandleSync k s)).sent
        = (HandleSync k s).sent ++ [syncDatagram k (HandleSync k s)] := by
      generalize HandleSync k s = s1 at h2
      unfold HandleSync
      rw [if_pos h2]
      rfl
    rw [h4, h3, List.append_assoc]
    rfl

set_option maxRecDepth 1000000 in
/-- Witness of C20: with synchronization universe 7 and the counter at 255, two calls send the
sequence numbers 255 and 0; the fresh controller (synchronization universe 0) stays as it
is. -/
theorem C20_handle_sync_witness :
    ((HandleSync sampleE131Constants (HandleSync sampleE131Constants sampleController)).sent.map
        syncSequenceOf = [some 255, some 0]) ∧
    (HandleSync sampleE131Constants sampleController).sent
      = sampleController.sent ++ [syncDatagram sampleE131Constants sampleController] ∧
    HandleSync sampleE131Constants initController = initController :=
  ⟨by decide,
    ((C20_handle_sync sampleE131Constants sampleController).2 (by decide)).1,
    (C20_handle_sync sampleE131Constants initController).1 (by decide)⟩

end E131Controller

end RpiDmx512

namespace RpiDmx512

namespace E131Controller

theorem fillListOfUniverses_spec (registry : List TSequenceNumbers) :
    ∀ (n i : Nat) (list : List Nat), i + n ≤ registry.length → i + n ≤ list.length →
      ∃ list', fillListOfUniverses registry n i list = .ok list' ∧
        list'.length = list.length ∧
        ∀ j : Nat, list'[j]? =
          if i ≤ j ∧ j < i + n then
            (registry[j]?).map (fun e : TSequenceNumbers => bswap16 e.nUniverse)
          else list[j]? := by
  intro n
  induction n with
  | zero =>
    intro i list _ _
    refine ⟨list, rfl, rfl, fun j => ?_⟩
    rw [if_neg (by omega)]
  | succ n ih =>
    intro i list h1 h2
    unfold fillListOfUniverses
    have hi1 : i < registry.length := by omega
    have hi2 : i < list.length := by omega
    rw [readAt_of_lt _ hi1]
    simp only
    rw [writeAt_of_lt _ _ hi2]
    simp only
    obtain ⟨list', hl, hlen, hget⟩ := ih (i + 1)
      (list.set i (bswap16 (registry.get ⟨i, hi1⟩).nUniverse)) (by omega) (by simp; omega)
    refine ⟨list', hl, by simpa using hlen, fun j => ?_⟩
    rw [hget j]
    by_cases hj : j = i
    · subst hj
      rw [if_neg (by omega), if_pos (by omega), List.getElem?_set_self hi2,
        List.getElem?_eq_getElem hi1]
      rfl
    · by_cases hr : i + 1 ≤ j ∧ j < i + 1 + n
      · rw [if_pos hr, if_pos (by omega)]
      · rw [if_neg hr, if_neg (by omega), List.getElem?_set_ne (by omega)]

/-- What `SendDiscoveryPacket` does when the interval has passed. -/
theorem SendDiscoveryPacket_due (k : E131Constants) (s : E131Controller)
    (hreg : s.registry.nActiveUniverses ≤ s.registry.s_SequenceNumbers.length)
    (hlist : s.registry.nActiveUniverses ≤ s.m_pE131DiscoveryPacket.ListOfUniverses.length)
    (hdue : (s.m_nCurrentPacketMillis + 4294967296 - s.DiscoveryTime) % 4294967296
      ≥ (k.E131_UNIVERSE_DISCOVERY_INTERVAL_SECONDS * 1000) % 4294967296) :
    ∃ list, list.length = s.m_pE131DiscoveryPacket.ListOfUniverses.length ∧
      list.take s.registry.nActiveUniverses = (activeUniverses s.registry).map bswap16 ∧
      SendDiscoveryPacket k s = .ok
        (SendTo { s with
            DiscoveryTime := s.m_nCurrentPacketMillis
            m_pE131DiscoveryPacket :=
              { RootLayerFlagsLength :=
                  flagsLength (k.DISCOVERY_ROOT_LAYER_LENGTH s.registry.nActiveUniverses)
                FrameLayerFLagsLength :=
                  flagsLength (k.DISCOVERY_FRAME_LAYER_LENGTH s.registry.nActiveUniverses)
                UniverseDiscoveryLayerFlagsLength :=
                  flagsLength (k.DISCOVERY_LAYER_LENGTH s.registry.nActiveUniverses)
                ListOfUniverses := list } }
          (TE131Packet.discovery
            { RootLayerFlagsLength :=
                flagsLength (k.DISCOVERY_ROOT_LAYER_LENGTH s.registry.nActiveUniverses)
              FrameLayerFLagsLength :=
                flagsLength (k.DISCOVERY_FRAME_LAYER_LENGTH s.registry.nActiveUniverses)
              UniverseDiscoveryLayerFlagsLength :=
                flagsLength (k.DISCOVERY_LAYER_LENGTH s.registry.nActiveUniverses)
              ListOfUniverses := list })
          (k.DISCOVERY_PACKET_SIZE s.registry.nActiveUniverses) s.m_DiscoveryIpAddress
          k.E131_DEFAULT_PORT) := by
  obtain ⟨list, hl, hlen, hget⟩ := fillListOfUniverses_spec s.registry.s_SequenceNumbers
    s.registry.nActiveUniverses 0 s.m_pE131DiscoveryPacket.ListOfUniverses
    (by omega) (by omega)
  refine ⟨list, hlen, ?_, ?_⟩
  · apply List.ext_getElem?
    intro j
    unfold activeUniverses
    rw [List.getElem?_take, List.map_map, List.getElem?_map, List.getElem?_take, hget j]
    by_cases hj : j < s.registry.nActiveUniverses
    · rw [if_pos hj, if_pos (by omega), if_pos hj]
      rfl
    · rw [if_neg hj, if_neg hj]
      rfl
  · unfold SendDiscoveryPacket
    rw [if_pos hdue]
    simp only [bind, Except.bind, pure, Except.pure]
    rw [hl]

/-- C19. `SendDiscoveryPacket` compares the time since the last discovery packet, taken modulo
2^32, with `E131_UNIVERSE_DISCOVERY_INTERVAL_SECONDS * 1000`.  Below the interval it sends
nothing and changes no state.  From the interval on it sends one packet and records the
current millis as the last discovery time; after that, a call (directly or through `Run`) at a
clock value less than one interval later sends nothing. -/
theorem C19_discovery_is_rate_limited (k : E131Constants) (s : E131Controller)
    (hk : k.E131_UNIVERSE_DISCOVERY_INTERVAL_SECONDS * 1000 < 4294967296)
    (hreg : s.registry.nActiveUniverses ≤ s.registry.s_SequenceNumbers.length)
    (hlist : s.registry.nActiveUniverses ≤ s.m_pE131DiscoveryPacket.ListOfUniverses.length) :
    ((s.m_nCurrentPacketMillis + 4294967296 - s.DiscoveryTime) % 4294967296
        < k.E131_UNIVERSE_DISCOVERY_INTERVAL_SECONDS * 1000 →
      SendDiscoveryPacket k s = .ok s) ∧
    ((s.m_nCurrentPacketMillis + 4294967296 - s.DiscoveryTime) % 4294967296
        ≥ k.E131_UNIVERSE_DISCOVERY_INTERVAL_SECONDS * 1000 →
      ∃ s', SendDiscoveryPacket k s = .ok s' ∧
        s'.sent.length = s.sent.length + 1 ∧
        s'.DiscoveryTime = s.m_nCurrentPacketMillis ∧
        s'.bIsRunning = s.bIsRunning ∧
        ∀ nMillis, (nMillis + 4294967296 - s.m_nCurrentPacketMillis) % 4294967296
            < k.E131_UNIVERSE_DISCOVERY_INTERVAL_SECONDS * 1000 →
          SendDiscoveryPacket k { s' with m_nCurrentPacketMillis := nMillis }
            = .ok { s' with m_nCurrentPacketMillis := nMillis } ∧
          (Run k s' nMillis).map (fun x => x.sent) = .ok s'.sent) := by
  have hmod : (k.E131_UNIVERSE_DISCOVERY_INTERVAL_SECONDS * 1000) % 4294967296
      = k.E131_UNIVERSE_DISCOVERY_INTERVAL_SECONDS * 1000 := Nat.mod_eq_of_lt hk
  constructor
  · intro h
    unfold SendDiscoveryPacket
    rw [hmod, if_neg (by omega)]
  · intro h
    obtain ⟨list, _, _, hs⟩ := SendDiscoveryPacket_due k s hreg hlist (by rw [hmod]; exact h)
    refine ⟨_, hs, by simp [SendTo], rfl, rfl, fun nMillis hn => ?_⟩
    have hquiet : ∀ x : E131Controller, x.DiscoveryTime = s.m_nCurrentPacketMillis →
        x.m_nCurrentPacketMillis = nMillis → SendDiscoveryPacket k x = .ok x := by
      intro x hx1 hx2
      unfold SendDiscoveryPacket
      rw [hmod, hx1, hx2, if_neg (by omega)]
    refine ⟨hquiet _ rfl rfl, ?_⟩
    unfold Run
    by_cases hr : s.bIsRunning = true
    · simp only [SendTo, hr, if_true]
      rw [hquiet _ rfl rfl]
      rfl
    · simp only [SendTo, hr]
      rfl

end E131Controller

end RpiDmx512

namespace RpiDmx512

namespace E131Controller

theorem GetSequenceNumber_size (s s' : SequenceRegistry) (u seq ip : Nat)
    (hinv : RegistryInv s) (hn : s.nActiveUniverses ≤ s.s_SequenceNumbers.length)
    (h : GetSequenceNumber s u = .ok (s', seq, ip)) :
    s'.s_SequenceNumbers.length = s.s_SequenceNumbers.length ∧
    s'.nActiveUniverses ≤ s'.s_SequenceNumbers.length := by
  rcases GetSequenceNumber_cases s s' u seq ip hinv h with
    ⟨i, e, _, _, _, _, _, hs'⟩ | ⟨_, _, k, hk⟩
  · rw [hs']
    simp only [List.length_set]
    exact ⟨trivial, hn⟩
  · obtain ⟨hk1, hn', hlen, _, ⟨e, he, _⟩, h3, _⟩ := hk
    refine ⟨hlen, ?_⟩
    rw [hn']
    by_cases hkn : k = s.nActiveUniverses
    · rw [hkn] at he
      exact (List.getElem?_eq_some.mp he).1
    · have h4 := h3 s.nActiveUniverses (by omega) (le_refl _)
      have h5 : s.nActiveUniverses - 1 < s.s_SequenceNumbers.length := by omega
      rw [List.getElem?_eq_getElem h5] at h4
      exact (List.getElem?_eq_some.mp h4).1

theorem getSequenceNumbers_size (us : List Nat) :
    ∀ (s s' : SequenceRegistry), RegistryInv s →
      s.nActiveUniverses ≤ s.s_SequenceNumbers.length →
      getSequenceNumbers s us = .ok s' →
      s'.s_SequenceNumbers.length = s.s_SequenceNumbers.length ∧
      s'.nActiveUniverses ≤ s'.s_SequenceNumbers.length := by
  induction us with
  | nil =>
    intro s s' _ hn h
    simp only [getSequenceNumbers, Except.ok.injEq] at h
    rw [← h]; exact ⟨rfl, hn⟩
  | cons u us ih =>
    intro s s' hinv hn h
    unfold getSequenceNumbers at h
    cases hg : GetSequenceNumber s u with
    | error e => simp [hg] at h
    | ok r =>
      obtain ⟨s1, seq, ip⟩ := r
      simp only [hg] at h
      obtain ⟨h1, h2⟩ := GetSequenceNumber_size s s1 u seq ip hinv hn hg
      obtain ⟨h3, h4⟩ := ih s1 s' (GetSequenceNumber_inv s s1 u seq ip hinv hg) h2 h
      exact ⟨h3.trans h1, h4⟩

/-- A registry reached from the constructor state satisfies the invariant, has 512 slots and
at most 512 active universes. -/
theorem reached_registry (us : List Nat) (s : SequenceRegistry)
    (h : getSequenceNumbers initRegistry us = .ok s) :
    RegistryInv s ∧ s.s_SequenceNumbers.length = 512 ∧ s.nActiveUniverses ≤ 512 := by
  have hinv := getSequenceNumbers_inv us _ _ initRegistry_inv h
  have hlen0 : initRegistry.s_SequenceNumbers.length = 512 := List.length_replicate _ _
  obtain ⟨h1, h2⟩ := getSequenceNumbers_size us initRegistry s initRegistry_inv
    (Nat.zero_le _) h
  rw [hlen0] at h1
  exact ⟨hinv, h1, by rw [h1] at h2; exact h2⟩

theorem activeUniverses_length (s : SequenceRegistry)
    (h : s.nActiveUniverses ≤ s.s_SequenceNumbers.length) :
    (activeUniverses s).length = s.nActiveUniverses := by
  simp [activeUniverses, h]

/-- C18. Let the registry be one reached by `GetSequenceNumber` calls and let the interval have
passed.  Then `SendDiscoveryPacket` sends one discovery packet of size
`DISCOVERY_PACKET_SIZE(nActiveUniverses)` to the discovery address; the first
`nActiveUniverses` entries of its universe list are the universes of the registry, byte-swapped
to big-endian, in registry order, which is strictly ascending (so each universe is there
once); and its three Flags and Length words are computed from `nActiveUniverses`. -/
theorem C18_discovery_lists_active_universes (k : E131Constants) (s : E131Controller)
    (us : List Nat) (hreach : getSequenceNumbers initRegistry us = .ok s.registry)
    (hlist : s.m_pE131DiscoveryPacket.ListOfUniverses.length = 512)
    (hdue : (s.m_nCurrentPacketMillis + 4294967296 - s.DiscoveryTime) % 4294967296
      ≥ (k.E131_UNIVERSE_DISCOVERY_INTERVAL_SECONDS * 1000) % 4294967296) :
    ∃ s' p, SendDiscoveryPacket k s = .ok s' ∧
      s'.sent = s.sent ++ [⟨TE131Packet.discovery p,
        k.DISCOVERY_PACKET_SIZE s.registry.nActiveUniverses, s.m_DiscoveryIpAddress,
        k.E131_DEFAULT_PORT⟩] ∧
      p.ListOfUniverses.take s.registry.nActiveUniverses
        = (activeUniverses s.registry).map bswap16 ∧
      (activeUniverses s.registry).length = s.registry.nActiveUniverses ∧
      List.Pairwise (fun a b => a < b) (activeUniverses s.registry) ∧
      p.RootLayerFlagsLength
        = flagsLength (k.DISCOVERY_ROOT_LAYER_LENGTH s.registry.nActiveUniverses) ∧
      p.FrameLayerFLagsLength
        = flagsLength (k.DISCOVERY_FRAME_LAYER_LENGTH s.registry.nActiveUniverses) ∧
      p.UniverseDiscoveryLayerFlagsLength
        = flagsLength (k.DISCOVERY_LAYER_LENGTH s.registry.nActiveUniverses) := by
  obtain ⟨hinv, hlen, hn⟩ := reached_registry us s.registry hreach
  obtain ⟨list, _, htake, hs⟩ := SendDiscoveryPacket_due k s (by omega) (by omega) hdue
  exact ⟨_, _, hs, rfl, htake, activeUniverses_length _ (by omega),
    pairwise_take_map _ _ _ (universeAt s.registry) (universeAt_eq s.registry) hinv.1,
    rfl, rfl, rfl⟩

end E131Controller

end RpiDmx512

/-! ## The sACN controller: `HandleDmxOut` (C17) and `HandleBlackout` (C16) -/

namespace RpiDmx512

namespace E131Controller

theorem flagsLengthCast_eq (length : Nat) (h : length < 65536) :
    flagsLengthCast length = bswap16 (0x7000 ||| length) := by
  unfold flagsLengthCast
  rw [Nat.mod_eq_of_lt h]
  have h1 : (0x7000 : Nat) < 2 ^ 16 := by decide
  have h2 : length < 2 ^ 16 := h
  rw [Nat.mod_eq_of_lt (Nat.or_lt_two_pow h1 h2)]

/-- C17. For every universe and every payload of length `n ≤ 512` for which `GetSequenceNumber`
answers, `HandleDmxOut` sends one Data packet, of size `DATA_PACKET_SIZE(n + 1)`, to the address
`GetSequenceNumber` returned: its Universe field is the universe byte-swapped to big-endian, its
sequence number the one `GetSequenceNumber` returned, its PropertyValueCount `n + 1` in
big-endian, its property values 1 to `n` the payload, and its three Flags and Length words the
big-endian value of `0x7000 |` the length of the layer for `n + 1` property values. -/
theorem C17_handle_dmx_out_packet (k : E131Constants) (s : E131Controller) (nUniverse : Nat)
    (pDmxData : List Nat) (registry : SequenceRegistry) (nSequenceNumber nIp : Nat)
    (hn : pDmxData.length ≤ 512)
    (hvals : s.m_pE131DataPacket.DMPLayerPropertyValues.length = 513)
    (hroot : k.DATA_ROOT_LAYER_LENGTH (1 + pDmxData.length) < 65536)
    (hframe : k.DATA_FRAME_LAYER_LENGTH (1 + pDmxData.length) < 65536)
    (hdmp : k.DATA_LAYER_LENGTH (1 + pDmxData.length) < 65536)
    (hg : GetSequenceNumber s.registry nUniverse = .ok (registry, nSequenceNumber, nIp)) :
    ∃ s' p, HandleDmxOut k s nUniverse pDmxData pDmxData.length = .ok s' ∧
      s'.sent = s.sent ++ [⟨TE131Packet.data p, k.DATA_PACKET_SIZE (1 + pDmxData.length), nIp,
        k.E131_DEFAULT_PORT⟩] ∧
      s'.registry = registry ∧
      p.FrameLayerUniverse = bswap16 nUniverse ∧
      p.FrameLayerSequenceNumber = nSequenceNumber ∧
      p.DMPLayerPropertyValueCount = bswap16 (pDmxData.length + 1) ∧
      p.DMPLayerPropertyValues.length = 513 ∧
      (p.DMPLayerPropertyValues.drop 1).take pDmxData.length = pDmxData ∧
      p.DMPLayerPropertyValues.take 1 = s.m_pE131DataPacket.DMPLayerPropertyValues.take 1 ∧
      p.RootLayerFlagsLength
        = bswap16 (0x7000 ||| k.DATA_ROOT_LAYER_LENGTH (pDmxData.length + 1)) ∧
      p.FrameLayerFLagsLength
        = bswap16 (0x7000 ||| k.DATA_FRAME_LAYER_LENGTH (pDmxData.length + 1)) ∧
      p.DMPLayerFlagsLength
        = bswap16 (0x7000 ||| k.DATA_LAYER_LENGTH (pDmxData.length + 1)) := by
  have hcopy : memcpy Fault.propertyValues Fault.dmxData
      s.m_pE131DataPacket.DMPLayerPropertyValues 1 pDmxData pDmxData.length
      = .ok (s.m_pE131DataPacket.DMPLayerPropertyValues.take 1 ++ pDmxData.take pDmxData.length
          ++ s.m_pE131DataPacket.DMPLayerPropertyValues.drop (1 + pDmxData.length)) := by
    unfold memcpy
    rw [if_pos (le_refl _), if_pos (by omega)]
  have hs : HandleDmxOut k s nUniverse pDmxData pDmxData.length = .ok
      (SendTo { s with
          registry := registry
          m_pE131DataPacket :=
            { RootLayerFlagsLength := flagsLengthCast (k.DATA_ROOT_LAYER_LENGTH (1 + pDmxData.length))
              FrameLayerFLagsLength :=
                flagsLengthCast (k.DATA_FRAME_LAYER_LENGTH (1 + pDmxData.length))
              FrameLayerSequenceNumber := nSequenceNumber
              FrameLayerUniverse := bswap16 nUniverse
              DMPLayerFlagsLength := flagsLengthCast (k.DATA_LAYER_LENGTH (1 + pDmxData.length))
              DMPLayerPropertyValueCount := bswap16 ((1 + pDmxData.length) % 65536)
              DMPLayerPropertyValues :=
                s.m_pE131DataPacket.DMPLayerPropertyValues.take 1
                  ++ pDmxData.take pDmxData.length
                  ++ s.m_pE131DataPacket.DMPLayerPropertyValues.drop (1 + pDmxData.length) } }
        (TE131Packet.data
            { RootLayerFlagsLength := flagsLengthCast (k.DATA_ROOT_LAYER_LENGTH (1 + pDmxData.length))
              FrameLayerFLagsLength :=
                flagsLengthCast (k.DATA_FRAME_LAYER_LENGTH (1 + pDmxData.length))
              FrameLayerSequenceNumber := nSequenceNumber
              FrameLayerUniverse := bswap16 nUniverse
              DMPLayerFlagsLength := flagsLengthCast (k.DATA_LAYER_LENGTH (1 + pDmxData.length))
              DMPLayerPropertyValueCount := bswap16 ((1 + pDmxData.length) % 65536)
              DMPLayerPropertyValues :=
                s.m_pE131DataPacket.DMPLayerPropertyValues.take 1
                  ++ pDmxData.take pDmxData.length
                  ++ s.m_pE131DataPacket.DMPLayerPropertyValues.drop (1 + pDmxData.length) })
        (k.DATA_PACKET_SIZE (1 + pDmxData.length)) nIp k.E131_DEFAULT_PORT) := by
    unfold HandleDmxOut
    simp only [bind, Except.bind, pure, Except.pure]
    rw [hg]
    simp only
    rw [hcopy]
  have hadd : 1 + pDmxData.length = pDmxData.length + 1 := Nat.add_comm _ _
  refine ⟨_, _, hs, rfl, rfl, rfl, rfl, ?_, ?_, ?_, ?_, ?_, ?_, ?_⟩
  · simp only
    rw [Nat.mod_eq_of_lt (by omega), hadd]
  · simp only [List.length_append, List.length_take, List.length_drop, hvals]
    omega
  · simp only [List.take_length]
    have h1 : (s.m_pE131DataPacket.DMPLayerPropertyValues.take 1).length = 1 := by
      rw [List.length_take, hvals]; rfl
    rw [List.append_assoc, List.drop_append_of_le_length (by omega), List.drop_of_length_le
      (by omega), List.nil_append, List.take_append_of_le_length (le_refl _), List.take_length]
  · simp only [List.take_length]
    have h1 : (s.m_pE131DataPacket.DMPLayerPropertyValues.take 1).length = 1 := by
      rw [List.length_take, hvals]; rfl
    rw [List.append_assoc, List.take_append_of_le_length (by omega), List.take_of_length_le
      (by omega)]
  · simp only
    rw [flagsLengthCast_eq _ hroot, hadd]
  · simp only
    rw [flagsLengthCast_eq _ hframe, hadd]
  · simp only
    rw [flagsLengthCast_eq _ hdmp, hadd]

end E131Controller

end RpiDmx512

namespace RpiDmx512

namespace E131Controller

/-- `GetSequenceNumber` for the universe of the active entry `i`: the search ends at `i`, the
counter of that entry goes up by one modulo 256, nothing else changes. -/
theorem GetSequenceNumber_registered (s : SequenceRegistry) (hinv : RegistryInv s)
    (hn : s.nActiveUniverses ≤ s.s_SequenceNumbers.length) (i : Nat)
    (hi : i < s.nActiveUniverses) (e : TSequenceNumbers)
    (he : s.s_SequenceNumbers[i]? = some e) :
    GetSequenceNumber s e.nUniverse = .ok
      ({ s with
          s_SequenceNumbers :=
            s.s_SequenceNumbers.set i
              { e with nSequenceNumber := (e.nSequenceNumber + 1) % 256 } },
        (e.nSequenceNumber + 1) % 256, e.nIpAddress) := by
  have hkey : ∀ j, j < s.nActiveUniverses → universeKey s j = .ok (universeAt s j) := by
    intro j hj
    have hj' : j < s.s_SequenceNumbers.length := by omega
    unfold universeKey universeAt
    rw [readAt_of_lt _ hj', List.getElem?_eq_getElem hj']
    rfl
  have hfind := search_finds (universeKey s) (universeAt s) s.nActiveUniverses i hkey hinv.1 hi
  rw [universeAt_eq s i e he] at hfind
  have hlt : i < s.s_SequenceNumbers.length := by omega
  unfold GetSequenceNumber
  rw [hfind]
  simp only [bind, Except.bind, pure, Except.pure]
  rw [readAt_eq_ok.mpr he]
  simp only
  rw [writeAt_of_lt _ _ hlt]

theorem activeUniverses_set (s : SequenceRegistry) (i : Nat) (e : TSequenceNumbers) (x : Nat)
    (he : s.s_SequenceNumbers[i]? = some e) :
    activeUniverses { s with s_SequenceNumbers :=
        s.s_SequenceNumbers.set i { e with nSequenceNumber := x } } = activeUniverses s := by
  have hlt : i < s.s_SequenceNumbers.length := (List.getElem?_eq_some.mp he).1
  apply List.ext_getElem?
  intro j
  unfold activeUniverses
  simp only
  rw [List.getElem?_map, List.getElem?_map, List.getElem?_take, List.getElem?_take]
  by_cases hj : j < s.nActiveUniverses
  · rw [if_pos hj, if_pos hj]
    by_cases hij : i = j
    · subst hij
      rw [List.getElem?_set_self hlt, he]
      rfl
    · rw [List.getElem?_set_ne hij]
  · rw [if_neg hj, if_neg hj]

theorem drop_take_set {α : Type} (xs : List α) (i n : Nat) (x : α) :
    ((xs.set i x).take n).drop (i + 1) = (xs.take n).drop (i + 1) := by
  apply List.ext_getElem?
  intro j
  rw [List.getElem?_drop, List.getElem?_drop, List.getElem?_take, List.getElem?_take,
    List.getElem?_set_ne (by omega)]

/-- The loop of `HandleBlackout` from index `i` on. -/
theorem blackoutLoop_spec (k : E131Constants) :
    ∀ (m i fuel : Nat) (s : E131Controller), RegistryInv s.registry →
      s.registry.nActiveUniverses ≤ s.registry.s_SequenceNumbers.length →
      i + m = s.registry.nActiveUniverses → m < fuel →
      ∃ s', blackoutLoop k fuel i s = .ok s' ∧
        s'.sent = s.sent ++
          ((activeEntries s.registry).drop i).map (blackoutDatagram k s.m_pE131DataPacket) ∧
        activeUniverses s'.registry = activeUniverses s.registry ∧
        s'.registry.nActiveUniverses = s.registry.nActiveUniverses ∧
        s'.SynchronizationPacket = s.SynchronizationPacket ∧
        s'.m_pE131SynchronizationPacket = s.m_pE131SynchronizationPacket := by
  intro m
  induction m with
  | zero =>
    intro i fuel s _ hn hi hf
    cases fuel with
    | zero => omega
    | succ fuel =>
      unfold blackoutLoop
      rw [if_neg (by omega)]
      refine ⟨s, rfl, ?_, rfl, rfl, rfl, rfl⟩
      have : (activeEntries s.registry).drop i = [] := by
        apply List.drop_of_length_le
        simp only [activeEntries, List.length_take]
        omega
      rw [this]
      simp
  | succ m ih =>
    intro i fuel s hinv hn hi hf
    cases fuel with
    | zero => omega
    | succ fuel =>
      have hin : i < s.registry.nActiveUniverses := by omega
      have hlt : i < s.registry.s_SequenceNumbers.length := by omega
      have he : s.registry.s_SequenceNumbers[i]? = some s.registry.s_SequenceNumbers[i] :=
        List.getElem?_eq_getElem hlt
      generalize s.registry.s_SequenceNumbers[i] = e at he
      have hg := GetSequenceNumber_registered s.registry hinv hn i hin e he
      have hinv1 := GetSequenceNumber_inv _ _ _ _ _ hinv hg
      unfold blackoutLoop
      rw [if_pos hin, readAt_eq_ok.mpr he]
      simp only
      rw [hg]
      simp only
      obtain ⟨s', hs', hsent, hact, hnact, hsync, hsyncp⟩ := ih (i + 1) fuel
        (SendTo { s with
            registry :=
              { s.registry with
                s_SequenceNumbers :=
                  s.registry.s_SequenceNumbers.set i
                    { e with nSequenceNumber := (e.nSequenceNumber + 1) % 256 } }
            m_pE131DataPacket := { s.m_pE131DataPacket with
              FrameLayerSequenceNumber := (e.nSequenceNumber + 1) % 256
              FrameLayerUniverse := bswap16 e.nUniverse } }
          (TE131Packet.data { s.m_pE131DataPacket with
              FrameLayerSequenceNumber := (e.nSequenceNumber + 1) % 256
              FrameLayerUniverse := bswap16 e.nUniverse })
          (k.DATA_PACKET_SIZE 513) e.nIpAddress k.E131_DEFAULT_PORT)
        hinv1 (by simpa [SendTo] using hn) (by simp only [SendTo]; omega) (by omega)
      refine ⟨s', hs', ?_, ?_, ?_, hsync, hsyncp⟩
      · rw [hsent]
        simp only [SendTo, activeEntries]
        rw [drop_take_set]
        have hdrop : List.drop i (List.take s.registry.nActiveUniverses
            s.registry.s_SequenceNumbers) = e :: List.drop (i + 1)
              (List.take s.registry.nActiveUniverses s.registry.s_SequenceNumbers) := by
          apply List.ext_getElem?
          intro j
          rw [List.getElem?_drop, List.getElem?_take]
          cases j with
          | zero =>
            rw [if_pos (by omega)]
            simpa using he
          | succ j =>
            rw [List.getElem?_cons_succ, List.getElem?_drop, List.getElem?_take]
            have : i + (j + 1) = i + 1 + j := by omega
            rw [this]
        rw [hdrop, List.map_cons, List.append_assoc]
        rfl
      · rw [hact]
        exact activeUniverses_set s.registry i e _ he
      · rw [hnact]
        rfl

/-- C16. Let the registry be one reached by `GetSequenceNumber` calls.  `HandleBlackout` sends
one Data packet per active universe, in registry order: each of size `DATA_PACKET_SIZE(513)`,
to the multicast address of the universe, with PropertyValueCount 513 in big-endian, 512 zero
channel bytes after the start code, the universe number in big-endian and the sequence number
of the universe plus one modulo 256.  After them it sends one synchronization packet if a
synchronization universe is configured, and nothing otherwise.  The active universes and their
order are unchanged. -/
theorem C16_blackout_packets (k : E131Constants) (s : E131Controller) (us : List Nat)
    (hreach : getSequenceNumbers initRegistry us = .ok s.registry)
    (hvals : s.m_pE131DataPacket.DMPLayerPropertyValues.length = 513) :
    (∃ s', HandleBlackout k s = .ok s' ∧
      s'.sent = s.sent ++
        (activeEntries s.registry).map (blackoutDatagram k (blackoutPacket k s.m_pE131DataPacket))
        ++ blackoutSync k s ∧
      activeUniverses s'.registry = activeUniverses s.registry ∧
      s'.registry.nActiveUniverses = s.registry.nActiveUniverses) ∧
    (activeEntries s.registry).map (fun e => e.nUniverse) = activeUniverses s.registry ∧
    ∀ e : TSequenceNumbers, ∃ p,
      dataPacketOf (blackoutDatagram k (blackoutPacket k s.m_pE131DataPacket) e) = some p ∧
      p.DMPLayerPropertyValueCount = bswap16 513 ∧
      p.DMPLayerPropertyValues.drop 1 = List.replicate 512 0 ∧
      p.FrameLayerUniverse = bswap16 e.nUniverse ∧
      p.FrameLayerSequenceNumber = (e.nSequenceNumber + 1) % 256 ∧
      (blackoutDatagram k (blackoutPacket k s.m_pE131DataPacket) e).nToIp = e.nIpAddress := by
  obtain ⟨hinv, hlen, hn⟩ := reached_registry us s.registry hreach
  refine ⟨?_, rfl, fun e => ⟨_, rfl, rfl, ?_, rfl, rfl, rfl⟩⟩
  · have hset : memsetZero Fault.propertyValues s.m_pE131DataPacket.DMPLayerPropertyValues 1 512
        = .ok (s.m_pE131DataPacket.DMPLayerPropertyValues.take 1 ++ List.replicate 512 0
            ++ s.m_pE131DataPacket.DMPLayerPropertyValues.drop 513) := by
      unfold memsetZero
      rw [if_pos (by omega)]
    obtain ⟨s1, hs1, hsent, hact, hnact, hsync, hsyncp⟩ := blackoutLoop_spec k
      s.registry.nActiveUniverses 0 (s.registry.s_SequenceNumbers.length + 2)
      { s with m_pE131DataPacket := blackoutPacket k s.m_pE131DataPacket }
      hinv (by show s.registry.nActiveUniverses ≤ s.registry.s_SequenceNumbers.length; omega)
      (by show 0 + s.registry.nActiveUniverses = s.registry.nActiveUniverses; omega)
      (by omega)
    simp only [List.drop_zero] at hsent
    have hb : HandleBlackout k s =
        (if s1.SynchronizationPacket.nUniverseNumber ≠ 0 then .ok (HandleSync k s1)
          else .ok s1) := by
      unfold HandleBlackout
      simp only [bind, Except.bind, pure, Except.pure]
      rw [hset]
      simp only
      have : ({ s with m_pE131DataPacket :=
          { RootLayerFlagsLength := flagsLengthCast (k.DATA_ROOT_LAYER_LENGTH 513)
            FrameLayerFLagsLength := flagsLengthCast (k.DATA_FRAME_LAYER_LENGTH 513)
            FrameLayerSequenceNumber := s.m_pE131DataPacket.FrameLayerSequenceNumber
            FrameLayerUniverse := s.m_pE131DataPacket.FrameLayerUniverse
            DMPLayerFlagsLength := flagsLengthCast (k.DATA_LAYER_LENGTH 513)
            DMPLayerPropertyValueCount := bswap16 513
            DMPLayerPropertyValues :=
              s.m_pE131DataPacket.DMPLayerPropertyValues.take 1 ++ List.replicate 512 0
                ++ s.m_pE131DataPacket.DMPLayerPropertyValues.drop 513 } } : E131Controller)
          = { s with m_pE131DataPacket := blackoutPacket k s.m_pE131DataPacket } := rfl
      rw [this, hs1]
    by_cases hu : s.SynchronizationPacket.nUniverseNumber ≠ 0
    · have hu1 : s1.SynchronizationPacket.nUniverseNumber ≠ 0 := by rw [hsync]; exact hu
      rw [hb, if_pos hu1]
      refine ⟨_, rfl, ?_, ?_, ?_⟩
      · have h1 : (HandleSync k s1).sent = s1.sent ++ [syncDatagram k s1] := by
          unfold HandleSync
          rw [if_pos hu1]
          rfl
        have h2 : syncDatagram k s1 = syncDatagram k s := by
          unfold syncDatagram
          rw [hsync, hsyncp]
        rw [h1, hsent, h2]
        unfold blackoutSync
        rw [if_pos hu]
      · have h1 : (HandleSync k s1).registry = s1.registry := by
          unfold HandleSync
          rw [if_pos hu1]
          rfl
        rw [h1, hact]
      · have h1 : (HandleSync k s1).registry = s1.registry := by
          unfold HandleSync
          rw [if_pos hu1]
          rfl
        rw [h1, hnact]
    · have hu1 : ¬ s1.SynchronizationPacket.nUniverseNumber ≠ 0 := by rw [hsync]; exact hu
      rw [hb, if_neg hu1]
      refine ⟨_, rfl, ?_, hact, hnact⟩
      rw [hsent]
      unfold blackoutSync
      rw [if_neg hu, List.append_nil]
  · show (s.m_pE131DataPacket.DMPLayerPropertyValues.take 1 ++ List.replicate 512 0
        ++ s.m_pE131DataPacket.DMPLayerPropertyValues.drop 513).drop 1 = List.replicate 512 0
    have h1 : (s.m_pE131DataPacket.DMPLayerPropertyValues.take 1).length = 1 := by
      rw [List.length_take, hvals]; rfl
    rw [List.append_assoc, List.drop_append_of_le_length (by omega),
      List.drop_of_length_le (by omega), List.nil_append,
      List.drop_of_length_le (by omega), List.append_nil]

end E131Controller

end RpiDmx512

namespace RpiDmx512

namespace E131Controller

set_option maxRecDepth 1000000 in
/-- Witness of C16: with the universes 3, 5, 7 active (sequence numbers 0, 1, 0) and the
synchronization universe 7, `HandleBlackout` sends three data packets with the sequence numbers
1, 2, 1 and then one synchronization packet. -/
theorem C16_blackout_packets_witness :
    (HandleBlackout sampleE131Constants sampleController).map
        (fun s => s.sent.map fun d =>
          (dataPacketOf d).map fun p => p.FrameLayerSequenceNumber)
      = .ok [some 1, some 2, some 1, none] ∧
    ∃ s', HandleBlackout sampleE131Constants sampleController = .ok s' ∧
      s'.sent = sampleController.sent ++
        (activeEntries sampleController.registry).map
          (blackoutDatagram sampleE131Constants
            (blackoutPacket sampleE131Constants sampleController.m_pE131DataPacket))
        ++ blackoutSync sampleE131Constants sampleController ∧
      activeUniverses s'.registry = activeUniverses sampleController.registry ∧
      s'.registry.nActiveUniverses = sampleController.registry.nActiveUniverses :=
  ⟨by decide,
    (C16_blackout_packets sampleE131Constants sampleController [5, 3, 5, 7] (by decide)
      (by decide)).1⟩

set_option maxRecDepth 1000000 in
/-- Witness of C17: three channel bytes for universe 5, whose sequence number goes from 1
to 2. -/
theorem C17_handle_dmx_out_packet_witness :
    GetSequenceNumber sampleController.registry 5
      = .ok (sampleAnswer.1, sampleAnswer.2.1, sampleAnswer.2.2) ∧
    sampleAnswer.2.1 = 2 ∧
    ∃ s' p, HandleDmxOut sampleE131Constants sampleController 5 [10, 20, 30] 3 = .ok s' ∧
      s'.sent = sampleController.sent ++ [⟨TE131Packet.data p, 129, sampleAnswer.2.2, 5568⟩] ∧
      p.FrameLayerUniverse = bswap16 5 ∧ p.FrameLayerSequenceNumber = 2 ∧
      p.DMPLayerPropertyValueCount = bswap16 4 ∧
      (p.DMPLayerPropertyValues.drop 1).take 3 = [10, 20, 30] :=
  ⟨by decide, by decide, by
    obtain ⟨s', p, h1, h2, _, h4, h5, h6, _, h8, _⟩ :=
      C17_handle_dmx_out_packet sampleE131Constants sampleController 5 [10, 20, 30]
        sampleAnswer.1 sampleAnswer.2.1 sampleAnswer.2.2 (by decide) (by decide) (by decide)
        (by decide) (by decide) (by decide)
    exact ⟨s', p, h1, h2, h4, h5.trans (by decide), h6, h8⟩⟩

set_option maxRecDepth 1000000 in
/-- Witness of C18: at 10 s the controller with the universes 3, 5, 7 sends the list
0x0300, 0x0500, 0x0700 (big-endian 3, 5, 7 as little-endian words). -/
theorem C18_discovery_lists_active_universes_witness :
    (activeUniverses sampleController.registry).map bswap16 = [768, 1280, 1792] ∧
    ∃ s' p, SendDiscoveryPacket sampleE131Constants sampleController = .ok s' ∧
      s'.sent = sampleController.sent ++ [⟨TE131Packet.discovery p,
        sampleE131Constants.DISCOVERY_PACKET_SIZE sampleController.registry.nActiveUniverses,
        sampleController.m_DiscoveryIpAddress, sampleE131Constants.E131_DEFAULT_PORT⟩] ∧
      p.ListOfUniverses.take sampleController.registry.nActiveUniverses
        = (activeUniverses sampleController.registry).map bswap16 :=
  ⟨by decide, by
    obtain ⟨s', p, h1, h2, h3, _⟩ :=
      C18_discovery_lists_active_universes sampleE131Constants sampleController [5, 3, 5, 7]
        (by decide) (by decide) (by decide)
    exact ⟨s', p, h1, h2, h3⟩⟩

set_option maxRecDepth 1000000 in
/-- Witness of C19: the fresh controller (clock 0, last discovery 0) sends nothing; the sample
controller at 10 s sends one packet and records 10000. -/
theorem C19_discovery_is_rate_limited_witness :
    SendDiscoveryPacket sampleE131Constants initController = .ok initController ∧
    ∃ s', SendDiscoveryPacket sampleE131Constants sampleController = .ok s' ∧
      s'.sent.length = sampleController.sent.length + 1 ∧ s'.DiscoveryTime = 10000 :=
  ⟨(C19_discovery_is_rate_limited sampleE131Constants initController (by decide) (by decide)
      (by decide)).1 (by decide), by
    obtain ⟨s', h1, h2, h3, _⟩ :=
      (C19_discovery_is_rate_limited sampleE131Constants sampleController (by decide)
        (by decide) (by decide)).2 (by decide)
    exact ⟨s', h1, h2, h3⟩⟩

end E131Controller

end RpiDmx512

/-! ## The loops of the model never run out of fuel -/

namespace RpiDmx512

theorem searchLoop_fuel (key : Nat → Except Fault Nat) (x : Nat)
    (hkey : ∀ j, key j ≠ .error Fault.fuel) :
    ∀ (fuel : Nat) (nLow nMid nHigh : Int), 0 < fuel → nHigh - nLow + 1 < fuel →
      searchLoop key x fuel nLow nMid nHigh ≠ .error Fault.fuel := by
  intro fuel
  induction fuel with
  | zero =>
    intro nLow nMid nHigh h0 _
    omega
  | succ fuel ih =>
    intro nLow nMid nHigh _ h
    unfold searchLoop
    by_cases hc : nLow ≤ nHigh
    · rw [if_pos hc]
      simp only
      cases hk : key (nLow + (nHigh - nLow) / 2).toNat with
      | error e =>
        simp only
        intro hcon
        have he : e = Fault.fuel := Except.error.inj hcon
        rw [he] at hk
        exact hkey _ hk
      | ok v =>
        simp only
        by_cases h1 : v < x
        · rw [if_pos h1]
          exact ih _ _ _ (by omega) (by omega)
        · rw [if_neg h1]
          by_cases h2 : v > x
          · rw [if_pos h2]
            exact ih _ _ _ (by omega) (by omega)
          · rw [if_neg h2]
            intro hcon
            exact Except.noConfusion hcon
    · rw [if_neg hc]
      intro hcon
      exact Except.noConfusion hcon

/-- The binary search of `Add` and of `GetSequenceNumber` ends within its fuel: it never
reports `Fault.fuel`. -/
theorem search_fuel (key : Nat → Except Fault Nat) (x n : Nat)
    (hkey : ∀ j, key j ≠ .error Fault.fuel) :
    search key x n ≠ .error Fault.fuel :=
  searchLoop_fuel key x hkey _ 0 0 n (by omega) (by omega)

theorem nodeKey_ne_fuel (t : ArtNetPollTable) (j : Nat) :
    ArtNetPollTable.nodeKey t j ≠ .error Fault.fuel := by
  unfold ArtNetPollTable.nodeKey readAt
  cases t.m_pPollTable[j]? <;> simp

theorem universeKey_ne_fuel (s : SequenceRegistry) (j : Nat) :
    E131Controller.universeKey s j ≠ .error Fault.fuel := by
  unfold E131Controller.universeKey readAt
  cases s.s_SequenceNumbers[j]? <;> simp

end RpiDmx512

/-! ## The sequence registry: calls that stay inside the array, and the full registry -/

namespace RpiDmx512

/-- The binary search ends without a fault when every slot up to index `n` can be read. -/
theorem searchLoop_ok (key : Nat → Except Fault Nat) (x n : Nat)
    (hkey : ∀ j, j ≤ n → ∃ v, key j = .ok v) :
    ∀ (fuel : Nat) (nLow nMid nHigh : Int), 0 ≤ nLow → nHigh ≤ n → 0 < fuel →
      nHigh - nLow + 1 < fuel → ∃ res, searchLoop key x fuel nLow nMid nHigh = .ok res := by
  intro fuel
  induction fuel with
  | zero => intro nLow nMid nHigh _ _ h0 _; omega
  | succ fuel ih =>
    intro nLow nMid nHigh h0 hn _ h
    unfold searchLoop
    by_cases hc : nLow ≤ nHigh
    · rw [if_pos hc]
      simp only
      obtain ⟨v, hv⟩ := hkey (nLow + (nHigh - nLow) / 2).toNat (by omega)
      rw [hv]
      simp only
      by_cases h1 : v < x
      · rw [if_pos h1]
        exact ih _ _ _ (by omega) hn (by omega) (by omega)
      · rw [if_neg h1]
        by_cases h2 : v > x
        · rw [if_pos h2]
          exact ih _ _ _ h0 (by omega) (by omega) (by omega)
        · rw [if_neg h2]
          exact ⟨_, rfl⟩
    · rw [if_neg hc]
      exact ⟨_, rfl⟩

theorem search_ok (key : Nat → Except Fault Nat) (x n : Nat)
    (hkey : ∀ j, j ≤ n → ∃ v, key j = .ok v) : ∃ res, search key x n = .ok res :=
  searchLoop_ok key x n hkey _ 0 0 n (le_refl _) (le_refl _) (by omega) (by omega)

/-- A fault of the binary search is the fault of one of its reads, at an index up to `n`. -/
theorem searchLoop_error (key : Nat → Except Fault Nat) (x n : Nat) (e : Fault) :
    ∀ (fuel : Nat) (nLow nMid nHigh : Int), 0 ≤ nLow → nHigh ≤ n → 0 < fuel →
      nHigh - nLow + 1 < fuel → searchLoop key x fuel nLow nMid nHigh = .error e →
      ∃ j, j ≤ n ∧ key j = .error e := by
  intro fuel
  induction fuel with
  | zero => intro nLow nMid nHigh _ _ h0 _ _; omega
  | succ fuel ih =>
    intro nLow nMid nHigh h0 hn _ h herr
    unfold searchLoop at herr
    by_cases hc : nLow ≤ nHigh
    · rw [if_pos hc] at herr
      simp only at herr
      cases hk : key (nLow + (nHigh - nLow) / 2).toNat with
      | error e1 =>
        rw [hk] at herr
        simp only at herr
        have he : e1 = e := Except.error.inj herr
        rw [he] at hk
        exact ⟨_, by omega, hk⟩
      | ok v =>
        rw [hk] at herr
        simp only at herr
        by_cases h1 : v < x
        · rw [if_pos h1] at herr
          exact ih _ _ _ (by omega) hn (by omega) (by omega) herr
        · rw [if_neg h1] at herr
          by_cases h2 : v > x
          · rw [if_pos h2] at herr
            exact ih _ _ _ h0 (by omega) (by omega) (by omega) herr
          · rw [if_neg h2] at herr
            exact Except.noConfusion herr
    · rw [if_neg hc] at herr
      exact Except.noConfusion herr

theorem search_error (key : Nat → Except Fault Nat) (x n : Nat) (e : Fault)
    (h : search key x n = .error e) : ∃ j, j ≤ n ∧ key j = .error e :=
  searchLoop_error key x n e _ 0 0 n (le_refl _) (le_refl _) (by omega) (by omega) h

/-- The loop `moveRight` does nothing when no entry is at or after `nLow`. -/
theorem moveRight_none {α : Type} (f : Nat → Fault) (nLow : Int) (m : Nat) (p : List α)
    (h : (m : Int) ≤ nLow) : moveRight f nLow m p = .ok p := by
  cases m with
  | zero => rfl
  | succ i =>
    unfold moveRight
    rw [if_neg (by omega)]

/-- The loop `moveRight` on an array whose every slot is taken: its first copy writes the slot
after the array. -/
theorem moveRight_full {α : Type} (f : Nat → Fault) (nLow : Int) (m : Nat) (p : List α)
    (hm : m = p.length) (h0 : 0 ≤ nLow) (h : nLow < (m : Int)) :
    moveRight f nLow m p = .error (f m) := by
  cases m with
  | zero => omega
  | succ i =>
    unfold moveRight
    rw [if_pos (by omega), readAt_of_lt f (by omega : i < p.length)]
    simp only
    rw [writeAt_of_le f _ (by omega)]

namespace E131Controller

theorem universeKey_ok (s : SequenceRegistry) (j : Nat) (h : j < s.s_SequenceNumbers.length) :
    ∃ v, universeKey s j = .ok v := by
  unfold universeKey
  rw [readAt_of_lt _ h]
  exact ⟨_, rfl⟩

/-- With room for one more universe, `GetSequenceNumber` stays inside the array. -/
theorem GetSequenceNumber_ok (s : SequenceRegistry) (u : Nat) (hinv : RegistryInv s)
    (hroom : s.nActiveUniverses < s.s_SequenceNumbers.length) :
    ∃ r, GetSequenceNumber s u = .ok r := by
  obtain ⟨res, hs⟩ := search_ok (universeKey s) u s.nActiveUniverses
    (fun j hj => universeKey_ok s j (by omega))
  have hpost := search_sound (universeKey s) (universeAt s) u s.nActiveUniverses
    (universeKey_eq s) hinv.1 (hinv.2 _ (le_refl _)) res hs
  unfold GetSequenceNumber
  rw [hs]
  cases res with
  | found nMid =>
    obtain ⟨_, hidx⟩ := hpost
    have hlt : nMid < s.s_SequenceNumbers.length := by omega
    simp only [bind, Except.bind, pure, Except.pure]
    rw [readAt_of_lt _ hlt]
    simp only
    rw [writeAt_of_lt _ _ hlt]
    exact ⟨_, rfl⟩
  | notFound nLow nMid nHigh =>
    obtain ⟨h0, hlo, hhi, _, _, hmid⟩ := hpost
    simp only
    by_cases hc : (s.nActiveUniverses : Int) ≠ nHigh
    · rw [if_pos hc]
      obtain ⟨p, hp⟩ := moveRight_ok Fault.sequenceNumbers nLow s.nActiveUniverses
        s.s_SequenceNumbers hroom
      obtain ⟨hlen, _⟩ := moveRight_spec _ nLow h0 _ _ _ hp
      have hlt : nLow.toNat < p.length := by omega
      simp only [bind, Except.bind, pure, Except.pure]
      rw [hp]
      simp only
      rw [readAt_of_lt _ hlt]
      simp only
      rw [writeAt_of_lt _ _ hlt]
      exact ⟨_, rfl⟩
    · rw [if_neg hc]
      have hm := hmid (by omega)
      have hlt : nMid.toNat < s.s_SequenceNumbers.length := by omega
      simp only [bind, Except.bind, pure, Except.pure]
      rw [readAt_of_lt _ hlt]
      simp only
      rw [writeAt_of_lt _ _ hlt]
      exact ⟨_, rfl⟩

/-- A call of `GetSequenceNumber` keeps the size of the array and registers at most one
universe. -/
theorem GetSequenceNumber_count (s s' : SequenceRegistry) (u seq ip : Nat)
    (hinv : RegistryInv s) (h : GetSequenceNumber s u = .ok (s', seq, ip)) :
    s'.s_SequenceNumbers.length = s.s_SequenceNumbers.length ∧
    s'.nActiveUniverses ≤ s.nActiveUniverses + 1 := by
  rcases GetSequenceNumber_cases s s' u seq ip hinv h with
    ⟨i, e, _, _, _, _, _, hs'⟩ | ⟨_, _, k, hk⟩
  · rw [hs']
    simp only [List.length_set]
    exact ⟨trivial, Nat.le_succ _⟩
  · obtain ⟨_, hn', hlen, _⟩ := hk
    exact ⟨hlen, by omega⟩

/-- A run of `GetSequenceNumber` calls stays inside the array when the array has a free slot for
each call. -/
theorem getSequenceNumbers_ok (us : List Nat) :
    ∀ s : SequenceRegistry, RegistryInv s →
      s.nActiveUniverses + us.length ≤ s.s_SequenceNumbers.length →
      ∃ s', getSequenceNumbers s us = .ok s' := by
  induction us with
  | nil => intro s _ _; exact ⟨s, rfl⟩
  | cons u us ih =>
    intro s hinv hroom
    simp only [List.length_cons] at hroom
    obtain ⟨⟨s1, seq, ip⟩, hg⟩ := GetSequenceNumber_ok s u hinv (by omega)
    obtain ⟨hlen, hn⟩ := GetSequenceNumber_count s s1 u seq ip hinv hg
    obtain ⟨s', hs'⟩ := ih s1 (GetSequenceNumber_inv s s1 u seq ip hinv hg) (by omega)
    refine ⟨s', ?_⟩
    unfold getSequenceNumbers
    rw [hg]
    exact hs'

end E131Controller

end RpiDmx512
namespace RpiDmx512

namespace E131Controller

/-- C7. Every sequence of at most 512 `GetSequenceNumber` calls on a fresh controller stays
inside the 512-entry array.  After every sequence of `GetSequenceNumber` calls that does, the
active entries of the sequence registry are strictly ascending by universe number; a further
call stays inside the array while fewer than 512 universes are active, leaves the active
entries strictly ascending, and, when it registers a universe, puts it at some index `k`,
leaves the entries before `k` as they are and moves each later active entry, with its universe,
sequence number and multicast IP, one slot to the right. -/
theorem C7_registry_sorted_and_insert_shifts (us : List Nat) :
    (us.length ≤ 512 → ∃ s, getSequenceNumbers initRegistry us = .ok s) ∧
    ∀ s : SequenceRegistry, getSequenceNumbers initRegistry us = .ok s →
      List.Pairwise (fun a b => a < b) (activeUniverses s) ∧
      ∀ u : Nat,
        (s.nActiveUniverses < 512 → ∃ r, GetSequenceNumber s u = .ok r) ∧
        ∀ (s' : SequenceRegistry) (seq ip : Nat), GetSequenceNumber s u = .ok (s', seq, ip) →
          List.Pairwise (fun a b => a < b) (activeUniverses s') ∧
          (s'.nActiveUniverses ≠ s.nActiveUniverses →
            ∃ k, k ≤ s.nActiveUniverses ∧ s'.nActiveUniverses = s.nActiveUniverses + 1 ∧
              (∀ j, j < k → s'.s_SequenceNumbers[j]? = s.s_SequenceNumbers[j]?) ∧
              (∀ j, k ≤ j → j < s.nActiveUniverses →
                s'.s_SequenceNumbers[j + 1]? = s.s_SequenceNumbers[j]?)) := by
  have hlen0 : initRegistry.s_SequenceNumbers.length = 512 := List.length_replicate _ _
  refine ⟨fun hus => getSequenceNumbers_ok us initRegistry initRegistry_inv ?_, ?_⟩
  · rw [hlen0]
    have h0 : initRegistry.nActiveUniverses = 0 := rfl
    omega
  intro s h
  obtain ⟨hinv, hlen, _⟩ := reached_registry us s h
  refine ⟨pairwise_take_map _ _ _ (universeAt s) (universeAt_eq s) hinv.1, ?_⟩
  intro u
  refine ⟨fun hroom => GetSequenceNumber_ok s u hinv (by omega), ?_⟩
  intro s' seq ip hg
  have hinv' := GetSequenceNumber_inv s s' u seq ip hinv hg
  refine ⟨pairwise_take_map _ _ _ (universeAt s') (universeAt_eq s') hinv'.1, ?_⟩
  intro hne
  rcases GetSequenceNumber_cases s s' u seq ip hinv hg with
    ⟨i, e, _, _, _, _, _, hs'⟩ | ⟨_, _, k, hk⟩
  · exact absurd (by rw [hs']) hne
  · obtain ⟨hk1, hn, _, h1, _, h3, _, _, _⟩ := hk
    exact ⟨k, hk1, hn, h1, fun j hj1 hj2 => h3 (j + 1) (by omega) (by omega)⟩

set_option maxRecDepth 1000000 in
/-- Witness of C7: the run 5, 3, 5, 7 on a fresh controller. -/
theorem C7_registry_sorted_and_insert_shifts_witness :
    getSequenceNumbers initRegistry [5, 3, 5, 7] = .ok sampleRegistry ∧
    List.Pairwise (fun a b => a < b) (activeUniverses sampleRegistry) ∧
    ∃ s, getSequenceNumbers initRegistry [5, 3, 5, 7] = .ok s :=
  ⟨by decide,
   ((C7_registry_sorted_and_insert_shifts [5, 3, 5, 7]).2 sampleRegistry (by decide)).1,
   (C7_registry_sorted_and_insert_shifts [5, 3, 5, 7]).1 (by decide)⟩

end E131Controller

end RpiDmx512
namespace RpiDmx512

namespace E131Controller

theorem registry_eq (a b : SequenceRegistry)
    (h1 : a.s_SequenceNumbers = b.s_SequenceNumbers)
    (h2 : a.nActiveUniverses = b.nActiveUniverses) : a = b := by
  cases a
  cases b
  simp only at h1 h2
  rw [h1, h2]

theorem ascendingRegistry_getElem? (k j : Nat) :
    (ascendingRegistry k).s_SequenceNumbers[j]?
      = if j < 512 then
          some (if j < k then ⟨j + 1, 0, UniverseToMulticastIp (j + 1)⟩ else ⟨0, 0, 0⟩)
        else none := by
  unfold ascendingRegistry
  simp only [List.getElem?_map, List.getElem?_range]
  by_cases hj : j < 512
  · rw [List.getElem?_range hj, if_pos hj]
    rfl
  · rw [if_neg hj, List.getElem?_eq_none (by simp; omega)]
    rfl

theorem ascendingRegistry_length (k : Nat) :
    (ascendingRegistry k).s_SequenceNumbers.length = 512 := by
  simp [ascendingRegistry]

theorem universeAt_ascendingRegistry (k j : Nat) (hk : k ≤ 512) :
    universeAt (ascendingRegistry k) j = if j < k then j + 1 else 0 := by
  unfold universeAt
  rw [ascendingRegistry_getElem?]
  by_cases hj : j < 512
  · rw [if_pos hj]
    by_cases hjk : j < k
    · rw [if_pos hjk, if_pos hjk]
    · rw [if_neg hjk, if_neg hjk]
  · rw [if_neg hj, if_neg (by omega)]

theorem ascendingRegistry_inv (k : Nat) (hk : k ≤ 512) : RegistryInv (ascendingRegistry k) := by
  constructor
  · intro i j hij hj
    have hj' : j < k := hj
    rw [universeAt_ascendingRegistry k i hk, universeAt_ascendingRegistry k j hk,
      if_pos (by omega), if_pos hj']
    omega
  · intro j hj
    have hj' : k ≤ j := hj
    rw [universeAt_ascendingRegistry k j hk, if_neg (by omega)]

theorem ascendingRegistry_set (k : Nat) (hk : k < 512) :
    (ascendingRegistry k).s_SequenceNumbers.set k ⟨k + 1, 0, UniverseToMulticastIp (k + 1)⟩
      = (ascendingRegistry (k + 1)).s_SequenceNumbers := by
  apply List.ext_getElem?
  intro j
  rw [ascendingRegistry_getElem?]
  by_cases hj : j = k
  · subst hj
    rw [List.getElem?_set_self (by rw [ascendingRegistry_length]; exact hk), if_pos hk,
      if_pos (by omega)]
  · rw [List.getElem?_set_ne (fun h => hj h.symm), ascendingRegistry_getElem?]
    by_cases hj2 : j < 512
    · rw [if_pos hj2, if_pos hj2]
      by_cases hjk : j < k
      · rw [if_pos hjk, if_pos (by omega)]
      · rw [if_neg hjk, if_neg (by omega)]
    · rw [if_neg hj2, if_neg hj2]

set_option maxRecDepth 100000 in
/-- On the registry that holds the universes 1 to `k`, with a free slot, a call for universe
`k + 1` returns sequence number 0 and gives the registry that holds the universes 1 to
`k + 1`. -/
theorem GetSequenceNumber_ascendingRegistry (k : Nat) (hk : k < 512) :
    GetSequenceNumber (ascendingRegistry k) (k + 1)
      = .ok (ascendingRegistry (k + 1), 0, UniverseToMulticastIp (k + 1)) := by
  have hinv := ascendingRegistry_inv k (by omega)
  have hn : (ascendingRegistry k).nActiveUniverses = k := rfl
  obtain ⟨res, hs⟩ := search_ok (universeKey (ascendingRegistry k)) (k + 1) k
    (fun j hj => universeKey_ok _ j (by rw [ascendingRegistry_length]; omega))
  have hpost := search_sound (universeKey (ascendingRegistry k))
    (universeAt (ascendingRegistry k)) (k + 1) k
    (universeKey_eq _) hinv.1 (hinv.2 _ (le_refl _)) res hs
  have hslot : (ascendingRegistry k).s_SequenceNumbers[k]? = some ⟨0, 0, 0⟩ := by
    rw [ascendingRegistry_getElem?, if_pos hk, if_neg (by omega)]
  unfold GetSequenceNumber
  rw [hn, hs]
  cases res with
  | found i =>
    obtain ⟨hv, hidx⟩ := hpost
    rw [universeAt_ascendingRegistry k i (by omega)] at hv
    by_cases hik : i < k
    · rw [if_pos hik] at hv
      omega
    · rw [if_neg hik] at hv
      omega
  | notFound nLow nMid nHigh =>
    obtain ⟨h0, hlo, hhi, _, hgt, hmid⟩ := hpost
    have hlow : (k : Int) ≤ nLow := by
      by_contra hcon
      have hlt : nLow.toNat < k := by omega
      have := hgt nLow.toNat (by omega) hlt
      rw [universeAt_ascendingRegistry k _ (by omega), if_pos hlt] at this
      omega
    simp only
    by_cases hc : (k : Int) ≠ nHigh
    · rw [if_pos hc]
      have hnl : nLow.toNat = k := by omega
      simp only [bind, Except.bind, pure, Except.pure]
      rw [moveRight_none _ _ _ _ hlow]
      simp only
      rw [hnl, readAt_eq_ok.mpr hslot]
      simp only
      rw [writeAt_of_lt _ _ (by rw [ascendingRegistry_length]; exact hk),
        ascendingRegistry_set k hk]
      have h1 : ({ s_SequenceNumbers := (ascendingRegistry (k + 1)).s_SequenceNumbers
                   nActiveUniverses := k + 1 } : SequenceRegistry) = ascendingRegistry (k + 1) :=
        registry_eq _ _ (Eq.refl _) (Eq.refl _)
      simp only
      rw [h1]
    · rw [if_neg hc]
      have hm := hmid (by omega)
      have hnm : nMid.toNat = k := by omega
      simp only [bind, Except.bind, pure, Except.pure]
      rw [hnm, readAt_eq_ok.mpr hslot]
      simp only
      rw [writeAt_of_lt _ _ (by rw [ascendingRegistry_length]; exact hk),
        ascendingRegistry_set k hk]
      have h1 : ({ s_SequenceNumbers := (ascendingRegistry (k + 1)).s_SequenceNumbers
                   nActiveUniverses := k + 1 } : SequenceRegistry) = ascendingRegistry (k + 1) :=
        registry_eq _ _ (Eq.refl _) (Eq.refl _)
      simp only
      rw [h1]

theorem getSequenceNumbers_ascendingRegistry (m : Nat) :
    ∀ k, k + m ≤ 512 →
      getSequenceNumbers (ascendingRegistry k) (List.range' (k + 1) m)
        = .ok (ascendingRegistry (k + m)) := by
  induction m with
  | zero => intro k _; rfl
  | succ m ih =>
    intro k hk
    rw [List.range'_succ]
    unfold getSequenceNumbers
    rw [GetSequenceNumber_ascendingRegistry k (by omega)]
    simp only
    rw [ih (k + 1) (by omega)]
    have : k + 1 + m = k + (m + 1) := by omega
    rw [this]

theorem initRegistry_eq : initRegistry = ascendingRegistry 0 := by
  refine registry_eq _ _ ?_ rfl
  unfold initRegistry ascendingRegistry
  simp only
  apply List.ext_getElem?
  intro j
  rw [List.getElem?_replicate, List.getElem?_map]
  by_cases hj : j < 512
  · rw [if_pos hj, List.getElem?_range hj]
    rfl
  · rw [if_neg hj, List.getElem?_eq_none (by simp; omega)]
    rfl

theorem fullRegistry_eq : fullRegistry = ascendingRegistry 512 := by
  refine registry_eq _ _ ?_ rfl
  unfold fullRegistry ascendingRegistry
  simp only
  apply List.map_congr_left
  intro j hj
  rw [if_pos (List.mem_range.mp hj)]

/-- The full registry `fullRegistry` is the state after `GetSequenceNumber` was called for the
universes 1, 2, ..., 512 on a fresh controller. -/
theorem fullRegistry_reached :
    getSequenceNumbers initRegistry (List.range' 1 512) = .ok fullRegistry := by
  rw [initRegistry_eq, fullRegistry_eq]
  exact getSequenceNumbers_ascendingRegistry 512 0 (by omega)

end E131Controller

end RpiDmx512
namespace RpiDmx512

namespace E131Controller

theorem mem_activeUniverses (s : SequenceRegistry) (i : Nat) (hi : i < s.nActiveUniverses)
    (hlen : s.nActiveUniverses ≤ s.s_SequenceNumbers.length) :
    universeAt s i ∈ activeUniverses s := by
  have hlt : i < s.s_SequenceNumbers.length := by omega
  rw [List.mem_iff_getElem?]
  refine ⟨i, ?_⟩
  unfold activeUniverses universeAt
  rw [ArtNetPollTable.getElem?_take_map, if_pos hi, List.getElem?_eq_getElem hlt]
  rfl

theorem universeKey_error (s : SequenceRegistry) (j : Nat) (e : Fault)
    (h : universeKey s j = .error e) :
    e = Fault.sequenceNumbers j ∧ s.s_SequenceNumbers.length ≤ j := by
  by_cases hj : j < s.s_SequenceNumbers.length
  · obtain ⟨v, hv⟩ := universeKey_ok s j hj
    rw [hv] at h
    exact Except.noConfusion h
  · unfold universeKey at h
    rw [readAt_of_le _ (by omega)] at h
    exact ⟨(Except.error.inj h).symm, by omega⟩

/-- C8, the code on every full registry.  Let the registry be reached by `GetSequenceNumber`
calls on a fresh controller and hold 512 active universes.  Then a call for a universe that is
not registered accesses `s_SequenceNumbers[512]`, the slot after the 512-entry array: the binary
search reads it (its range ends at index `nActiveUniverses`), or the `Move` loop starts with the
copy `p64[512] = p64[511]`, or the new entry is written there.  The function has no capacity
test: the call is not turned down. -/
theorem C8_full_registry_out_of_bounds (us : List Nat) (s : SequenceRegistry) (u : Nat)
    (hreach : getSequenceNumbers initRegistry us = .ok s)
    (hfull : s.nActiveUniverses = 512) (hnew : u ∉ activeUniverses s) :
    GetSequenceNumber s u = .error (Fault.sequenceNumbers 512) := by
  obtain ⟨hinv, hlen, _⟩ := reached_registry us s hreach
  unfold GetSequenceNumber
  cases hs : search (universeKey s) u s.nActiveUniverses with
  | error e =>
    obtain ⟨j, hj, hk⟩ := search_error _ _ _ _ hs
    obtain ⟨he, hlj⟩ := universeKey_error s j e hk
    have hj512 : j = 512 := by omega
    rw [he, hj512]
  | ok res =>
    have hpost := search_sound (universeKey s) (universeAt s) u s.nActiveUniverses
      (universeKey_eq s) hinv.1 (hinv.2 _ (le_refl _)) res hs
    cases res with
    | found i =>
      obtain ⟨hv, hidx⟩ := hpost
      have hi : i < s.nActiveUniverses := by omega
      have hmem := mem_activeUniverses s i hi (by omega)
      rw [hv] at hmem
      exact absurd hmem hnew
    | notFound nLow nMid nHigh =>
      obtain ⟨h0, hlo, hhi, _, _, hmid⟩ := hpost
      simp only
      by_cases hc : (s.nActiveUniverses : Int) ≠ nHigh
      · rw [if_pos hc]
        simp only [bind, Except.bind, pure, Except.pure]
        by_cases hlow : nLow < (s.nActiveUniverses : Int)
        · rw [moveRight_full _ _ _ _ (by omega) h0 hlow, hfull]
        · rw [moveRight_none _ _ _ _ (by omega)]
          simp only
          have hnl : nLow.toNat = 512 := by omega
          rw [hnl, readAt_of_le _ (by omega)]
      · rw [if_neg hc]
        have hm := hmid (by omega)
        have hnm : nMid.toNat = 512 := by omega
        simp only [bind, Except.bind, pure, Except.pure]
        rw [hnm, readAt_of_le _ (by omega)]

set_option maxRecDepth 1000000 in
/-- Witness of C8: after the calls for the universes 1, 2, ..., 512 the registry is full, and
the call for universe 0 ends in the access to `s_SequenceNumbers[512]`. -/
theorem C8_full_registry_out_of_bounds_witness :
    getSequenceNumbers initRegistry (List.range' 1 512) = .ok fullRegistry ∧
    fullRegistry.nActiveUniverses = 512 ∧
    GetSequenceNumber fullRegistry 0 = .error (Fault.sequenceNumbers 512) :=
  ⟨fullRegistry_reached, rfl,
   C8_full_registry_out_of_bounds (List.range' 1 512) fullRegistry 0 fullRegistry_reached rfl
     (by decide)⟩

end E131Controller

end RpiDmx512

/-! ## `Stop` gates `Run` only (C21) -/

namespace RpiDmx512

namespace E131Controller

theorem map_Stop_ok (s : E131Controller) :
    (Except.ok s : Except Fault E131Controller).map Stop = .ok (Stop s) := rfl

theorem map_Stop_error (e : Fault) :
    (Except.error e : Except Fault E131Controller).map Stop = .error e := rfl

/-- The loop of `HandleBlackout` does not read the running flag. -/
theorem blackoutLoop_Stop (k : E131Constants) :
    ∀ (fuel nIndex : Nat) (s1 s2 : E131Controller), s1 = Stop s2 →
      blackoutLoop k fuel nIndex s1 = (blackoutLoop k fuel nIndex s2).map Stop := by
  intro fuel
  induction fuel with
  | zero => intro nIndex s1 s2 _; rfl
  | succ fuel ih =>
    intro nIndex s1 s2 h
    subst h
    unfold blackoutLoop
    have hreg : (Stop s2).registry = s2.registry := rfl
    rw [hreg]
    by_cases hc : nIndex < s2.registry.nActiveUniverses
    · rw [if_pos hc, if_pos hc]
      cases hr : readAt Fault.sequenceNumbers s2.registry.s_SequenceNumbers nIndex with
      | error e => rfl
      | ok entry =>
        simp only
        cases hg : GetSequenceNumber s2.registry entry.nUniverse with
        | error e => rfl
        | ok r =>
          obtain ⟨registry, nSequenceNumber, nIp⟩ := r
          simp only
          refine ih (nIndex + 1) _ _ ?_
          rfl
    · rw [if_neg hc, if_neg hc]
      rfl

set_option maxRecDepth 1000000 in
/-- C21, counterexample to the claim as stated.  On the stopped controller `Stop
sampleController` (nothing sent so far) `HandleSync` sends the synchronization packet,
`HandleDmxOut` sends a data packet and `HandleBlackout` sends three data packets and the
synchronization packet. -/
theorem C21_counterexample_handlers_send_after_stop :
    (Stop sampleController).bIsRunning = false ∧ (Stop sampleController).sent = [] ∧
    (HandleSync sampleE131Constants (Stop sampleController)).sent
      = [syncDatagram sampleE131Constants sampleController] ∧
    (HandleDmxOut sampleE131Constants (Stop sampleController) 5 [10, 20, 30] 3).map
      (fun s => s.sent.length) = .ok 1 ∧
    (HandleBlackout sampleE131Constants (Stop sampleController)).map
      (fun s => s.sent.length) = .ok 4 := by
  decide

/-- C21, as amended.  `Stop` clears the running flag and sends nothing.  On a stopped
controller `Run` returns the state as it is, at every clock value: no discovery packet is sent.
`HandleSync`, `HandleDmxOut` and `HandleBlackout` do not read the running flag: on the stopped
controller they do what they do on the running one (the same datagrams are handed to the
transport) and leave the controller stopped. -/
theorem C21_stop_gates_run_only (k : E131Constants) (s : E131Controller) :
    (Stop s).bIsRunning = false ∧ (Stop s).sent = s.sent ∧
    (∀ nMillis, Run k (Stop s) nMillis = .ok (Stop s)) ∧
    HandleSync k (Stop s) = Stop (HandleSync k s) ∧
    (∀ (nUniverse : Nat) (pDmxData : List Nat) (nLength : Nat),
      HandleDmxOut k (Stop s) nUniverse pDmxData nLength
        = (HandleDmxOut k s nUniverse pDmxData nLength).map Stop) ∧
    HandleBlackout k (Stop s) = (HandleBlackout k s).map Stop := by
  refine ⟨rfl, rfl, fun nMillis => rfl, ?_, ?_, ?_⟩
  · unfold HandleSync
    have h1 : (Stop s).SynchronizationPacket = s.SynchronizationPacket := rfl
    rw [h1]
    by_cases hc : s.SynchronizationPacket.nUniverseNumber ≠ 0
    · rw [if_pos hc, if_pos hc]
      rfl
    · rw [if_neg hc, if_neg hc]
  · intro nUniverse pDmxData nLength
    unfold HandleDmxOut
    have h1 : (Stop s).registry = s.registry := rfl
    have h2 : (Stop s).m_pE131DataPacket = s.m_pE131DataPacket := rfl
    simp only [bind, Except.bind, pure, Except.pure, h1, h2]
    cases hg : GetSequenceNumber s.registry nUniverse with
    | error e => rfl
    | ok r =>
      obtain ⟨registry, nSequenceNumber, nIp⟩ := r
      simp only
      cases hm : memcpy Fault.propertyValues Fault.dmxData
          s.m_pE131DataPacket.DMPLayerPropertyValues 1 pDmxData nLength with
      | error e => rfl
      | ok values => rfl
  · unfold HandleBlackout
    have h2 : (Stop s).m_pE131DataPacket = s.m_pE131DataPacket := rfl
    have h1 : (Stop s).registry = s.registry := rfl
    simp only [bind, Except.bind, pure, Except.pure, h1, h2]
    cases hm : memsetZero Fault.propertyValues s.m_pE131DataPacket.DMPLayerPropertyValues 1 512 with
    | error e => rfl
    | ok values =>
      simp only
      rw [blackoutLoop_Stop k _ _ _
        { s with m_pE131DataPacket :=
            { s.m_pE131DataPacket with
              RootLayerFlagsLength := flagsLengthCast (k.DATA_ROOT_LAYER_LENGTH 513)
              FrameLayerFLagsLength := flagsLengthCast (k.DATA_FRAME_LAYER_LENGTH 513)
              DMPLayerFlagsLength := flagsLengthCast (k.DATA_LAYER_LENGTH 513)
              DMPLayerPropertyValueCount := bswap16 513
              DMPLayerPropertyValues := values } }]
      swap
      · rfl
      cases hb : blackoutLoop k (s.registry.s_SequenceNumbers.length + 2) 0
          { s with m_pE131DataPacket :=
              { s.m_pE131DataPacket with
                RootLayerFlagsLength := flagsLengthCast (k.DATA_ROOT_LAYER_LENGTH 513)
                FrameLayerFLagsLength := flagsLengthCast (k.DATA_FRAME_LAYER_LENGTH 513)
                DMPLayerFlagsLength := flagsLengthCast (k.DATA_LAYER_LENGTH 513)
                DMPLayerPropertyValueCount := bswap16 513
                DMPLayerPropertyValues := values } } with
      | error e => rfl
      | ok s1 =>
        simp only [map_Stop_ok]
        have h3 : (Stop s1).SynchronizationPacket = s1.SynchronizationPacket := rfl
        rw [h3]
        by_cases hc : s1.SynchronizationPacket.nUniverseNumber ≠ 0
        · rw [if_pos hc, if_pos hc]
          simp only [Except.map]
          unfold HandleSync
          rw [h3, if_pos hc, if_pos hc]
          rfl
        · rw [if_neg hc, if_neg hc]
          rfl

end E131Controller

end RpiDmx512

/-! ## The cursor of `Clean` stays inside the table (C27) -/

namespace RpiDmx512

namespace ArtNetPollTable

theorem init_cursor (c : Constants) (hu : 0 < c.ARTNET_POLL_TABLE_SIZE_NODE_UNIVERSES) :
    CursorInv c (init c) :=
  ⟨Or.inr ⟨rfl, rfl⟩, hu⟩

theorem CursorInv_of_grow {c : Constants} {t t' : ArtNetPollTable} (h : CursorInv c t)
    (hc : t'.m_tTableClean = t.m_tTableClean)
    (hn : t'.m_nPollTableEntries = t.m_nPollTableEntries ∨
      t'.m_nPollTableEntries = t.m_nPollTableEntries + 1) : CursorInv c t' := by
  unfold CursorInv at h ⊢
  rw [hc]
  refine ⟨?_, h.2⟩
  rcases h.1 with h1 | ⟨h1, h2⟩
  · left; omega
  · rcases hn with hn | hn
    · right; exact ⟨by omega, h2⟩
    · left; omega

theorem Add_cursor (c : Constants) (t t' : ArtNetPollTable) (r : TArtPollReply) (nMillis : Nat)
    (hinv : TableInv t) (hcur : CursorInv c t) (h : Add c t r nMillis = .ok t') :
    CursorInv c t' := by
  rcases Add_cases c t t' r nMillis hinv h with ⟨i, _, _, hp⟩ | ⟨_, ht, _⟩ | ⟨_, t1, i, hins, hp⟩
  · obtain ⟨hn, hc, _⟩ := addPorts_nodes c r nMillis i _ _ _ _ hp
    exact CursorInv_of_grow hcur hc (Or.inl hn)
  · rw [ht]; exact hcur
  · obtain ⟨hn, hc, _⟩ := addPorts_nodes c r nMillis i _ _ _ _ hp
    obtain ⟨_, hn1, _, _, _, _, _, _, _, _, _, _, _, hc1⟩ := hins
    exact CursorInv_of_grow hcur (hc.trans hc1) (Or.inr (hn.trans hn1))

theorem removeNode_count (c : Constants) (t t' : ArtNetPollTable) (idx : Nat)
    (h : removeNode c t idx = .ok t') :
    t'.m_nPollTableEntries = t.m_nPollTableEntries - 1 ∧ t'.m_tTableClean = t.m_tTableClean := by
  unfold removeNode at h
  simp only [bind_eq_ok, pure_eq_ok, Except.ok.injEq] at h
  obtain ⟨⟨p, i'⟩, _, p2, _, h⟩ := h
  rw [← h]
  exact ⟨rfl, rfl⟩

theorem Clean_cursor (c : Constants) (t t' : ArtNetPollTable) (nMillis : Nat)
    (hcur : CursorInv c t) (h : Clean c t nMillis = .ok t') : CursorInv c t' := by
  unfold Clean at h
  by_cases hz : t.m_nPollTableEntries = 0
  · rw [if_pos hz] at h
    simp only [Except.ok.injEq] at h
    rw [← h]; exact hcur
  · rw [if_neg hz] at h
    simp only [bind_eq_ok, pure_eq_ok] at h
    obtain ⟨⟨t1, b⟩, hslot, h⟩ := h
    obtain ⟨hn1, hc1, _⟩ := cleanSlot_nodes c t t1 nMillis b hslot
    obtain ⟨hidx, huidx⟩ := hcur
    by_cases hu : t.m_tTableClean.nUniverseIndex + 1 = c.ARTNET_POLL_TABLE_SIZE_NODE_UNIVERSES
    · rw [if_pos hu] at h
      simp only at h
      have hend : ∀ t2 : ArtNetPollTable,
          CursorInv c { t2 with m_tTableClean :=
            ⟨if t.m_tTableClean.nTableIndex + 1 ≥ t2.m_nPollTableEntries then 0
              else t.m_tTableClean.nTableIndex + 1, 0, true⟩ } := by
        intro t2
        unfold CursorInv
        simp only
        refine ⟨?_, by omega⟩
        by_cases hge : t.m_tTableClean.nTableIndex + 1 ≥ t2.m_nPollTableEntries
        · rw [if_pos hge]
          omega
        · rw [if_neg hge]
          left; omega
      by_cases hb : b = true
      · rw [if_pos hb] at h
        simp only [bind_eq_ok, pure_eq_ok, Except.ok.injEq] at h
        obtain ⟨t2, _, h⟩ := h
        rw [← h]
        exact hend t2
      · rw [if_neg hb] at h
        simp only [bind_eq_ok, pure_eq_ok, Except.ok.injEq] at h
        obtain ⟨t2, _, h⟩ := h
        rw [← h]
        exact hend t2
    · rw [if_neg hu] at h
      simp only [Except.ok.injEq] at h
      rw [← h]
      unfold CursorInv
      simp only
      rw [hn1]
      refine ⟨?_, by omega⟩
      rcases hidx with h1 | ⟨h1, _⟩
      · exact Or.inl h1
      · exact absurd h1 hz

theorem run_cursor (c : Constants) (ops : List Op) :
    ∀ (t t' : ArtNetPollTable), TableInv t → CursorInv c t → run c t ops = .ok t' →
      CursorInv c t' := by
  induction ops with
  | nil =>
    intro t t' _ hcur h
    simp only [run, Except.ok.injEq] at h
    rw [← h]; exact hcur
  | cons op ops ih =>
    intro t t' hinv hcur h
    cases op with
    | add r nMillis =>
      simp only [run] at h
      cases ha : Add c t r nMillis with
      | error e => simp [ha] at h
      | ok t1 =>
        simp only [ha] at h
        exact ih t1 t' (Add_inv c t t1 r nMillis hinv ha) (Add_cursor c t t1 r nMillis hinv hcur ha) h
    | clean nMillis =>
      simp only [run] at h
      cases ha : Clean c t nMillis with
      | error e => simp [ha] at h
      | ok t1 =>
        simp only [ha] at h
        exact ih t1 t' (Clean_inv c t t1 nMillis hinv ha) (Clean_cursor c t t1 nMillis hcur ha) h

/-- C27. After every sequence of `Add` and `Clean` calls on a fresh table (that stays inside the
arrays, with at least one universe slot per node), whenever the table is not empty the cursor
of `Clean` satisfies `nTableIndex < m_nPollTableEntries` and
`nUniverseIndex < ARTNET_POLL_TABLE_SIZE_NODE_UNIVERSES`: the two assertions at the start of
`Clean` hold. -/
theorem C27_clean_cursor_in_range (c : Constants)
    (hc : c.ARTNET_POLL_TABLE_SIZE_ENRIES < 4294967295)
    (hu : 0 < c.ARTNET_POLL_TABLE_SIZE_NODE_UNIVERSES)
    (ops : List Op) (t : ArtNetPollTable) (h : run c (init c) ops = .ok t)
    (hne : t.m_nPollTableEntries ≠ 0) :
    t.m_tTableClean.nTableIndex < t.m_nPollTableEntries ∧
    t.m_tTableClean.nUniverseIndex < c.ARTNET_POLL_TABLE_SIZE_NODE_UNIVERSES := by
  obtain ⟨h1, h2⟩ := run_cursor c ops _ _ (init_inv c hc) (init_cursor c hu) h
  refine ⟨?_, h2⟩
  rcases h1 with h1 | ⟨h1, _⟩
  · exact h1
  · exact absurd h1 hne

set_option maxRecDepth 100000 in
/-- Witness of C27: after `cursorOps` two nodes are in the table and the cursor is on the second
node, universe slot 1. -/
theorem C27_clean_cursor_in_range_witness :
    run smallConstants (init smallConstants) cursorOps = .ok cursorTable ∧
    cursorTable.m_nPollTableEntries = 2 ∧ cursorTable.m_tTableClean = ⟨1, 1, true⟩ ∧
    cursorTable.m_tTableClean.nTableIndex < cursorTable.m_nPollTableEntries ∧
    cursorTable.m_tTableClean.nUniverseIndex
      < smallConstants.ARTNET_POLL_TABLE_SIZE_NODE_UNIVERSES :=
  ⟨by decide, by decide, by decide,
    C27_clean_cursor_in_range smallConstants (by decide) (by decide) cursorOps cursorTable
      (by decide) (by decide)⟩

end ArtNetPollTable

end RpiDmx512

/-! ## The poll table and its universe registry get out of step (C23 - C26, C28) -/

namespace RpiDmx512

namespace ArtNetPollTable

set_option maxRecDepth 100000 in
/-- C23, the code at the failing input.  After `reannounceOps` the entry of node 10.0.0.1 holds
universe 1 with the timestamp 21000, but universe 1 is not registered (`GetIpAddress(1)` is
null): `Clean` took the node out of the set of universe 1 when the universe went stale, and
`Add` registers the node for a universe (`ProcessUniverse`) only when the universe is new in
the list of the node, which the stale universe is not. -/
theorem C23_reannounced_universe_not_registered :
    (run smallConstants (init smallConstants) reannounceOps).map
        (fun t => (nodesView t, registryView t, GetIpAddress t 1))
      = .ok ((1, [⟨ipv4 10 0 0 1, 2, [⟨1, 21000⟩, ⟨2, 21000⟩]⟩, ⟨0, 0, [⟨0, 0⟩, ⟨0, 0⟩]⟩]),
             [⟨2, [ipv4 10 0 0 1]⟩], .ok none) := by decide

set_option maxRecDepth 100000 in
/-- C24, the code at the failing input.  After `midSweepOps` the poll table is empty, but the
registry still lists 10.0.0.1 for universe 2.  The node announced universe 2 while `Clean` was
in the middle of its sweep over the slots of the node; the universe went into a slot the sweep
had passed, so the sweep ended with `bOffLine` still set and removed the node without
`RemoveIpAddress` for that universe. -/
theorem C24_registry_keeps_ip_of_removed_node :
    (run smallConstantsU3 (init smallConstantsU3) (midSweepOps.take 4)).map
        (fun t => (nodesView t, t.m_tTableClean, registryView t))
      = .ok ((1, [⟨ipv4 10 0 0 1, 2, [⟨1, 0⟩, ⟨2, 100001⟩, ⟨0, 0⟩]⟩,
                  ⟨0, 0, [⟨0, 0⟩, ⟨0, 0⟩, ⟨0, 0⟩]⟩]),
             ⟨0, 2, true⟩, [⟨2, [ipv4 10 0 0 1]⟩]) ∧
    (run smallConstantsU3 (init smallConstantsU3) midSweepOps).map
        (fun t => (nodesView t, t.m_tTableClean, registryView t))
      = .ok ((0, [⟨0, 0, [⟨0, 0⟩, ⟨0, 0⟩, ⟨0, 0⟩]⟩, ⟨0, 0, [⟨0, 0⟩, ⟨0, 0⟩, ⟨0, 0⟩]⟩]),
             ⟨0, 0, true⟩, [⟨2, [ipv4 10 0 0 1]⟩]) := by decide

set_option maxRecDepth 100000 in
/-- C26, the code at the failing input.  Before the last call of `refreshedOps` the entry of
node 10.0.0.1 holds universe 1 with the timestamp 100001.  The `Clean` call at 100002, one
millisecond later, removes the node: the sweep passed the slot of universe 1 before the node
refreshed it, and `bOffLine` is carried from call to call. -/
theorem C26_refreshed_node_is_evicted :
    (run smallConstants (init smallConstants) (refreshedOps.take 3)).map
        (fun t => (nodesView t, t.m_tTableClean))
      = .ok ((1, [⟨ipv4 10 0 0 1, 1, [⟨1, 100001⟩, ⟨0, 0⟩]⟩, ⟨0, 0, [⟨0, 0⟩, ⟨0, 0⟩]⟩]),
             ⟨0, 1, true⟩) ∧
    isStale smallConstants 100002 100001 = false ∧
    (run smallConstants (init smallConstants) refreshedOps).map nodesView
      = .ok (0, [⟨0, 0, [⟨0, 0⟩, ⟨0, 0⟩]⟩, ⟨0, 0, [⟨0, 0⟩, ⟨0, 0⟩]⟩]) := by decide

set_option maxRecDepth 100000 in
/-- C28, the code at the failing input.  After `sharedArrayOps` the registry holds the
universes 2 and 3, and the set of universe 2 is `[10.0.0.2, 10.0.0.2]`: the same IP twice.
Deleting universe 1 left the freed slot with the `pIpAddresses` pointer of universe 2, so
registering 10.0.0.2 for the new universe 3 wrote it over the first IP of universe 2. -/
theorem C28_shared_array_gives_duplicate_ip :
    (runRegistry (init smallConstants) (sharedArrayOps.take 3)).map registryView
      = .ok [⟨1, [ipv4 10 0 0 9]⟩, ⟨2, [ipv4 10 0 0 1, ipv4 10 0 0 2]⟩] ∧
    (runRegistry (init smallConstants) sharedArrayOps).map registryView
      = .ok [⟨2, [ipv4 10 0 0 2, ipv4 10 0 0 2]⟩, ⟨3, [ipv4 10 0 0 2]⟩] := by decide

end ArtNetPollTable

end RpiDmx512

/-! ## `RemoveIpAddress` for an IP that is not in the set (C25) -/

namespace RpiDmx512

namespace ArtNetPollTable

theorem scanUniverse_ok (tu : List TArtNetPollTableUniverses) (u : Nat) :
    ∀ (k i : Nat), i + k ≤ tu.length → ∃ r, scanUniverse tu u k i = .ok r := by
  intro k
  induction k with
  | zero => intro i _; exact ⟨i, rfl⟩
  | succ k ih =>
    intro i hlen
    unfold scanUniverse
    rw [readAt_of_lt _ (by omega : i < tu.length)]
    simp only
    by_cases hu : (tu.get ⟨i, by omega⟩).nUniverse = u
    · rw [if_pos hu]
      exact ⟨i, rfl⟩
    · rw [if_neg hu]
      exact ih (i + 1) (by omega)

/-- `RemoveIpAddress` for a universe that is not registered returns the table as it is. -/
theorem RemoveIpAddress_not_registered (t : ArtNetPollTable) (u ip : Nat)
    (hle : t.m_nTableUniversesEntries ≤ t.m_pTableUniverses.length)
    (hu : u ∉ registeredUniverses t) : RemoveIpAddress t u ip = .ok t := by
  unfold RemoveIpAddress
  by_cases hz : t.m_nTableUniversesEntries = 0
  · rw [if_pos hz]
  · rw [if_neg hz]
    obtain ⟨r, hr⟩ := scanUniverse_ok t.m_pTableUniverses u t.m_nTableUniversesEntries 0
      (by omega)
    obtain ⟨_, h2, _, h4⟩ := scanUniverse_spec _ _ _ _ _ hr
    have hrn : r = t.m_nTableUniversesEntries := by
      by_contra hne
      have hlt : r < 0 + t.m_nTableUniversesEntries := by omega
      obtain ⟨e, he, heu⟩ := h4 hlt
      exact hu ((mem_registeredUniverses t u).mpr ⟨r, e, by omega, he, heu⟩)
    simp only [bind, Except.bind, pure, Except.pure]
    rw [hr]
    simp only
    rw [if_pos hrn]

set_option maxRecDepth 100000 in
/-- C25, the code at the failing input, next to the half of the claim that holds.  For a
universe that is not registered `RemoveIpAddress` returns the table unchanged.  For an IP that
is not in the set of a registered universe it does not: in `twoIpTable` universe 1 has the set
`[10.0.0.1, 10.0.0.2]`, and after `RemoveIpAddress(1, 10.0.0.3)` the set is `[10.0.0.1]`.  The
scan over the set ends with the index at `nCount`, there is no test for that (as there is for
the universe), and the code goes on to clear that slot and to decrement `nCount`. -/
theorem C25_remove_absent_ip_drops_last_ip :
    (∀ (t : ArtNetPollTable) (u ip : Nat),
      t.m_nTableUniversesEntries ≤ t.m_pTableUniverses.length → u ∉ registeredUniverses t →
      RemoveIpAddress t u ip = .ok t) ∧
    registryView twoIpTable = [⟨1, [ipv4 10 0 0 1, ipv4 10 0 0 2]⟩] ∧
    (RemoveIpAddress twoIpTable 1 (ipv4 10 0 0 3)).map registryView
      = .ok [⟨1, [ipv4 10 0 0 1]⟩] :=
  ⟨RemoveIpAddress_not_registered, by decide, by decide⟩

end ArtNetPollTable

end RpiDmx512

/-! ## Art-Net node: the network timeout (C29) and the HTP merge (C22) -/

namespace RpiDmx512

namespace ArtNetNode

/-- C29. For every `uint32_t` value `n`, `GetNetworkTimeout()` after `SetNetworkTimeout(n)`
returns `((n * 1000) mod 2^32) / 1000`.  The product `n * 1000` is below `2^32` exactly when
`n ≤ 4294967`, and then the result is `n`; for larger `n` the result is at most 4294967, so it
is not `n`. -/
theorem C29_network_timeout_round_trip (m_State : TArtNetNodeState) (n : Nat)
    (hn : n < 4294967296) :
    GetNetworkTimeout (SetNetworkTimeout m_State n) = ((n * 1000) % 4294967296) / 1000 ∧
    (n * 1000 < 4294967296 ↔ n ≤ 4294967) ∧
    (n ≤ 4294967 → GetNetworkTimeout (SetNetworkTimeout m_State n) = n) ∧
    (4294967 < n → GetNetworkTimeout (SetNetworkTimeout m_State n) < n) := by
  have h0 : GetNetworkTimeout (SetNetworkTimeout m_State n)
      = ((n * 1000) % 4294967296) / 1000 := rfl
  refine ⟨h0, by omega, ?_, ?_⟩
  · intro hle
    rw [h0]
    omega
  · intro hlt
    rw [h0]
    omega

/-- Witness of C29: 4294967 s comes back as it is, 5000000 s comes back as 705032 s. -/
theorem C29_network_timeout_round_trip_witness :
    GetNetworkTimeout (SetNetworkTimeout ⟨0, false, false⟩ 4294967) = 4294967 ∧
    GetNetworkTimeout (SetNetworkTimeout ⟨0, false, false⟩ 5000000) = 705032 ∧
    GetNetworkTimeout (SetNetworkTimeout ⟨0, false, false⟩ 5000000) < 5000000 :=
  ⟨(C29_network_timeout_round_trip ⟨0, false, false⟩ 4294967 (by decide)).2.2.1 (by decide),
   by decide,
   (C29_network_timeout_round_trip ⟨0, false, false⟩ 5000000 (by decide)).2.2.2 (by decide)⟩

/-- C22. In HTP merge mode the data of the port after the merge is, channel by channel, the
maximum of the values of source A and source B: it has a value for channel `i` exactly where
both sources have one, and that value is the maximum of the two. -/
theorem C22_htp_merge_is_channel_maximum (port : TOutputPort)
    (hmode : port.mergeMode = TMerge.ARTNET_MERGE_HTP) :
    (IsMergedDmxDataChanged port).1.data = List.zipWith max port.dataA port.dataB ∧
    (IsMergedDmxDataChanged port).1.data.length = min port.dataA.length port.dataB.length ∧
    (∀ (i a b : Nat), port.dataA[i]? = some a → port.dataB[i]? = some b →
      (IsMergedDmxDataChanged port).1.data[i]? = some (max a b)) ∧
    (IsMergedDmxDataChanged port).1.dataA = port.dataA ∧
    (IsMergedDmxDataChanged port).1.dataB = port.dataB ∧
    ((IsMergedDmxDataChanged port).2 = true ↔
      port.data ≠ List.zipWith max port.dataA port.dataB) := by
  have hm : mergedData port = List.zipWith max port.dataA port.dataB := by
    unfold mergedData
    rw [hmode]
  have hdata : (IsMergedDmxDataChanged port).1.data = List.zipWith max port.dataA port.dataB := by
    unfold IsMergedDmxDataChanged
    by_cases hc : mergedData port ≠ port.data
    · rw [if_pos hc]
      exact hm
    · rw [if_neg hc]
      have : mergedData port = port.data := not_not.mp hc
      rw [← this, hm]
  refine ⟨hdata, ?_, ?_, ?_, ?_, ?_⟩
  · rw [hdata, List.length_zipWith]
  · intro i a b ha hb
    rw [hdata, List.getElem?_zipWith, ha, hb]
  · unfold IsMergedDmxDataChanged
    by_cases hc : mergedData port ≠ port.data
    · rw [if_pos hc]
    · rw [if_neg hc]
  · unfold IsMergedDmxDataChanged
    by_cases hc : mergedData port ≠ port.data
    · rw [if_pos hc]
    · rw [if_neg hc]
  · unfold IsMergedDmxDataChanged
    by_cases hc : mergedData port ≠ port.data
    · rw [if_pos hc]
      simp only [true_iff]
      rw [← hm]
      exact fun h => hc h.symm
    · rw [if_neg hc]
      have : mergedData port = port.data := not_not.mp hc
      simp only [Bool.false_eq_true, false_iff, ne_eq, not_not]
      rw [← hm, this]

/-- Witness of C22: the sources A = [10, 200, 0] and B = [50, 5, 255] merge to
[50, 200, 255]. -/
theorem C22_htp_merge_is_channel_maximum_witness :
    (IsMergedDmxDataChanged (htpPort [10, 200, 0] [50, 5, 255])).1.data = [50, 200, 255] :=
  (C22_htp_merge_is_channel_maximum (htpPort [10, 200, 0] [50, 5, 255]) rfl).1

end ArtNetNode

end RpiDmx512

/-! ## `WS28xxMulti::Initialize`: LED count and buffer size (C30) -/

namespace RpiDmx512

namespace WS28xxMulti

/-- C30, the code for every LED count.  `Initialize` with `0 < nLedCount` (a `uint16_t`) ends
with `m_nLedCount` clamped to 512 (type in effect SK6812W) or 680 (otherwise), as claimed, but
with `m_nBufSize` computed from the argument `nLedCount`, not from the clamped `m_nLedCount`:
the buffer size is `m_nLedCount` times the bits of one LED only while `nLedCount` is within the
maximum, and larger above it. -/
theorem C30_buffer_size_from_unclamped_count (k : WS28xxConstants) (w : WS28xxMulti)
    (tWS28xxType : TWS28XXType) (nLedCount : Nat) (h0 : 0 < nLedCount)
    (h16 : nLedCount < 65536) :
    ∃ w', Initialize k w tWS28xxType nLedCount = some w' ∧
      (w'.m_tWS28xxType = TWS28XXType.SK6812W →
        w'.m_nLedCount = min nLedCount 512 ∧ w'.m_nBufSize = nLedCount * 32 ∧
        (w'.m_nBufSize = w'.m_nLedCount * 32 ↔ nLedCount ≤ 512)) ∧
      (w'.m_tWS28xxType ≠ TWS28XXType.SK6812W →
        w'.m_nLedCount = min nLedCount 680 ∧ w'.m_nBufSize = nLedCount * 24 ∧
        (w'.m_nBufSize = w'.m_nLedCount * 24 ↔ nLedCount ≤ 680)) := by
  unfold Initialize
  rw [if_pos h0]
  simp only
  by_cases ht : (if tWS28xxType ∈ s_NotSupported then TWS28XXType.WS2812B
      else w.m_tWS28xxType) = TWS28XXType.SK6812W
  · rw [if_pos ht]
    refine ⟨_, rfl, fun _ => ?_, fun hne => absurd ht hne⟩
    simp only [LEDCOUNT_RGBW_MAX, SINGLE_RGBW]
    rw [Nat.mod_eq_of_lt (by omega)]
    by_cases hle : nLedCount ≤ 4 * 128
    · rw [if_pos hle]
      exact ⟨by omega, rfl, by omega⟩
    · rw [if_neg hle]
      exact ⟨by omega, rfl, by omega⟩
  · rw [if_neg ht]
    refine ⟨_, rfl, fun h => absurd h ht, fun _ => ?_⟩
    simp only [LEDCOUNT_RGB_MAX, SINGLE_RGB]
    rw [Nat.mod_eq_of_lt (by omega)]
    by_cases hle : nLedCount ≤ 4 * 170
    · rw [if_pos hle]
      exact ⟨by omega, rfl, by omega⟩
    · rw [if_neg hle]
      exact ⟨by omega, rfl, by omega⟩

/-- Witness of C30: `Initialize(WS2812B, 1000, ...)` on a new object gives `m_nLedCount = 680`
and `m_nBufSize = 24000`, which is not `680 * 24 = 16320`. -/
theorem C30_buffer_size_from_unclamped_count_witness :
    (Initialize sampleWS28xxConstants (init sampleWS28xxConstants) TWS28XXType.WS2812B 1000).map
        (fun w => (w.m_tWS28xxType, w.m_nLedCount, w.m_nBufSize))
      = some (TWS28XXType.WS2812B, 680, 24000) ∧
    ∃ w', Initialize sampleWS28xxConstants (init sampleWS28xxConstants) TWS28XXType.WS2812B 1000
        = some w' ∧
      (w'.m_tWS28xxType ≠ TWS28XXType.SK6812W →
        w'.m_nLedCount = min 1000 680 ∧ w'.m_nBufSize = 1000 * 24 ∧
        (w'.m_nBufSize = w'.m_nLedCount * 24 ↔ 1000 ≤ 680)) :=
  ⟨by decide,
    (C30_buffer_size_from_unclamped_count sampleWS28xxConstants (init sampleWS28xxConstants)
      TWS28XXType.WS2812B 1000 (by decide) (by decide)).imp fun _ h => ⟨h.1, h.2.2⟩⟩

end WS28xxMulti

end RpiDmx512
